import Mathlib

/-!
# PROS pthread shim (`src/rtos/pthread.c`): embedding and verification

The C file layers POSIX-style threads and mutexes on top of a FreeRTOS-like
kernel.  The embedding keeps the two halves of the file apart:

* the thread registry and lifecycle (`State`, `pthread_create`, `pthread_join`,
  `pthread_detach`, the exit protocol of `pthread_task_fn`);
* the mutex subsystem (`MState`, `pthread_mutex_init`, `pthread_mutex_destroy`,
  `pthread_mutex_lock`, ...).

Runs of several tasks are sequences of moves of `Sys.step`: a call is one move
for each stretch in which it holds the registry mutex, and one move for each
access to the shared state outside such a stretch.

Pointers and kernel handles are natural numbers, `0` is `NULL`.  Results of
kernel calls whose outcome the C code only tests (`kmalloc`, `task_create`,
`sem_wait` on the registry mutex) are explicit arguments of the embedded
functions.  Reading through a pointer that does not name an allocated object is
a fault: the embedded function returns `none`.
-/

namespace RtosPthread

/-! ## Constants -/

/-- Source macro `#define RTOS_PTHREAD_STATE_EXITED (1 << 1)`. -/
def RTOS_PTHREAD_STATE_EXITED : Nat := 1 <<< 1

/-- Source macro `#define RTOS_PTHREAD_STATE_RUN (1 << 2)`. -/
def RTOS_PTHREAD_STATE_RUN : Nat := 1 <<< 2

/-- Modelled from the spec: the error codes are named by the source and the
spec but defined in the C library's `errno.h`, which is not part of the
sources; the newlib values of the target toolchain are used. -/
def ESRCH : Nat := 3
/-- Modelled from the spec: newlib `errno.h` value (see `ESRCH`). -/
def EAGAIN : Nat := 11
/-- Modelled from the spec: newlib `errno.h` value (see `ESRCH`). -/
def ENOMEM : Nat := 12
/-- Modelled from the spec: newlib `errno.h` value (see `ESRCH`). -/
def EBUSY : Nat := 16
/-- Modelled from the spec: newlib `errno.h` value (see `ESRCH`). -/
def EINVAL : Nat := 22
/-- Modelled from the spec: newlib `errno.h` value (see `ESRCH`). -/
def ENOMSG : Nat := 35
/-- Modelled from the spec: newlib `errno.h` value (see `ESRCH`). -/
def EDEADLK : Nat := 45
/-- Modelled from the spec: newlib `errno.h` value (see `ESRCH`). -/
def ENOSYS : Nat := 88

/-! ## Thread registry: data model -/

/-- The two slots of a kernel `list_item_t` that the shim uses: the integer
value slot (kernel task handle) and the owner slot (descriptor address). -/
structure list_item_t where
  xItemValue : Nat
  pvOwner : Nat
deriving DecidableEq

/-- Source type `struct rtos_pthread`.  The list item is the first member, so the address
of the item is the address of the descriptor. -/
structure rtos_pthread where
  list_item : list_item_t
  join_handle : Nat
  state : Nat
  detached : Nat
deriving DecidableEq

/-- Source type `struct rtos_pthread_task_arg`. -/
structure rtos_pthread_task_arg where
  fn : Nat
  arg : Nat
deriving DecidableEq

/-- Global state seen by the thread half of the file.

* `threads_list`: the items linked into `threads_list`, head to end, by address;
* `threads_mut`: the registry mutex handle;
* `heap`: the `kmalloc`ed descriptors, by address;
* `args`: the `kmalloc`ed trampoline arguments, by address;
* `tasks`: which kernel task handles name a live task;
* `notified`: which tasks have a pending notification;
* `words`: pointer-sized cells written through out-parameters;
* `errno`: the ambient error variable. -/
structure State where
  threads_list : List Nat
  threads_mut : Nat
  heap : Nat → Option rtos_pthread
  args : Nat → Option rtos_pthread_task_arg
  tasks : Nat → Bool
  notified : Nat → Bool
  words : Nat → Nat
  errno : Nat

/-- The cold system: nothing allocated, no task, `threads_mut = NULL`. -/
def State.cold : State :=
  { threads_list := [], threads_mut := 0, heap := fun _ => none, args := fun _ => none,
    tasks := fun _ => false, notified := fun _ => false, words := fun _ => 0, errno := 0 }

/-! ## Kernel adapter -/

/-- Modelled from the spec: kernel adapter `list_init` (`vListInitialise` of the
kernel's `list.c`, which is not part of the sources).  It points the list's end
marker at itself and sets the item count to zero: the list is empty afterwards,
whatever it held before. -/
def vListInitialise (s : State) : State :=
  { s with threads_list := [] }

/-- Modelled from the spec: kernel adapter `insert_end` (`vListInsertEnd`).  The
shim never advances the list index, so the item is linked last. -/
def vListInsertEnd (s : State) (item : Nat) : State :=
  { s with threads_list := s.threads_list ++ [item] }

/-- Modelled from the spec: kernel adapter `remove` (`uxListRemove`).  Unlinks the
item from the list.  Removing an item that is not linked in `threads_list`
follows stale neighbour pointers in the kernel; that is outside this model
(`none`). -/
def uxListRemove (s : State) (item : Nat) : Option State :=
  if item ∈ s.threads_list then some { s with threads_list := s.threads_list.erase item }
  else none

/-- Modelled from the spec: kernel adapter heap `free`, on a descriptor. -/
def kfree (s : State) (p : Nat) : State :=
  { s with heap := fun a => if a = p then none else s.heap a }

/-- Modelled from the spec: kernel adapter heap `free`, on a trampoline argument. -/
def kfree_arg (s : State) (p : Nat) : State :=
  { s with args := fun a => if a = p then none else s.args a }

/-- Store a descriptor at an address (a write through `pthread->...`). -/
def store (s : State) (p : Nat) (d : rtos_pthread) : State :=
  { s with heap := fun a => if a = p then some d else s.heap a }

/-- Modelled from the spec: kernel adapter `notify(target)` (`task_notify_ext` with
`E_NOTIFY_ACTION_NONE`): marks a notification pending for the task. -/
def task_notify_ext (s : State) (task : Nat) : State :=
  { s with notified := fun t => if t = task then true else s.notified t }

/-- Modelled from the spec: kernel adapter `notify_wait(forever)`, at the moment
it returns in task `task`: the pending notification is consumed. -/
def task_notify_wait (s : State) (task : Nat) : State :=
  { s with notified := fun t => if t = task then false else s.notified t }

/-- Modelled from the spec: kernel adapter `spawn(...) → handle | null`; `task`
is the handle the kernel returns.  A spawned task is alive. -/
def task_create (s : State) (task : Nat) : State :=
  if task = 0 then s else { s with tasks := fun t => if t = task then true else s.tasks t }

/-- Modelled from the spec: kernel adapter `delete(handle | self)`: the task is no
longer alive. -/
def task_delete (s : State) (task : Nat) : State :=
  { s with tasks := fun t => if t = task then false else s.tasks t }

/-! ## Registry operations -/

/-- Source function `rtos_pthread_init`: initialises the list and creates the registry mutex in
its static buffer; `mut_handle` is the handle `mutex_create_static` returns. -/
def rtos_pthread_init (s : State) (mut_handle : Nat) : State :=
  { vListInitialise s with threads_mut := mut_handle }

/-- Source function `rtos_pthread_find_item`: walk the list from the head; the first item on
which the check function returns non-null decides.  `none` when an item of the
list does not lie in an allocated descriptor. -/
def rtos_pthread_find_item (s : State) (item_check_fn : list_item_t → Nat → Nat)
    (check_arg : Nat) : List Nat → Option Nat
  | [] => some 0
  | list_item :: rest =>
    match s.heap list_item with
    | none => none
    | some d =>
      let val := item_check_fn d.list_item check_arg
      if val ≠ 0 then some val
      else rtos_pthread_find_item s item_check_fn check_arg rest

/-- Source function `rtos_pthread_get_handle_by_desc`. -/
def rtos_pthread_get_handle_by_desc (item : list_item_t) (arg : Nat) : Nat :=
  if item.pvOwner = arg then item.xItemValue else 0

/-- Source function `rtos_pthread_find_handle`. -/
def rtos_pthread_find_handle (s : State) (thread : Nat) : Option Nat :=
  rtos_pthread_find_item s rtos_pthread_get_handle_by_desc thread s.threads_list

/-- Source function `rtos_pthread_get_desc_by_handle`. -/
def rtos_pthread_get_desc_by_handle (item : list_item_t) (arg : Nat) : Nat :=
  if arg = item.xItemValue then item.pvOwner else 0

/-- Source function `rtos_pthread_find`. -/
def rtos_pthread_find (s : State) (task_handle : Nat) : Option Nat :=
  rtos_pthread_find_item s rtos_pthread_get_desc_by_handle task_handle s.threads_list

/-- Source function `rtos_pthread_delete`: unlink the descriptor's list item and free the
descriptor.  `none` when the descriptor is not allocated or its item is not
linked. -/
def rtos_pthread_delete (s : State) (pthread : Nat) : Option State :=
  match s.heap pthread with
  | none => none
  | some _ => (uxListRemove s pthread).map (fun s1 => kfree s1 pthread)

/-! ## Thread lifecycle -/

/-- The exit protocol of `pthread_task_fn` (from the `sem_wait` on the registry
mutex to `task_delete(NULL)`), run by task `cur`; `take` tells whether the
`sem_wait` returned `pdTRUE`. -/
def pthread_task_fn_exit (s : State) (cur : Nat) (take : Bool) : Option State :=
  if take = false then some s
  else
    match rtos_pthread_find s cur with
    | none => none
    | some pthread =>
      match s.heap pthread with
      | none => none
      | some d =>
        let s1 : Option State :=
          if d.detached ≠ 0 then rtos_pthread_delete s pthread
          else if d.join_handle ≠ 0 then some (task_notify_ext s d.join_handle)
          else some (store s pthread { d with state := RTOS_PTHREAD_STATE_EXITED })
        s1.map (fun s2 => task_delete s2 cur)

/-- Source function `pthread_create`.  Kernel results are arguments: `mut_handle` is what
`mutex_create_static` returns, `task_arg` and `pthread` what the two `kmalloc`
calls return, `task` what `task_create` returns (`0` is `NULL`), `take` whether
`sem_wait(threads_mut, portMAX_DELAY)` returned `pdTRUE`. -/
def pthread_create (s : State) (thread attr start_routine arg : Nat)
    (mut_handle task_arg pthread task : Nat) (take : Bool) : State × Nat :=
  let s := rtos_pthread_init s mut_handle
  if attr ≠ 0 then (s, ENOSYS)
  else if task_arg = 0 then (s, ENOMEM)
  else
    let s := { s with args := fun a => if a = task_arg then some ⟨0, 0⟩ else s.args a }
    if pthread = 0 then (kfree_arg s task_arg, ENOMEM)
    else
      let s := store s pthread ⟨⟨0, 0⟩, 0, 0, 0⟩
      let s := { s with args := fun a =>
        if a = task_arg then some ⟨start_routine, arg⟩ else s.args a }
      let s := task_create s task
      if task = 0 then (kfree_arg (kfree s pthread) task_arg, EAGAIN)
      else
        let s := store s pthread ⟨⟨task, pthread⟩, 0, 0, 0⟩
        if take = false then (task_delete (kfree_arg (kfree s pthread) task_arg) task, EAGAIN)
        else
          let s := vListInsertEnd s pthread
          let s := task_notify_ext s task
          let s := store s pthread ⟨⟨task, pthread⟩, 0, RTOS_PTHREAD_STATE_RUN, 0⟩
          let s := { s with words := fun a => if a = thread then pthread else s.words a }
          (s, 0)

/-- The part of `pthread_join` that runs between the first `sem_wait` and the
`sem_post`: the lookup, the four error checks and the arming or inline
reclamation.  Returns the new state, `ret` and `wait`.  `take` tells whether the
`sem_wait` returned `pdTRUE`; the code goes on either way. -/
def pthread_join_locked (s : State) (cur thread : Nat) (take : Bool) :
    Option (State × Nat × Bool) :=
  let ret := if take = false then EAGAIN else 0
  match rtos_pthread_find_handle s thread with
  | none => none
  | some task =>
    if task = 0 then some (s, ESRCH, false)
    else
      match s.heap thread with
      | none => none
      | some d =>
        if d.join_handle ≠ 0 then some (s, EINVAL, false)
        else if task = cur then some (s, EDEADLK, false)
        else
          match rtos_pthread_find s cur with
          | none => none
          | some cur_pthread =>
            let is_mutual : Option Bool :=
              if cur_pthread = 0 then some false
              else (s.heap cur_pthread).map (fun c => decide (c.join_handle = task))
            match is_mutual with
            | none => none
            | some true => some (s, EDEADLK, false)
            | some false =>
              if d.state = RTOS_PTHREAD_STATE_RUN then
                some (store s thread { d with join_handle := cur }, ret, true)
              else
                (rtos_pthread_delete s thread).map (fun s1 => (s1, ret, false))

/-- The write `if(retval) *retval = 0`. -/
def write_retval (s : State) (retval : Nat) : State :=
  if retval ≠ 0 then { s with words := fun a => if a = retval then 0 else s.words a } else s

/-- Source function `pthread_join`, called by task `cur`.  `take1` and `take2` are the results
of the two `sem_wait` calls; `wake` is what the rest of the system does to the
global state while the caller is blocked in `task_notify_wait`. -/
def pthread_join (s : State) (cur thread retval : Nat) (take1 : Bool)
    (wake : State → State) (take2 : Bool) : Option (State × Nat) :=
  match pthread_join_locked s cur thread take1 with
  | none => none
  | some (s1, ret, wait) =>
    if ret = 0 ∧ wait = true then
      let s2 := task_notify_wait (wake s1) cur
      if take2 = false then some ({ s2 with errno := ENOMSG }, ENOMSG)
      else (rtos_pthread_delete s2 thread).map (fun s3 => (write_retval s3 retval, ret))
    else some (write_retval s1 retval, ret)

/-- Source function `pthread_detach`; `take` is the result of the `sem_wait`. -/
def pthread_detach (s : State) (thread : Nat) (take : Bool) : Option (State × Nat) :=
  if take = false then some ({ s with errno := ENOMSG }, EAGAIN)
  else
    match rtos_pthread_find_handle s thread with
    | none => none
    | some task =>
      if task = 0 then some ({ s with errno := ESRCH }, ESRCH)
      else
        match s.heap thread with
        | none => none
        | some d => some (store s thread { d with detached := 1 }, 0)

/-! ## Mutex subsystem: data model -/

/-- Modelled from the spec: the mutex type NORMAL; the constant comes from the C
library's `pthread.h`, which is not part of the sources (newlib value). -/
def PTHREAD_MUTEX_NORMAL : Int := 0

/-- Modelled from the spec: the mutex type RECURSIVE (newlib value, see
`PTHREAD_MUTEX_NORMAL`). -/
def PTHREAD_MUTEX_RECURSIVE : Int := 1

/-- Modelled from the spec: the static initializer sentinel `STATIC_INIT`, a
reserved bit pattern that is not a heap address (newlib:
`((pthread_mutex_t) 0xFFFFFFFF)`). -/
def PTHREAD_MUTEX_INITIALIZER : Nat := 0xFFFFFFFF

/-- Modelled from the spec: the timeout `FOREVER` of the kernel adapter. -/
def portMAX_DELAY : Nat := 0xFFFFFFFF

/-- Source type `pthread_mutexattr_t` as far as the shim uses it. -/
structure pthread_mutexattr_t where
  is_initialized : Int
  type : Int
deriving DecidableEq

/-- Source type `struct rtos_pthread_mutex`; its `list_item` member is never used. -/
structure rtos_pthread_mutex where
  sem : Nat
  type : Int
deriving DecidableEq

/-- Modelled from the spec: a kernel mutex primitive.  `recursive` tells which
of `mutex_create` and `mutex_recursive_create` made it, `holder` is the task
holding it (`0` when it is free) and `count` the nesting depth of the holder. -/
structure sem_s where
  recursive : Bool
  holder : Nat
  count : Nat
deriving DecidableEq

/-- State seen by the mutex half of the file.

* `cells`: the user's `pthread_mutex_t` cells, by address;
* `attrs`: the user's attribute objects, by address;
* `mux`: the `kmalloc`ed mutex objects, by address;
* `sems`: the kernel primitives, by handle. -/
structure MState where
  cells : Nat → Nat
  attrs : Nat → Option pthread_mutexattr_t
  mux : Nat → Option rtos_pthread_mutex
  sems : Nat → Option sem_s

/-- How a call ends: it returns, it blocks in the kernel waiting for another
task, or it faults on a pointer that names no object. -/
inductive Res (α : Type) where
  | done : α → Res α
  | blocked : Res α
  | fault : Res α

/-- What a call returned, if it returned. -/
def Res.returned {α : Type} : Res α → Option α
  | Res.done a => some a
  | Res.blocked => none
  | Res.fault => none

/-- Write a kernel primitive. -/
def set_sem (s : MState) (sem : Nat) (k : Option sem_s) : MState :=
  { s with sems := fun h => if h = sem then k else s.sems h }

/-- Modelled from the spec: kernel adapter `sem_take(handle, timeout)` on a
binary mutex, called by task `cur`.  A free mutex is taken; a held one (by
anybody, the caller included) makes a poll (`tmo = 0`) fail and a `FOREVER`
take block. -/
def sem_wait (s : MState) (cur sem tmo : Nat) : Res (MState × Bool) :=
  match s.sems sem with
  | none => Res.fault
  | some k =>
    if k.holder = 0 then Res.done (set_sem s sem (some { k with holder := cur, count := 1 }), true)
    else if tmo = 0 then Res.done (s, false)
    else Res.blocked

/-- Modelled from the spec: kernel adapter `recursive_take(handle, timeout)`,
called by task `cur`.  A free mutex is taken; the holder takes it again and the
nesting depth grows; held by another task, a poll fails and a `FOREVER` take
blocks. -/
def mutex_recursive_take (s : MState) (cur sem tmo : Nat) : Res (MState × Bool) :=
  match s.sems sem with
  | none => Res.fault
  | some k =>
    if k.holder = 0 then Res.done (set_sem s sem (some { k with holder := cur, count := 1 }), true)
    else if k.holder = cur then
      Res.done (set_sem s sem (some { k with count := k.count + 1 }), true)
    else if tmo = 0 then Res.done (s, false)
    else Res.blocked

/-- Modelled from the spec: kernel adapter `sem_give(handle)`: the mutex is free
afterwards; no ownership check. -/
def sem_post (s : MState) (sem : Nat) : Res MState :=
  match s.sems sem with
  | none => Res.fault
  | some k => Res.done (set_sem s sem (some { k with holder := 0, count := 0 }))

/-- Modelled from the spec: kernel adapter `recursive_give(handle)`, called by
task `cur`: the kernel enforces owner identity; the holder's nesting depth
drops by one and the mutex is free when it reaches zero. -/
def mutex_recursive_give (s : MState) (cur sem : Nat) : Res MState :=
  match s.sems sem with
  | none => Res.fault
  | some k =>
    if k.holder = cur then
      if k.count ≤ 1 then Res.done (set_sem s sem (some { k with holder := 0, count := 0 }))
      else Res.done (set_sem s sem (some { k with count := k.count - 1 }))
    else Res.done s

/-- Modelled from the spec: kernel adapter `mutex_create() → handle`; `semh` is
the handle the kernel returns (`0` on failure).  The new binary mutex is free. -/
def mutex_create (s : MState) (semh : Nat) : MState :=
  if semh = 0 then s else set_sem s semh (some ⟨false, 0, 0⟩)

/-- Modelled from the spec: kernel adapter `recursive_mutex_create() → handle`;
`semh` is the handle the kernel returns (`0` on failure).  The new recursive
mutex is free. -/
def mutex_recursive_create (s : MState) (semh : Nat) : MState :=
  if semh = 0 then s else set_sem s semh (some ⟨true, 0, 0⟩)

/-- Modelled from the spec: kernel adapter `sem_delete(handle)`. -/
def sem_delete (s : MState) (sem : Nat) : MState :=
  set_sem s sem none

/-- Store a mutex object at an address (a write through `mux->...`). -/
def store_mux (s : MState) (p : Nat) (m : rtos_pthread_mutex) : MState :=
  { s with mux := fun a => if a = p then some m else s.mux a }

/-- Modelled from the spec: kernel adapter heap `free`, on a mutex object. -/
def kfree_mux (s : MState) (p : Nat) : MState :=
  { s with mux := fun a => if a = p then none else s.mux a }

/-! ## Mutex subsystem: operations -/

/-- Source function `mutexattr_check`. -/
def mutexattr_check (attr : pthread_mutexattr_t) : Nat :=
  if attr.type < PTHREAD_MUTEX_NORMAL ∨ attr.type > PTHREAD_MUTEX_RECURSIVE then EINVAL else 0

/-- Source function `pthread_mutex_init`.  `mutex` and `attr` are pointers (`0` is `NULL`);
`p` is what `kmalloc` returns and `semh` what `mutex_recursive_create` or
`mutex_create` returns (`0` on failure).  `none` when `attr` is non-null and
names no attribute object. -/
def pthread_mutex_init (s : MState) (mutex attr : Nat) (p semh : Nat) : Option (MState × Nat) :=
  if mutex = 0 then some (s, EINVAL)
  else
    let type : Option (Except Nat Int) :=
      if attr ≠ 0 then
        match s.attrs attr with
        | none => none
        | some a =>
          if a.is_initialized = 0 then some (Except.error EINVAL)
          else
            let res := mutexattr_check a
            if res ≠ 0 then some (Except.error res) else some (Except.ok a.type)
      else some (Except.ok PTHREAD_MUTEX_NORMAL)
    match type with
    | none => none
    | some (Except.error e) => some (s, e)
    | some (Except.ok type) =>
      if p = 0 then some (s, ENOMEM)
      else
        let s1 := store_mux s p ⟨0, type⟩
        let s2 :=
          if type = PTHREAD_MUTEX_RECURSIVE then mutex_recursive_create s1 semh
          else mutex_create s1 semh
        let s3 := store_mux s2 p ⟨semh, type⟩
        if semh = 0 then some (kfree_mux s3 p, EAGAIN)
        else some ({ s3 with cells := fun a => if a = mutex then p else s3.cells a }, 0)

/-- Source function `pthread_mutex_lock_internal`, called by task `cur` on the mutex object at
address `mux`. -/
def pthread_mutex_lock_internal (s : MState) (cur mux tmo : Nat) : Res (MState × Nat) :=
  match s.mux mux with
  | none => Res.fault
  | some m =>
    if m.type = PTHREAD_MUTEX_RECURSIVE then
      match mutex_recursive_take s cur m.sem tmo with
      | Res.done (s1, ok) => if ok = false then Res.done (s1, EBUSY) else Res.done (s1, 0)
      | Res.blocked => Res.blocked
      | Res.fault => Res.fault
    else
      match sem_wait s cur m.sem tmo with
      | Res.done (s1, ok) => if ok = false then Res.done (s1, EBUSY) else Res.done (s1, 0)
      | Res.blocked => Res.blocked
      | Res.fault => Res.fault

/-- Source function `pthread_mutex_destroy`, called by task `cur`. -/
def pthread_mutex_destroy (s : MState) (cur mutex : Nat) : Res (MState × Nat) :=
  if mutex = 0 then Res.done (s, EINVAL)
  else
    let mux := s.cells mutex
    match pthread_mutex_lock_internal s cur mux 0 with
    | Res.fault => Res.fault
    | Res.blocked => Res.blocked
    | Res.done (s1, res) =>
      if res = EBUSY then Res.done (s1, EBUSY)
      else
        match s1.mux mux with
        | none => Res.fault
        | some m => Res.done (kfree_mux (sem_delete s1 m.sem) mux, 0)

/-- Source function `pthread_mutex_init_if_static`; the check is made twice, outside and inside
the critical section, on the same cell value in this sequential model. -/
def pthread_mutex_init_if_static (s : MState) (mutex : Nat) (p semh : Nat) :
    Option (MState × Nat) :=
  if s.cells mutex = PTHREAD_MUTEX_INITIALIZER then
    if s.cells mutex = PTHREAD_MUTEX_INITIALIZER then pthread_mutex_init s mutex 0 p semh
    else some (s, 0)
  else some (s, 0)

/-- Source function `pthread_mutex_lock`, called by task `cur`; `p` and `semh` are the kernel's
answers should the cell need promotion. -/
def pthread_mutex_lock (s : MState) (cur mutex : Nat) (p semh : Nat) : Res (MState × Nat) :=
  if mutex = 0 then Res.done (s, EINVAL)
  else
    match pthread_mutex_init_if_static s mutex p semh with
    | none => Res.fault
    | some (s1, res) =>
      if res ≠ 0 then Res.done (s1, res)
      else pthread_mutex_lock_internal s1 cur (s1.cells mutex) portMAX_DELAY

/-- Source function `pthread_mutex_trylock`, called by task `cur`; `p` and `semh` as for
`pthread_mutex_lock`. -/
def pthread_mutex_trylock (s : MState) (cur mutex : Nat) (p semh : Nat) : Res (MState × Nat) :=
  if mutex = 0 then Res.done (s, EINVAL)
  else
    match pthread_mutex_init_if_static s mutex p semh with
    | none => Res.fault
    | some (s1, res) =>
      if res ≠ 0 then Res.done (s1, res)
      else pthread_mutex_lock_internal s1 cur (s1.cells mutex) 0

/-- Source function `pthread_mutex_unlock`, called by task `cur`. -/
def pthread_mutex_unlock (s : MState) (cur mutex : Nat) : Res (MState × Nat) :=
  if mutex = 0 then Res.done (s, EINVAL)
  else
    match s.mux (s.cells mutex) with
    | none => Res.fault
    | some m =>
      if m.type = PTHREAD_MUTEX_RECURSIVE then
        match mutex_recursive_give s cur m.sem with
        | Res.done s1 => Res.done (s1, 0)
        | Res.blocked => Res.blocked
        | Res.fault => Res.fault
      else
        match sem_post s m.sem with
        | Res.done s1 => Res.done (s1, 0)
        | Res.blocked => Res.blocked
        | Res.fault => Res.fault

/-! ## Sequences of calls on one mutex cell -/

/-- One call on a mutex cell: who calls, and for `lock` and `trylock` what the
kernel would answer to `kmalloc` and `mutex_create` should the call promote the
cell. -/
inductive MutexCall where
  | lock (cur p semh : Nat)
  | trylock (cur p semh : Nat)
  | unlock (cur : Nat)

/-- Execute one call on the cell at address `mutex`. -/
def MutexCall.run (s : MState) (mutex : Nat) : MutexCall → Res (MState × Nat)
  | MutexCall.lock cur p semh => pthread_mutex_lock s cur mutex p semh
  | MutexCall.trylock cur p semh => pthread_mutex_trylock s cur mutex p semh
  | MutexCall.unlock cur => pthread_mutex_unlock s cur mutex

/-- The call creates a mutex object: it reaches `pthread_mutex_init` through
`pthread_mutex_init_if_static` and that call returns `0`. -/
def MutexCall.creates (s : MState) (mutex : Nat) : MutexCall → Bool
  | MutexCall.lock _ p semh =>
    decide (mutex ≠ 0 ∧ s.cells mutex = PTHREAD_MUTEX_INITIALIZER) &&
      ((pthread_mutex_init s mutex 0 p semh).map Prod.snd == some 0)
  | MutexCall.trylock _ p semh =>
    decide (mutex ≠ 0 ∧ s.cells mutex = PTHREAD_MUTEX_INITIALIZER) &&
      ((pthread_mutex_init s mutex 0 p semh).map Prod.snd == some 0)
  | MutexCall.unlock _ => false

/-- The address `kmalloc` hands to the call, if the call can allocate. -/
def MutexCall.alloc : MutexCall → Nat
  | MutexCall.lock _ p _ => p
  | MutexCall.trylock _ p _ => p
  | MutexCall.unlock _ => 0

/-- Number of mutex objects created along a sequence of calls on the cell; the
sequence stops at a call that does not return. -/
def objects_created (s : MState) (mutex : Nat) : List MutexCall → Nat
  | [] => 0
  | c :: rest =>
    (if c.creates s mutex then 1 else 0) +
      match c.run s mutex with
      | Res.done (s1, _) => objects_created s1 mutex rest
      | Res.blocked => 0
      | Res.fault => 0

/-- A system with one statically initialised mutex cell at address `8` and
nothing else. -/
def static_cell : MState :=
  { cells := fun a => if a = 8 then PTHREAD_MUTEX_INITIALIZER else 0
    attrs := fun _ => none
    mux := fun _ => none
    sems := fun _ => none }

/-- A system with one mutex cell at address `8` holding the object at `40`, of
the given type, whose primitive `60` is held by task `holder` with nesting depth
`count`; attribute object `9` is initialised with the same type. -/
def one_mutex (type : Int) (holder count : Nat) : MState :=
  { cells := fun a => if a = 8 then 40 else 0
    attrs := fun a => if a = 9 then some ⟨1, type⟩ else none
    mux := fun a => if a = 40 then some ⟨60, type⟩ else none
    sems := fun h =>
      if h = 60 then some ⟨decide (type = PTHREAD_MUTEX_RECURSIVE), holder, count⟩ else none }

/-! ## Well-formed registries -/

/-- The registry as `pthread_create` builds it: no item is linked twice, and
every linked item lies in an allocated descriptor at a non-null address, with
that address in its owner slot and a non-null task handle in its value slot. -/
def wf (s : State) : Prop :=
  s.threads_list.Nodup ∧
  ∀ p ∈ s.threads_list, p ≠ 0 ∧
    ∃ d, s.heap p = some d ∧ d.list_item.pvOwner = p ∧ d.list_item.xItemValue ≠ 0

/-- One registered thread: descriptor at address `1`, kernel task `10`, with
the given `state`; task `20` is a second live task. -/
def one_thread (state : Nat) : State :=
  { State.cold with
    threads_list := [1]
    threads_mut := 50
    heap := fun a => if a = 1 then some ⟨⟨10, 1⟩, 0, state, 0⟩ else none
    tasks := fun t => decide (t = 10 ∨ t = 20) }

/-- Two registered threads: descriptor `1` (task `10`, no joiner) and descriptor
`2` (task `20`, whose joiner is task `10`). -/
def two_threads : State :=
  { State.cold with
    threads_list := [1, 2]
    threads_mut := 50
    heap := fun a =>
      if a = 1 then some ⟨⟨10, 1⟩, 0, RTOS_PTHREAD_STATE_RUN, 0⟩
      else if a = 2 then some ⟨⟨20, 2⟩, 10, RTOS_PTHREAD_STATE_RUN, 0⟩
      else none
    tasks := fun t => decide (t = 10 ∨ t = 20) }

/-- The four error checks of `pthread_join` all pass: the handle is registered
at descriptor `d`, `d` has no joiner, its task is not the caller, and the
caller's own descriptor (if it has one) does not have the target's task as its
joiner. -/
def passes_checks (s : State) (cur thread : Nat) (d : rtos_pthread) : Prop :=
  thread ∈ s.threads_list ∧ s.heap thread = some d ∧ d.join_handle = 0 ∧
  d.list_item.xItemValue ≠ cur ∧
  ∀ c dc, rtos_pthread_find s cur = some c → c ≠ 0 → s.heap c = some dc →
    dc.join_handle ≠ d.list_item.xItemValue

/-! ## Concrete runs -/

/-- A booted system before any `pthread_create`: the registry is cold and the
application's main task `20` is alive. -/
def boot : State :=
  { State.cold with tasks := fun t => decide (t = 20) }

/-- Run A, step 1: the main task creates a thread (descriptor `3`, task `11`). -/
def run_a1 : State :=
  (pthread_create boot 100 0 7 0 50 2 3 11 true).1

/-- Run A, step 2: the main task `20` joins thread `3`; the thread is RUN, so
the main task is armed as joiner and blocks. -/
def run_a2 : Option (State × Nat × Bool) :=
  pthread_join_locked run_a1 20 3 true

/-- Run A, step 3: while the main task is blocked, thread `3` is detached. -/
def run_a3 : Option (State × Nat) :=
  run_a2.bind (fun r => pthread_detach r.1 3 true)

/-- Run B, step 2: the main task `20` joins thread `3` and the first take of the
registry mutex fails: the call returns without waiting. -/
def run_b2 : Option (State × Nat) :=
  pthread_join run_a1 20 3 0 false id true

/-- Run B, step 3: thread `3` (task `11`) returns from its entry function and
runs the exit protocol. -/
def run_b3 : Option State :=
  run_b2.bind (fun r => pthread_task_fn_exit r.1 11 true)

/-- Run B, step 4: the main task creates a second thread (descriptor `5`, task
`12`). -/
def run_b4 : Option State :=
  run_b3.map (fun s => (pthread_create s 100 0 7 0 50 4 5 12 true).1)

/-- Run B, step 5: the main task joins thread `5`, all takes succeeding. -/
def run_b5 : Option (State × Nat × Bool) :=
  run_b4.bind (fun s => pthread_join_locked s 20 5 true)

/-- Run B, steps 6 and 7, between the main task's `sem_post` and its second
`sem_wait`: thread `5` detaches itself, returns from its entry function and runs
the exit protocol. -/
def run_b_others (s : State) : State :=
  match pthread_detach s 5 true with
  | none => s
  | some (s1, _) =>
    match pthread_task_fn_exit s1 12 true with
    | none => s1
    | some s2 => s2

/-- Run B, state after step 7. -/
def run_b7 : Option State :=
  run_b5.map (fun r => run_b_others r.1)

/-- Run B, steps 5 to 8 as one call of `pthread_join` by the main task. -/
def run_b8 : Option (State × Nat) :=
  run_b4.bind (fun s => pthread_join s 20 5 0 true run_b_others true)

/-! ## Thread identity -/

/-- Source function `pthread_self`, called by task `cur`; `take` is the result
of `sem_wait(threads_mut, portMAX_DELAY)`.  The returned `pthread_t` is a
number: `0` is the null handle. -/
def pthread_self (s : State) (cur : Nat) (take : Bool) : Option (State × Nat) :=
  if take = false then some ({ s with errno := EAGAIN }, EAGAIN)
  else
    match rtos_pthread_find s cur with
    | none => none
    | some pthread =>
      if pthread = 0 then some ({ s with errno := EINVAL }, pthread)
      else some (s, pthread)

/-! ## Mutex attribute objects -/

/-- Source function `pthread_mutexattr_init`. -/
def pthread_mutexattr_init (s : MState) (attr : Nat) : MState × Nat :=
  if attr = 0 then (s, EINVAL)
  else
    ({ s with attrs := fun x => if x = attr then some ⟨1, PTHREAD_MUTEX_NORMAL⟩ else s.attrs x },
      0)

/-- Source function `pthread_mutexattr_destroy`; `none` when `attr` names no
attribute object. -/
def pthread_mutexattr_destroy (s : MState) (attr : Nat) : Option (MState × Nat) :=
  if attr = 0 then some (s, EINVAL)
  else
    match s.attrs attr with
    | none => none
    | some a =>
      some ({ s with attrs := fun x =>
        if x = attr then some { a with is_initialized := 0 } else s.attrs x }, 0)

/-- Source function `pthread_mutexattr_gettype`. -/
def pthread_mutexattr_gettype (s : MState) : MState × Nat :=
  (s, ENOSYS)

/-- Source function `pthread_mutexattr_settype`.  The check runs on a temporary
attribute object holding only the type; the user's object is written only when
the check passes.  `none` when the write goes through a pointer that names no
attribute object. -/
def pthread_mutexattr_settype (s : MState) (attr : Nat) (type : Int) : Option (MState × Nat) :=
  if attr = 0 then some (s, EINVAL)
  else
    let tmp_attr : pthread_mutexattr_t := { is_initialized := 0, type := type }
    let res := mutexattr_check tmp_attr
    if res = 0 then
      match s.attrs attr with
      | none => none
      | some a =>
        some ({ s with attrs := fun x =>
          if x = attr then some { a with type := type } else s.attrs x }, res)
    else some (s, res)

/-! ## Well-nested use of one mutex by one task -/

/-- Execute a sequence of calls on the cell and collect the return codes; a call
that does not return ends the sequence with its outcome. -/
def run_calls (s : MState) (mutex : Nat) : List MutexCall → Res (MState × List Nat)
  | [] => Res.done (s, [])
  | c :: rest =>
    match c.run s mutex with
    | Res.done (s1, e) =>
      match run_calls s1 mutex rest with
      | Res.done (s2, es) => Res.done (s2, e :: es)
      | Res.blocked => Res.blocked
      | Res.fault => Res.fault
    | Res.blocked => Res.blocked
    | Res.fault => Res.fault

/-- The task that makes the call. -/
def MutexCall.caller : MutexCall → Nat
  | MutexCall.lock cur _ _ => cur
  | MutexCall.trylock cur _ _ => cur
  | MutexCall.unlock cur => cur

/-- The call is an unlock. -/
def MutexCall.is_unlock : MutexCall → Bool
  | MutexCall.unlock _ => true
  | _ => false

/-- Nesting depth reached by a sequence of calls of one task that starts at
depth `d`: a lock or trylock adds one, an unlock removes one; `none` when an
unlock comes at depth zero. -/
def nesting : List MutexCall → Nat → Option Nat
  | [], d => some d
  | c :: rest, d =>
    if c.is_unlock then (if d = 0 then none else nesting rest (d - 1))
    else nesting rest (d + 1)

/-- The cell at `mutex` holds a live mutex object of the given type whose kernel
primitive is held by `holder` (`0`: free) at nesting depth `count`. -/
def mutex_state (s : MState) (mutex : Nat) (type : Int) (holder count : Nat) : Prop :=
  s.cells mutex ≠ PTHREAD_MUTEX_INITIALIZER ∧
  ∃ sem r, s.mux (s.cells mutex) = some ⟨sem, type⟩ ∧ s.sems sem = some ⟨r, holder, count⟩

/-- Holder of a recursive mutex that task `a` has taken `d` times more than it
gave it. -/
def holder_at (a d : Nat) : Nat :=
  if d = 0 then 0 else a

/-! ## Interleaved runs of the thread lifecycle

The registry mutex is held only between a `sem_wait` and the matching
`sem_post`.  A call is cut into phases wherever it touches the shared state
outside such a section; another task can run between two phases. -/

/-- Lines 160 to 163 of `pthread_create`: the unguarded `rtos_pthread_init()`
and the attribute check.  The second component is the value returned when the
call ends in this phase, `none` when it goes on. -/
def pthread_create_init (s : State) (attr mut_handle : Nat) : State × Option Nat :=
  let s := rtos_pthread_init s mut_handle
  if attr ≠ 0 then (s, some ENOSYS) else (s, none)

/-- Lines 164 to 195 of `pthread_create`: the two allocations, the spawn of the
kernel task and the set-up of the list item.  All of it works on objects no
other task knows yet. -/
def pthread_create_alloc (s : State) (start_routine arg task_arg pthread task : Nat) :
    State × Option Nat :=
  if task_arg = 0 then (s, some ENOMEM)
  else
    let s := { s with args := fun a => if a = task_arg then some ⟨0, 0⟩ else s.args a }
    if pthread = 0 then (kfree_arg s task_arg, some ENOMEM)
    else
      let s := store s pthread ⟨⟨0, 0⟩, 0, 0, 0⟩
      let s := { s with args := fun a =>
        if a = task_arg then some ⟨start_routine, arg⟩ else s.args a }
      let s := task_create s task
      if task = 0 then (kfree_arg (kfree s pthread) task_arg, some EAGAIN)
      else (store s pthread ⟨⟨task, pthread⟩, 0, 0, 0⟩, none)

/-- Lines 196 to 205 of `pthread_create`: the take of the registry mutex, the
clean-up when it fails, and the insertion into the list under the mutex. -/
def pthread_create_insert (s : State) (task_arg pthread task : Nat) (take : Bool) :
    State × Option Nat :=
  if take = false then (task_delete (kfree_arg (kfree s pthread) task_arg) task, some EAGAIN)
  else (vListInsertEnd s pthread, none)

/-- Line 208 of `pthread_create`: the notification that lets the new task leave
its wait in `pthread_task_fn`.  It is sent after the `sem_post`. -/
def pthread_create_notify (s : State) (task : Nat) : State :=
  task_notify_ext s task

/-- Lines 210 to 214 of `pthread_create`: the store `pthread->state =
RTOS_PTHREAD_STATE_RUN`, the write of the handle through `thread`, and the
return of `0`.  The store goes through the creator's local pointer: `none` when
the descriptor has been freed in the meantime. -/
def pthread_create_finish (s : State) (thread pthread : Nat) : Option (State × Nat) :=
  match s.heap pthread with
  | none => none
  | some d =>
    let s := store s pthread { d with state := RTOS_PTHREAD_STATE_RUN }
    some ({ s with words := fun a => if a = thread then pthread else s.words a }, 0)

/-- The phases of `pthread_create` run one after the other with nothing in
between. -/
def pthread_create_phases (s : State) (thread attr start_routine arg : Nat)
    (mut_handle task_arg pthread task : Nat) (take : Bool) : State × Nat :=
  match pthread_create_init s attr mut_handle with
  | (s1, some e) => (s1, e)
  | (s1, none) =>
    match pthread_create_alloc s1 start_routine arg task_arg pthread task with
    | (s2, some e) => (s2, e)
    | (s2, none) =>
      match pthread_create_insert s2 task_arg pthread task take with
      | (s3, some e) => (s3, e)
      | (s3, none) =>
        match pthread_create_finish (pthread_create_notify s3 task) thread pthread with
        | some r => r
        | none => (pthread_create_notify s3 task, 0)

/-- Lines 140 to 153 of `pthread_task_fn`: the exit protocol under the registry
mutex, after a successful take.  The `task_delete(NULL)` of line 155 comes after
the `sem_post`. -/
def pthread_task_fn_exit_locked (s : State) (cur : Nat) : Option State :=
  match rtos_pthread_find s cur with
  | none => none
  | some pthread =>
    match s.heap pthread with
    | none => none
    | some d =>
      if d.detached ≠ 0 then rtos_pthread_delete s pthread
      else if d.join_handle ≠ 0 then some (task_notify_ext s d.join_handle)
      else some (store s pthread { d with state := RTOS_PTHREAD_STATE_EXITED })

/-- A call of `pthread_create` that has not returned yet: the line it has
reached (`phase` 0: after line 163, 1: after line 195, 2: after line 205, 3:
after line 208), the calling task, its arguments and its local variables (`0`
while not yet assigned). -/
structure Creator where
  phase : Nat
  caller : Nat
  thread : Nat
  start_routine : Nat
  arg : Nat
  task_arg : Nat
  pthread : Nat
  task : Nat
deriving DecidableEq

/-- The shared state together with the calls that are in progress:
* `creating`: the `pthread_create` calls between two phases;
* `joining`: the `pthread_join` calls blocked in `task_notify_wait` (line 256),
  as caller, handle and `retval` pointer;
* `exiting`: the tasks between the `sem_post` of their exit protocol (line 153)
  and their `task_delete(NULL)` (line 155). -/
structure Sys where
  st : State
  creating : List Creator
  joining : List (Nat × Nat × Nat)
  exiting : List Nat

/-- The moves of the system.  Kernel results are part of the move: the handles
and addresses the kernel returns, and whether a take of the registry mutex
succeeds. -/
inductive Op where
  | create_init (cur thread attr start_routine arg mut_handle : Nat)
  | create_alloc (c : Creator) (task_arg pthread task : Nat)
  | create_insert (c : Creator) (take : Bool)
  | create_notify (c : Creator)
  | create_finish (c : Creator)
  | detach (cur thread : Nat) (take : Bool)
  | join (cur thread retval : Nat) (take : Bool)
  | join_wake (cur thread retval : Nat) (take : Bool)
  | exit (cur : Nat) (take : Bool)
  | exit_delete (cur : Nat)

/-- The move is a later phase of a `pthread_create` that is in progress. -/
def Op.continues_create : Op → Bool
  | Op.create_alloc _ _ _ _ => true
  | Op.create_insert _ _ => true
  | Op.create_notify _ => true
  | Op.create_finish _ => true
  | _ => false

/-- Task `cur` can start a call or leave its entry function: it is alive, it is
not inside a `pthread_create`, not blocked in a `pthread_join` and not past its
exit protocol, and, when it is a task spawned by a `pthread_create` in progress,
that call has sent the notification of line 208 (until then the task sits in
the wait of line 129). -/
def Sys.can_run (σ : Sys) (cur : Nat) : Bool :=
  decide (σ.st.tasks cur = true ∧ cur ∉ σ.exiting ∧
    (∀ c ∈ σ.creating, c.caller ≠ cur ∧ (c.task = cur → c.phase = 3)) ∧
    (∀ j ∈ σ.joining, j.1 ≠ cur))

/-- One move of the system; `none` when the move is not possible in this state
or runs into a fault.  A task makes one call at a time (`Sys.can_run`).

* `create_init` starts a `pthread_create` of task `cur`; the later phases
  continue a call recorded in `creating`.  The kernel hands out memory that is
  not allocated and a task handle that names no live task.
* `detach` is a whole `pthread_detach`.
* `join` is `pthread_join` up to its `sem_post` (line 251); the call then blocks
  (`ret == 0 && wait`) or writes `retval` and returns.
* `join_wake` is the rest of a blocked `pthread_join` once its caller has a
  notification pending: the second take, the removal of the descriptor, the
  write of `retval`.
* `exit` is the exit protocol of `pthread_task_fn` in task `cur` up to its
  `sem_post`, and `exit_delete` the `task_delete(NULL)` that follows.  When the
  take fails the trampoline returns without deleting the task; what the kernel
  does with a task whose function has returned is outside the sources, and the
  system is left as it is.

Between a `sem_wait` and its `sem_post` a call is one move.  `pthread_join`
whose first take fails runs the same statements without the mutex; they are one
move here as well. -/
def Sys.step (σ : Sys) : Op → Option Sys
  | Op.create_init cur thread attr start_routine arg mut_handle =>
    if σ.can_run cur = true then
      match pthread_create_init σ.st attr mut_handle with
      | (s1, some _) => some { σ with st := s1 }
      | (s1, none) =>
        some { σ with st := s1
                      creating := ⟨0, cur, thread, start_routine, arg, 0, 0, 0⟩ :: σ.creating }
    else none
  | Op.create_alloc c task_arg pthread task =>
    if c ∈ σ.creating ∧ c.phase = 0 ∧ (task_arg = 0 ∨ σ.st.args task_arg = none) ∧
        (pthread = 0 ∨ σ.st.heap pthread = none) ∧ (task = 0 ∨ σ.st.tasks task = false) then
      match pthread_create_alloc σ.st c.start_routine c.arg task_arg pthread task with
      | (s1, some _) => some { σ with st := s1, creating := σ.creating.erase c }
      | (s1, none) =>
        some { σ with st := s1
                      creating :=
                        ⟨1, c.caller, c.thread, c.start_routine, c.arg, task_arg, pthread, task⟩
                          :: σ.creating.erase c }
    else none
  | Op.create_insert c take =>
    if c ∈ σ.creating ∧ c.phase = 1 then
      match pthread_create_insert σ.st c.task_arg c.pthread c.task take with
      | (s1, some _) => some { σ with st := s1, creating := σ.creating.erase c }
      | (s1, none) =>
        some { σ with st := s1, creating := { c with phase := 2 } :: σ.creating.erase c }
    else none
  | Op.create_notify c =>
    if c ∈ σ.creating ∧ c.phase = 2 then
      some { σ with st := pthread_create_notify σ.st c.task
                    creating := { c with phase := 3 } :: σ.creating.erase c }
    else none
  | Op.create_finish c =>
    if c ∈ σ.creating ∧ c.phase = 3 then
      (pthread_create_finish σ.st c.thread c.pthread).map
        (fun r => { σ with st := r.1, creating := σ.creating.erase c })
    else none
  | Op.detach cur thread take =>
    if σ.can_run cur = true then
      (pthread_detach σ.st thread take).map (fun r => { σ with st := r.1 })
    else none
  | Op.join cur thread retval take =>
    if σ.can_run cur = true then
      (pthread_join_locked σ.st cur thread take).map (fun r =>
        if r.2.1 = 0 ∧ r.2.2 = true then
          { σ with st := r.1, joining := (cur, thread, retval) :: σ.joining }
        else { σ with st := write_retval r.1 retval })
    else none
  | Op.join_wake cur thread retval take =>
    if (cur, thread, retval) ∈ σ.joining ∧ σ.st.notified cur = true then
      if take = false then
        some { σ with st := { task_notify_wait σ.st cur with errno := ENOMSG }
                      joining := σ.joining.erase (cur, thread, retval) }
      else
        (rtos_pthread_delete (task_notify_wait σ.st cur) thread).map
          (fun s3 => { σ with st := write_retval s3 retval
                              joining := σ.joining.erase (cur, thread, retval) })
    else none
  | Op.exit cur take =>
    if σ.can_run cur = true then
      if take = false then some σ
      else
        (pthread_task_fn_exit_locked σ.st cur).map
          (fun s1 => { σ with st := s1, exiting := cur :: σ.exiting })
    else none
  | Op.exit_delete cur =>
    if cur ∈ σ.exiting then
      some { σ with st := task_delete σ.st cur, exiting := σ.exiting.erase cur }
    else none

/-- A sequence of moves, one after the other. -/
def Sys.run (σ : Sys) : List Op → Option Sys
  | [] => some σ
  | op :: rest => (σ.step op).bind (fun σ1 => σ1.run rest)

/-- One step of the thread lifecycle: some move of the system.  A
`pthread_create` takes up to five steps, and the steps of other calls can come
between them. -/
def Step (σ σ1 : Sys) : Prop :=
  ∃ op, σ.step op = some σ1

/-- States reachable from a cold registry with no call in progress, whatever
tasks are alive at boot. -/
inductive Reachable : Sys → Prop where
  | boot (tasks : Nat → Bool) : Reachable ⟨{ State.cold with tasks := tasks }, [], [], []⟩
  | step (σ σ1 : Sys) : Reachable σ → Step σ σ1 → Reachable σ1

/-- States reachable by runs in which every `pthread_create` goes from its call
to its return with no other move in between: while a creation is in progress
the only moves are its own later phases. -/
inductive ReachableQuiet : Sys → Prop where
  | boot (tasks : Nat → Bool) :
      ReachableQuiet ⟨{ State.cold with tasks := tasks }, [], [], []⟩
  | step (σ σ1 : Sys) (op : Op) : ReachableQuiet σ →
      (σ.creating = [] ∨ op.continues_create = true) → σ.step op = some σ1 →
      ReachableQuiet σ1

/-- No two registered descriptors carry the same task handle. -/
def distinct_values (s : State) : Prop :=
  ∀ p ∈ s.threads_list, ∀ q ∈ s.threads_list, ∀ dp dq, s.heap p = some dp → s.heap q = some dq →
    dp.list_item.xItemValue = dq.list_item.xItemValue → p = q

/-- Run A, state after step 2: the main task is armed as joiner of thread `3`. -/
def run_a2_state : State :=
  store run_a1 3 ⟨⟨11, 3⟩, 20, RTOS_PTHREAD_STATE_RUN, 0⟩

/-- Run C: after run A step 2, thread `3` (task `11`) returns from its entry
function and runs the exit protocol: it notifies its joiner and deletes its
kernel task. -/
def run_c3 : State :=
  task_delete (task_notify_ext run_a2_state 20) 11

/-- One registered RUN thread as in `one_thread`, and a caller's return-value
slot at address `200` that holds the non-null word `99`. -/
def one_thread_slot : State :=
  { one_thread RTOS_PTHREAD_STATE_RUN with words := fun a => if a = 200 then 99 else 0 }

/-- What the rest of the system does while the joiner of `one_thread_slot`
waits: thread `1` (task `10`) runs its exit protocol. -/
def slot_others (s : State) : State :=
  match pthread_task_fn_exit s 10 true with
  | none => s
  | some s1 => s1

/-- What holds of the registry whenever no `pthread_create` is in progress, in
runs where no move comes between the phases of a creation: it is well formed,
it has at most one entry (every `pthread_create` starts from an empty list),
nothing is allocated at the null address, and every registered descriptor has a
live kernel task, or state EXITED, or a joiner recorded. -/
def registry_inv (s : State) : Prop :=
  wf s ∧ s.threads_list.length ≤ 1 ∧ s.heap 0 = none ∧
  ∀ p ∈ s.threads_list, ∀ d, s.heap p = some d →
    (s.tasks d.list_item.xItemValue = true ∨ d.state = RTOS_PTHREAD_STATE_EXITED ∨
      d.join_handle ≠ 0)

/-- What a task between its exit protocol and its `task_delete(NULL)` has left
behind: the task is still alive, and every registered descriptor that carries
its handle has state EXITED or a joiner recorded. -/
def exiting_ok (s : State) (exiting : List Nat) : Prop :=
  ∀ e ∈ exiting, s.tasks e = true ∧
    ∀ p ∈ s.threads_list, ∀ d, s.heap p = some d → d.list_item.xItemValue = e →
      (d.state = RTOS_PTHREAD_STATE_EXITED ∨ d.join_handle ≠ 0)

/-- What holds of the shared state while the creation `c` is the only call of
`pthread_create` in progress and nothing else has run since it started: the
list is empty until the insertion and holds the new descriptor alone after it;
from line 195 on the descriptor is allocated with the new task in its value
slot and state `0`, and the new task is alive. -/
def creator_inv (σ : Sys) (c : Creator) : Prop :=
  (c.phase = 0 ∧ σ.st.threads_list = []) ∨
  (c.pthread ≠ 0 ∧ c.task ≠ 0 ∧
    σ.st.heap c.pthread = some ⟨⟨c.task, c.pthread⟩, 0, 0, 0⟩ ∧
    σ.st.tasks c.task = true ∧ c.task ∉ σ.exiting ∧
    ((c.phase = 1 ∧ σ.st.threads_list = []) ∨
      ((c.phase = 2 ∨ c.phase = 3) ∧ σ.st.threads_list = [c.pthread])))

/-- What holds in every state of a run in which no move comes between the
phases of a `pthread_create`. -/
def quiet_inv (σ : Sys) : Prop :=
  σ.exiting.Nodup ∧ exiting_ok σ.st σ.exiting ∧ σ.st.heap 0 = none ∧
  (σ.creating = [] → registry_inv σ.st) ∧
  (∀ c ∈ σ.creating, σ.creating = [c] ∧ creator_inv σ c)

/-- A sequence of moves in which nothing comes between the phases of a
`pthread_create`: `none` as soon as a move other than a later phase is made
while a creation is in progress. -/
def Sys.run_quiet (σ : Sys) : List Op → Option Sys
  | [] => some σ
  | op :: rest =>
    if σ.creating = [] ∨ op.continues_create = true then
      (σ.step op).bind (fun σ1 => σ1.run_quiet rest)
    else none

/-- The booted system of `boot`, with no call in progress. -/
def boot_sys : Sys :=
  ⟨boot, [], [], []⟩

/-- A booted system with two application tasks, `20` and `21`, before any
`pthread_create`, with no call in progress. -/
def boot2_sys : Sys :=
  ⟨{ State.cold with tasks := fun t => decide (t = 20 ∨ t = 21) }, [], [], []⟩

/-- Task `20` calls `pthread_create(100, NULL, 7, NULL)`; the kernel returns the
argument block `2`, the descriptor `3` and the task `11`, and the take
succeeds.  The moves go up to the notification of line 208; the store of RUN
(line 210) is still to come. -/
def create_ops : List Op :=
  [Op.create_init 20 100 0 7 0 50, Op.create_alloc ⟨0, 20, 100, 7, 0, 0, 0, 0⟩ 2 3 11,
    Op.create_insert ⟨1, 20, 100, 7, 0, 2, 3, 11⟩ true,
    Op.create_notify ⟨2, 20, 100, 7, 0, 2, 3, 11⟩]

/-- Run W: on the system with tasks `20` and `21`, task `20` is inside
`pthread_create`, after the notification of line 208 and before the store of
RUN of line 210. -/
def run_w : Sys :=
  ⟨pthread_create_notify
      (pthread_create_insert
        (pthread_create_alloc (pthread_create_init boot2_sys.st 0 50).1 7 0 2 3 11).1
        2 3 11 true).1 11,
    [⟨3, 20, 100, 7, 0, 2, 3, 11⟩], [], []⟩

/-- Run J: run W, then task `21` joins thread `3`, the take succeeding. -/
def run_j_ops : List Op :=
  create_ops ++ [Op.join 21 3 0 true]

/-- Run J, the state it ends in. -/
def run_j : Sys :=
  (boot2_sys.run run_j_ops).getD boot2_sys

/-- Run C as moves of the system: task `20` creates thread `3` (all phases of
the call, nothing in between), then joins it and blocks; then the exit protocol
of task `11` and its `task_delete(NULL)`. -/
def run_c_ops : List Op :=
  create_ops ++ [Op.create_finish ⟨3, 20, 100, 7, 0, 2, 3, 11⟩, Op.join 20 3 0 true,
    Op.exit 11 true, Op.exit_delete 11]

/-- Run C, the state it ends in: the shared state is `run_c3`, and task `20` is
blocked in its join. -/
def run_c : Sys :=
  ⟨run_c3, [], [(20, 3, 0)], []⟩

/-- Run L: task `20` is inside `pthread_create` as in run W; the new task `11`
runs to its end (exit protocol and `task_delete(NULL)`) before task `20` stores
RUN. -/
def run_l_ops : List Op :=
  create_ops ++ [Op.exit 11 true, Op.exit_delete 11,
    Op.create_finish ⟨3, 20, 100, 7, 0, 2, 3, 11⟩]

/-- Run L, the state it ends in. -/
def run_l : Sys :=
  (boot_sys.run run_l_ops).getD boot_sys

/-! # Theorems -/

/-! ## Lookups on a well-formed registry -/

theorem wf_one_thread (state : Nat) : wf (one_thread state) := by
  refine ⟨by simp [one_thread], ?_⟩
  intro p hp
  have hp1 : p = 1 := by simpa [one_thread] using hp
  subst hp1
  exact ⟨by decide, ⟨⟨10, 1⟩, 0, state, 0⟩, rfl, rfl, by simp⟩

theorem wf_two_threads : wf two_threads := by
  refine ⟨by simp [two_threads], ?_⟩
  intro p hp
  have hp1 : p = 1 ∨ p = 2 := by simpa [two_threads] using hp
  rcases hp1 with h | h <;> subst h
  · exact ⟨by decide, ⟨⟨10, 1⟩, 0, RTOS_PTHREAD_STATE_RUN, 0⟩, rfl, rfl, by decide⟩
  · exact ⟨by decide, ⟨⟨20, 2⟩, 10, RTOS_PTHREAD_STATE_RUN, 0⟩, rfl, rfl, by decide⟩

/-- Owner-slot scan over items that carry their own address: the value slot of
the descriptor at `thread` when it is linked, null otherwise. -/
theorem find_item_handle (s : State) (thread : Nat) (l : List Nat)
    (h : ∀ p ∈ l, p ≠ 0 ∧
      ∃ d, s.heap p = some d ∧ d.list_item.pvOwner = p ∧ d.list_item.xItemValue ≠ 0) :
    rtos_pthread_find_item s rtos_pthread_get_handle_by_desc thread l =
      if thread ∈ l then (s.heap thread).map (fun d => d.list_item.xItemValue) else some 0 := by
  induction l with
  | nil => simp [rtos_pthread_find_item]
  | cons p rest ih =>
    obtain ⟨_, d, hd, hown, hval⟩ := h p (List.mem_cons_self p rest)
    have ih1 := ih (fun q hq => h q (List.mem_cons_of_mem p hq))
    by_cases hpt : p = thread
    · subst hpt
      simp [rtos_pthread_find_item, hd, rtos_pthread_get_handle_by_desc, hown, hval]
    · have hne : ¬ d.list_item.pvOwner = thread := by rw [hown]; exact hpt
      have hne2 : ¬ thread = p := fun e => hpt e.symm
      simp [rtos_pthread_find_item, hd, rtos_pthread_get_handle_by_desc, hne, ih1, hne2]

/-- Value-slot scan over allocated items never faults; a non-null result is a
linked, allocated descriptor whose value slot is the task searched for. -/
theorem find_item_desc (s : State) (task : Nat) (l : List Nat)
    (h : ∀ p ∈ l, p ≠ 0 ∧
      ∃ d, s.heap p = some d ∧ d.list_item.pvOwner = p ∧ d.list_item.xItemValue ≠ 0) :
    ∃ c, rtos_pthread_find_item s rtos_pthread_get_desc_by_handle task l = some c ∧
      (c ≠ 0 → c ∈ l ∧ ∃ dc, s.heap c = some dc ∧ dc.list_item.xItemValue = task) ∧
      (c = 0 → ∀ p ∈ l, ∀ dp, s.heap p = some dp → dp.list_item.xItemValue ≠ task) := by
  induction l with
  | nil => exact ⟨0, by simp [rtos_pthread_find_item], by simp, by simp⟩
  | cons p rest ih =>
    obtain ⟨hp0, d, hd, hown, hval⟩ := h p (List.mem_cons_self p rest)
    obtain ⟨c, hc, hc1, hc2⟩ := ih (fun q hq => h q (List.mem_cons_of_mem p hq))
    by_cases hpt : task = d.list_item.xItemValue
    · refine ⟨p, ?_, fun _ => ⟨List.mem_cons_self p rest, d, hd, hpt.symm⟩, fun e => absurd e hp0⟩
      simp [rtos_pthread_find_item, hd, rtos_pthread_get_desc_by_handle, hpt, hown, hp0]
    · refine ⟨c, ?_, fun e => ?_, fun e => ?_⟩
      · simp [rtos_pthread_find_item, hd, rtos_pthread_get_desc_by_handle, hpt, hc]
      · exact ⟨List.mem_cons_of_mem p (hc1 e).1, (hc1 e).2⟩
      · intro q hq dq hdq
        rcases List.mem_cons.mp hq with hqp | hqr
        · subst hqp
          rw [hd] at hdq
          cases hdq
          exact fun e2 => hpt e2.symm
        · exact hc2 e q hqr dq hdq

theorem find_handle_of_mem (s : State) (thread : Nat) (d : rtos_pthread) (hwf : wf s)
    (hm : thread ∈ s.threads_list) (hd : s.heap thread = some d) :
    rtos_pthread_find_handle s thread = some d.list_item.xItemValue := by
  unfold rtos_pthread_find_handle
  rw [find_item_handle s thread s.threads_list hwf.2]
  simp [hm, hd]

theorem find_handle_of_not_mem (s : State) (thread : Nat) (hwf : wf s)
    (hm : thread ∉ s.threads_list) : rtos_pthread_find_handle s thread = some 0 := by
  unfold rtos_pthread_find_handle
  rw [find_item_handle s thread s.threads_list hwf.2]
  simp [hm]

theorem wf_value_ne_zero (s : State) (thread : Nat) (d : rtos_pthread) (hwf : wf s)
    (hm : thread ∈ s.threads_list) (hd : s.heap thread = some d) :
    d.list_item.xItemValue ≠ 0 := by
  obtain ⟨_, d1, hd1, _, hv⟩ := hwf.2 thread hm
  rw [hd] at hd1
  cases hd1
  exact hv

/-! ## Registry initialisation inside `pthread_create` -/

/-- Whatever the registry held, after a `pthread_create` that returns `0` the
list holds the new descriptor and nothing else. -/
theorem pthread_create_ok_list (s : State) (thread attr start_routine arg : Nat)
    (mut_handle task_arg pthread task : Nat) (take : Bool)
    (h : (pthread_create s thread attr start_routine arg mut_handle task_arg pthread task
      take).2 = 0) :
    (pthread_create s thread attr start_routine arg mut_handle task_arg pthread task
      take).1.threads_list = [pthread] := by
  unfold pthread_create at h ⊢
  by_cases h1 : attr = 0 <;> by_cases h2 : task_arg = 0 <;> by_cases h3 : pthread = 0 <;>
    by_cases h4 : task = 0 <;> cases take <;>
    simp_all [rtos_pthread_init, vListInitialise, vListInsertEnd, store, task_notify_ext,
      task_create, ENOSYS, ENOMEM, EAGAIN]

/-- C1 (evaluation at the failing input).  With descriptor `1` (task `10`)
registered, a `pthread_create` whose allocations, task spawn and mutex take all
succeed returns `0`; before the call both lookups find the old descriptor,
after it neither does, and the list holds the new descriptor `3` alone. -/
theorem pthread_create_drops_registered :
    rtos_pthread_find_handle (one_thread RTOS_PTHREAD_STATE_RUN) 1 = some 10 ∧
    rtos_pthread_find (one_thread RTOS_PTHREAD_STATE_RUN) 10 = some 1 ∧
    (pthread_create (one_thread RTOS_PTHREAD_STATE_RUN) 100 0 7 0 50 2 3 11 true).2 = 0 ∧
    rtos_pthread_find_handle
      (pthread_create (one_thread RTOS_PTHREAD_STATE_RUN) 100 0 7 0 50 2 3 11 true).1 1
        = some 0 ∧
    rtos_pthread_find
      (pthread_create (one_thread RTOS_PTHREAD_STATE_RUN) 100 0 7 0 50 2 3 11 true).1 10
        = some 0 ∧
    (pthread_create (one_thread RTOS_PTHREAD_STATE_RUN) 100 0 7 0 50 2 3 11 true).1.threads_list
        = [3] ∧
    (pthread_create (one_thread RTOS_PTHREAD_STATE_RUN) 100 0 7 0 50 2 3 11 true).1.heap 1
        = some ⟨⟨10, 1⟩, 0, RTOS_PTHREAD_STATE_RUN, 0⟩ := by
  decide

/-! ## `pthread_join` -/

theorem write_retval_threads_list (s : State) (retval : Nat) :
    (write_retval s retval).threads_list = s.threads_list := by
  unfold write_retval
  split <;> rfl

theorem write_retval_heap (s : State) (retval : Nat) :
    (write_retval s retval).heap = s.heap := by
  unfold write_retval
  split <;> rfl

/-- C2.  On a well-formed registry, with the registry-mutex take succeeding,
`pthread_join` answers in this order: `ESRCH` when the handle is not
registered; else `EINVAL` when the target already has a joiner; else `EDEADLK`
when the target's kernel task is the caller; else `EDEADLK` when the caller's
own descriptor has the target's task as its joiner.  In all four cases the only
effect is the null written to a non-null `retval` slot: the list and every
descriptor are as before. -/
theorem pthread_join_error_precedence (s : State) (cur thread retval : Nat)
    (wake : State → State) (take2 : Bool) (hwf : wf s) :
    (thread ∉ s.threads_list →
      pthread_join s cur thread retval true wake take2
        = some (write_retval s retval, ESRCH)) ∧
    (∀ d, thread ∈ s.threads_list → s.heap thread = some d →
      (d.join_handle ≠ 0 →
        pthread_join s cur thread retval true wake take2
          = some (write_retval s retval, EINVAL)) ∧
      (d.join_handle = 0 → d.list_item.xItemValue = cur →
        pthread_join s cur thread retval true wake take2
          = some (write_retval s retval, EDEADLK)) ∧
      (d.join_handle = 0 → d.list_item.xItemValue ≠ cur →
        ∀ c dc, rtos_pthread_find s cur = some c → c ≠ 0 → s.heap c = some dc →
          dc.join_handle = d.list_item.xItemValue →
          pthread_join s cur thread retval true wake take2
            = some (write_retval s retval, EDEADLK))) ∧
    (write_retval s retval).threads_list = s.threads_list ∧
    (write_retval s retval).heap = s.heap := by
  refine ⟨fun hm => ?_, fun d hm hd => ?_, write_retval_threads_list s retval,
    write_retval_heap s retval⟩
  · simp [pthread_join, pthread_join_locked, find_handle_of_not_mem s thread hwf hm, ESRCH]
  · have hv := wf_value_ne_zero s thread d hwf hm hd
    have hf := find_handle_of_mem s thread d hwf hm hd
    refine ⟨fun hj => ?_, fun hj hc => ?_, fun hj hc c dc hfc hc0 hdc hmut => ?_⟩
    · simp [pthread_join, pthread_join_locked, hf, hv, hd, hj, EINVAL]
    · subst hc
      simp [pthread_join, pthread_join_locked, hf, hv, hd, hj, EDEADLK]
    · simp [pthread_join, pthread_join_locked, hf, hv, hd, hj, hc, hfc, hc0, hdc, hmut, EDEADLK]

/-- C2 (witness).  Task `20`, whose descriptor already has task `10` as its
joiner, joins the thread of task `10`: mutual join, `EDEADLK`. -/
theorem pthread_join_error_precedence_witness :
    pthread_join two_threads 20 1 0 true id true = some (write_retval two_threads 0, EDEADLK) :=
  ((pthread_join_error_precedence two_threads 20 1 0 id true wf_two_threads).2.1
    ⟨⟨10, 1⟩, 0, RTOS_PTHREAD_STATE_RUN, 0⟩ (by decide) rfl).2.2 rfl (by decide)
    2 ⟨⟨20, 2⟩, 10, RTOS_PTHREAD_STATE_RUN, 0⟩ (by decide) (by decide) rfl rfl

/-- The locked part of `pthread_join` once the four checks pass. -/
theorem pthread_join_locked_passes (s : State) (cur thread : Nat) (d : rtos_pthread)
    (take : Bool) (hwf : wf s) (hp : passes_checks s cur thread d) :
    pthread_join_locked s cur thread take =
      if d.state = RTOS_PTHREAD_STATE_RUN then
        some (store s thread { d with join_handle := cur },
          if take = false then EAGAIN else 0, true)
      else
        some (kfree { s with threads_list := s.threads_list.erase thread } thread,
          if take = false then EAGAIN else 0, false) := by
  obtain ⟨hm, hd, hj, hc, hmut⟩ := hp
  have hv := wf_value_ne_zero s thread d hwf hm hd
  have hf := find_handle_of_mem s thread d hwf hm hd
  obtain ⟨c, hfc, hc1, _⟩ := find_item_desc s cur s.threads_list hwf.2
  have hfc1 : rtos_pthread_find s cur = some c := hfc
  by_cases hc0 : c = 0
  · subst hc0
    by_cases hst : d.state = RTOS_PTHREAD_STATE_RUN
    · simp [pthread_join_locked, hf, hv, hd, hj, hc, hfc1, hst]
    · simp [pthread_join_locked, hf, hv, hd, hj, hc, hfc1, hst, rtos_pthread_delete,
        uxListRemove, hm]
  · obtain ⟨_, dc, hdc, _⟩ := hc1 hc0
    have hne := hmut c dc hfc1 hc0 hdc
    by_cases hst : d.state = RTOS_PTHREAD_STATE_RUN
    · simp [pthread_join_locked, hf, hv, hd, hj, hc, hfc1, hc0, hdc, hne, hst]
    · simp [pthread_join_locked, hf, hv, hd, hj, hc, hfc1, hc0, hdc, hne, hst,
        rtos_pthread_delete, uxListRemove, hm]

/-- C4 (evaluation at the failing input).  The first registry-mutex take fails
(`take1 = false`).  Joining the RUN thread `1` from task `20` returns `EAGAIN`
but leaves task `20` recorded as its joiner; joining it when it is EXITED
returns `EAGAIN` but unlinks and frees the descriptor; joining an unregistered
handle returns `ESRCH`, not `EAGAIN`. -/
theorem pthread_join_take_failure_not_atomic :
    (pthread_join (one_thread RTOS_PTHREAD_STATE_RUN) 20 1 0 false id true).map
      (fun r => (r.1.threads_list, r.1.heap 1, r.2))
      = some ([1], some ⟨⟨10, 1⟩, 20, RTOS_PTHREAD_STATE_RUN, 0⟩, EAGAIN) ∧
    (pthread_join (one_thread RTOS_PTHREAD_STATE_EXITED) 20 1 0 false id true).map
      (fun r => (r.1.threads_list, r.1.heap 1, r.2)) = some ([], none, EAGAIN) ∧
    (pthread_join (one_thread RTOS_PTHREAD_STATE_RUN) 20 9 0 false id true).map
      (fun r => r.2) = some ESRCH := by
  decide

/-! ## `pthread_detach` -/

/-- Rewriting a descriptor without touching its list item keeps the registry
well formed. -/
theorem wf_store (s : State) (thread : Nat) (d d1 : rtos_pthread) (hwf : wf s)
    (hd : s.heap thread = some d) (hitem : d1.list_item = d.list_item) :
    wf (store s thread d1) := by
  refine ⟨hwf.1, fun p hp => ?_⟩
  obtain ⟨hp0, dp, hdp, hown, hval⟩ := hwf.2 p hp
  refine ⟨hp0, ?_⟩
  by_cases hpt : p = thread
  · subst hpt
    rw [hd] at hdp
    cases hdp
    exact ⟨d1, by simp [store], by rw [hitem]; exact hown, by rw [hitem]; exact hval⟩
  · exact ⟨dp, by simp [store, hpt, hdp], hown, hval⟩

theorem store_store (s : State) (thread : Nat) (d d1 : rtos_pthread) :
    store (store s thread d) thread d1 = store s thread d1 := by
  unfold store
  congr 1
  funext a
  by_cases h : a = thread <;> simp [h]

/-- C7.  On a well-formed registry, with the registry-mutex take succeeding,
`pthread_detach` returns `ESRCH` exactly when the handle is not registered, and
then changes nothing but `errno`; otherwise it returns `0` and rewrites that one
descriptor with `detached` set, its list item, `join_handle` and `state` and
every other descriptor being as before.  A second detach of the still
registered thread returns `0` again and yields the same state as the first. -/
theorem pthread_detach_spec (s : State) (thread : Nat) (hwf : wf s) :
    (thread ∉ s.threads_list →
      pthread_detach s thread true = some ({ s with errno := ESRCH }, ESRCH)) ∧
    (thread ∈ s.threads_list → ∃ d, s.heap thread = some d ∧
      pthread_detach s thread true = some (store s thread { d with detached := 1 }, 0) ∧
      (store s thread { d with detached := 1 }).threads_list = s.threads_list ∧
      (∀ a, a ≠ thread → (store s thread { d with detached := 1 }).heap a = s.heap a) ∧
      (store s thread { d with detached := 1 }).heap thread
        = some ⟨d.list_item, d.join_handle, d.state, 1⟩ ∧
      pthread_detach (store s thread { d with detached := 1 }) thread true
        = some (store s thread { d with detached := 1 }, 0)) ∧
    ((pthread_detach s thread true).map Prod.snd = some ESRCH ↔ thread ∉ s.threads_list) := by
  have hin : thread ∈ s.threads_list → ∃ d, s.heap thread = some d ∧
      pthread_detach s thread true = some (store s thread { d with detached := 1 }, 0) := by
    intro hm
    obtain ⟨_, d, hd, _, hv⟩ := hwf.2 thread hm
    refine ⟨d, hd, ?_⟩
    simp [pthread_detach, find_handle_of_mem s thread d hwf hm hd, hv, hd]
  have hout : thread ∉ s.threads_list →
      pthread_detach s thread true = some ({ s with errno := ESRCH }, ESRCH) := by
    intro hm
    simp [pthread_detach, find_handle_of_not_mem s thread hwf hm]
  refine ⟨hout, fun hm => ?_, ?_⟩
  · obtain ⟨d, hd, hr⟩ := hin hm
    refine ⟨d, hd, hr, rfl, fun a ha => by simp [store, ha], by simp [store], ?_⟩
    have hwf1 : wf (store s thread { d with detached := 1 }) :=
      wf_store s thread d _ hwf hd rfl
    have hd1 : (store s thread { d with detached := 1 }).heap thread
        = some { d with detached := 1 } := by simp [store]
    obtain ⟨_, _, _, hv⟩ := hwf.2 thread hm
    have hf := find_handle_of_mem _ thread _ hwf1 hm hd1
    have hv1 : d.list_item.xItemValue ≠ 0 := wf_value_ne_zero s thread d hwf hm hd
    simp only [pthread_detach, hf, hd1]
    simp [hv1, store_store]
  · by_cases hm : thread ∈ s.threads_list
    · obtain ⟨d, _, hr⟩ := hin hm
      simp [hr, hm, ESRCH]
    · simp [hout hm, hm]

/-- C7 (witness).  Detaching the registered thread `1` returns `0` and sets its
`detached` flag. -/
theorem pthread_detach_spec_witness :
    pthread_detach (one_thread RTOS_PTHREAD_STATE_RUN) 1 true
      = some (store (one_thread RTOS_PTHREAD_STATE_RUN) 1
          ⟨⟨10, 1⟩, 0, RTOS_PTHREAD_STATE_RUN, 1⟩, 0) := by
  obtain ⟨d, hd, hr, _⟩ :=
    (pthread_detach_spec (one_thread RTOS_PTHREAD_STATE_RUN) 1 (wf_one_thread _)).2.1
      (by simp [one_thread])
  have hd1 : d = ⟨⟨10, 1⟩, 0, RTOS_PTHREAD_STATE_RUN, 0⟩ := by
    have h1 : (one_thread RTOS_PTHREAD_STATE_RUN).heap 1
        = some ⟨⟨10, 1⟩, 0, RTOS_PTHREAD_STATE_RUN, 0⟩ := rfl
    rw [hd] at h1
    exact Option.some.inj h1
  subst hd1
  exact hr

/-! ## Runs of the thread lifecycle -/

/-- C5 (evaluation at the failing input).  From the booted system: the main
task creates thread `3`, joins it (the thread is RUN, so the main task becomes
its `join_handle` and waits), and the thread is then detached.  Every call
succeeds, and the registered descriptor ends with `detached` set and a
non-empty `join_handle`. -/
theorem detached_with_joiner_reachable :
    (pthread_create boot 100 0 7 0 50 2 3 11 true).2 = 0 ∧
    run_a2.map (fun r => r.2) = some (0, true) ∧
    run_a3.map (fun r => (r.1.threads_list, r.1.heap 3, r.2))
      = some ([3], some ⟨⟨11, 3⟩, 20, RTOS_PTHREAD_STATE_RUN, 1⟩, 0) := by
  decide

/-- C6 (evaluation at the failing input).  Run B: the main task `20` joins
thread `3` with the first mutex take failing, which arms it as joiner but
returns `EAGAIN` without waiting; thread `3` exits and notifies the main task;
the main task creates thread `5` and joins it, is armed and reaches its wait
with that notification pending; thread `5` detaches itself and exits, so the
exit protocol applies `rtos_pthread_delete` to descriptor `5`; the main task,
woken by the pending notification, applies `rtos_pthread_delete` to descriptor
`5` again, which by then is neither linked nor allocated. -/
theorem descriptor_deleted_by_two_parties :
    run_b2.map (fun r => (r.1.heap 3, r.2))
      = some (some ⟨⟨11, 3⟩, 20, RTOS_PTHREAD_STATE_RUN, 0⟩, EAGAIN) ∧
    run_b3.map (fun s => (s.notified 20, s.tasks 11)) = some (true, false) ∧
    run_b5.map (fun r => (r.1.threads_list, r.1.heap 5, r.1.notified 20, r.2))
      = some ([5], some ⟨⟨12, 5⟩, 20, RTOS_PTHREAD_STATE_RUN, 0⟩, true, 0, true) ∧
    (run_b5.bind (fun r => pthread_detach r.1 5 true)).map
        (fun r => (r.1.heap 5, (rtos_pthread_delete r.1 5).isSome, r.2))
      = some (some ⟨⟨12, 5⟩, 20, RTOS_PTHREAD_STATE_RUN, 1⟩, true, 0) ∧
    run_b7.map (fun s => (s.threads_list, s.heap 5, s.notified 20, s.tasks 12))
      = some ([], none, true, false) ∧
    run_b7.map (fun s => (rtos_pthread_delete (task_notify_wait s 20) 5).isSome) = some false ∧
    run_b8.isSome = false := by
  decide

/-! ## `pthread_mutex_init` -/

/-! ## Projections of the mutex state writes -/

@[simp]
theorem store_mux_cells (s : MState) (p : Nat) (m : rtos_pthread_mutex) :
    (store_mux s p m).cells = s.cells := rfl

@[simp]
theorem store_mux_sems (s : MState) (p : Nat) (m : rtos_pthread_mutex) :
    (store_mux s p m).sems = s.sems := rfl

@[simp]
theorem store_mux_mux (s : MState) (p : Nat) (m : rtos_pthread_mutex) :
    (store_mux s p m).mux = fun a => if a = p then some m else s.mux a := rfl

@[simp]
theorem set_sem_cells (s : MState) (h : Nat) (k : Option sem_s) :
    (set_sem s h k).cells = s.cells := rfl

@[simp]
theorem set_sem_mux (s : MState) (h : Nat) (k : Option sem_s) :
    (set_sem s h k).mux = s.mux := rfl

@[simp]
theorem set_sem_sems (s : MState) (h : Nat) (k : Option sem_s) :
    (set_sem s h k).sems = fun h1 => if h1 = h then k else s.sems h1 := rfl

/-- The primitive `pthread_mutex_init` creates: recursive exactly for the type
RECURSIVE, and none when the kernel returns a null handle. -/
theorem create_by_type (s : MState) (semh : Nat) (type : Int) :
    (if type = PTHREAD_MUTEX_RECURSIVE then mutex_recursive_create s semh
      else mutex_create s semh)
      = if semh = 0 then s
        else set_sem s semh (some ⟨decide (type = PTHREAD_MUTEX_RECURSIVE), 0, 0⟩) := by
  by_cases h : type = PTHREAD_MUTEX_RECURSIVE <;>
    simp [mutex_create, mutex_recursive_create, h]

/-- C10.  For a non-faulting call (`attr` is null or names an attribute
object), `pthread_mutex_init` returns `EINVAL` exactly when the cell pointer is
null, or `attr` is given and is either not initialised or has a type outside
`[NORMAL, RECURSIVE]`.  On return `0` the cell holds the address `p` that
`kmalloc` returned, the object there has the type of `attr` (NORMAL for a null
`attr`) and is backed by a free kernel primitive that is recursive iff the type
is RECURSIVE.  On a non-zero return the cells and the kernel primitives are
unchanged and no object remains allocated by the call: the state is untouched
for `EINVAL` and `ENOMEM`, and for `EAGAIN` the object at `p` has been freed. -/
theorem pthread_mutex_init_spec (s : MState) (mutex attr p semh : Nat)
    (hattr : attr = 0 ∨ ∃ a, s.attrs attr = some a) :
    ∃ s1 e, pthread_mutex_init s mutex attr p semh = some (s1, e) ∧
      (e = EINVAL ↔ mutex = 0 ∨ (attr ≠ 0 ∧ ∃ a, s.attrs attr = some a ∧
        (a.is_initialized = 0 ∨ a.type < PTHREAD_MUTEX_NORMAL ∨
          a.type > PTHREAD_MUTEX_RECURSIVE))) ∧
      (e = 0 ∨ e = EINVAL ∨ e = ENOMEM ∨ e = EAGAIN) ∧
      (e = 0 → p ≠ 0 ∧ s1.cells mutex = p ∧
        ∃ m k, s1.mux p = some m ∧ s1.sems m.sem = some k ∧ k.holder = 0 ∧
          (attr = 0 → m.type = PTHREAD_MUTEX_NORMAL) ∧
          (∀ a, attr ≠ 0 → s.attrs attr = some a → m.type = a.type) ∧
          (k.recursive = true ↔ m.type = PTHREAD_MUTEX_RECURSIVE)) ∧
      (e ≠ 0 → s1.cells = s.cells ∧ s1.sems = s.sems ∧
        (∀ a, a ≠ p → s1.mux a = s.mux a) ∧
        (e = EAGAIN → s1.mux p = none) ∧ (e ≠ EAGAIN → s1 = s)) := by
  by_cases hmutex : mutex = 0
  · exact ⟨s, EINVAL, by simp [pthread_mutex_init, hmutex], by simp [hmutex],
      by simp, by simp [EINVAL], by simp [EINVAL, EAGAIN]⟩
  · -- the type decided by the attribute checks
    have key : ∀ type : Int, (attr = 0 → type = PTHREAD_MUTEX_NORMAL) →
        (∀ a, attr ≠ 0 → s.attrs attr = some a → type = a.type) →
        ¬ (attr ≠ 0 ∧ ∃ a, s.attrs attr = some a ∧
          (a.is_initialized = 0 ∨ a.type < PTHREAD_MUTEX_NORMAL ∨
            a.type > PTHREAD_MUTEX_RECURSIVE)) →
        (pthread_mutex_init s mutex attr p semh =
          if p = 0 then some (s, ENOMEM)
          else if semh = 0 then
            some (kfree_mux (store_mux (store_mux s p ⟨0, type⟩) p ⟨semh, type⟩) p, EAGAIN)
          else some ({ store_mux (set_sem (store_mux s p ⟨0, type⟩) semh
                (some ⟨decide (type = PTHREAD_MUTEX_RECURSIVE), 0, 0⟩)) p ⟨semh, type⟩ with
              cells := fun a => if a = mutex then p else s.cells a }, 0)) →
        ∃ s1 e, pthread_mutex_init s mutex attr p semh = some (s1, e) ∧
          (e = EINVAL ↔ mutex = 0 ∨ (attr ≠ 0 ∧ ∃ a, s.attrs attr = some a ∧
            (a.is_initialized = 0 ∨ a.type < PTHREAD_MUTEX_NORMAL ∨
              a.type > PTHREAD_MUTEX_RECURSIVE))) ∧
          (e = 0 ∨ e = EINVAL ∨ e = ENOMEM ∨ e = EAGAIN) ∧
          (e = 0 → p ≠ 0 ∧ s1.cells mutex = p ∧
            ∃ m k, s1.mux p = some m ∧ s1.sems m.sem = some k ∧ k.holder = 0 ∧
              (attr = 0 → m.type = PTHREAD_MUTEX_NORMAL) ∧
              (∀ a, attr ≠ 0 → s.attrs attr = some a → m.type = a.type) ∧
              (k.recursive = true ↔ m.type = PTHREAD_MUTEX_RECURSIVE)) ∧
          (e ≠ 0 → s1.cells = s.cells ∧ s1.sems = s.sems ∧
            (∀ a, a ≠ p → s1.mux a = s.mux a) ∧
            (e = EAGAIN → s1.mux p = none) ∧ (e ≠ EAGAIN → s1 = s)) := by
      intro type ht0 ht1 hbad hrun
      by_cases hp : p = 0
      · rw [if_pos hp] at hrun
        exact ⟨s, ENOMEM, hrun, by simp [hmutex, hbad, ENOMEM, EINVAL], by simp,
          by simp [ENOMEM], by simp [ENOMEM, EAGAIN]⟩
      · rw [if_neg hp] at hrun
        by_cases hs : semh = 0
        · rw [if_pos hs] at hrun
          refine ⟨_, EAGAIN, hrun, by simp [hmutex, hbad, EAGAIN, EINVAL], by simp,
            by simp [EAGAIN], fun _ => ⟨rfl, rfl, fun a ha => by simp [kfree_mux, store_mux, ha],
              fun _ => by simp [kfree_mux], fun h => absurd rfl h⟩⟩
        · rw [if_neg hs] at hrun
          refine ⟨_, 0, hrun, by simp [hmutex, hbad, EINVAL], by simp, fun _ => ?_, by simp⟩
          refine ⟨hp, by simp, ⟨semh, type⟩, ⟨decide (type = PTHREAD_MUTEX_RECURSIVE), 0, 0⟩,
            by simp [store_mux], by simp [store_mux, set_sem], rfl, ht0, ht1, by simp⟩
    rcases hattr with h0 | ⟨a, ha⟩
    · subst h0
      refine key PTHREAD_MUTEX_NORMAL (fun _ => rfl) (fun a h => absurd rfl h) (by simp) ?_
      by_cases hp : p = 0 <;> by_cases hs : semh = 0 <;>
        simp [pthread_mutex_init, hmutex, hp, hs, create_by_type]
    · by_cases h0 : attr = 0
      · subst h0
        refine key PTHREAD_MUTEX_NORMAL (fun _ => rfl) (fun a h => absurd rfl h) (by simp) ?_
        by_cases hp : p = 0 <;> by_cases hs : semh = 0 <;>
          simp [pthread_mutex_init, hmutex, hp, hs, create_by_type]
      · by_cases hbad : a.is_initialized = 0 ∨ a.type < PTHREAD_MUTEX_NORMAL ∨
            a.type > PTHREAD_MUTEX_RECURSIVE
        · refine ⟨s, EINVAL, ?_, by simp [h0, ha, hbad], by simp, by simp [EINVAL],
            by simp [EINVAL, EAGAIN]⟩
          rcases hbad with hi | hr
          · simp [pthread_mutex_init, hmutex, h0, ha, hi]
          · by_cases hi : a.is_initialized = 0
            · simp [pthread_mutex_init, hmutex, h0, ha, hi]
            · simp [pthread_mutex_init, hmutex, h0, ha, hi, mutexattr_check, hr, EINVAL]
        · refine key a.type (fun h => absurd h h0) (fun a1 _ ha1 => ?_) ?_ ?_
          · rw [ha] at ha1
            cases ha1
            rfl
          · rintro ⟨_, a1, ha1, hb⟩
            rw [ha] at ha1
            cases ha1
            exact hbad hb
          · have hi : ¬ a.is_initialized = 0 := fun h => hbad (Or.inl h)
            have hr : ¬ (a.type < PTHREAD_MUTEX_NORMAL ∨ a.type > PTHREAD_MUTEX_RECURSIVE) :=
              fun h => hbad (Or.inr h)
            by_cases hp : p = 0 <;> by_cases hs : semh = 0 <;>
              simp [pthread_mutex_init, hmutex, h0, ha, hi, mutexattr_check, hr, hp, hs,
                create_by_type]

/-- C10 (witness).  Initialising cell `8` with the initialised RECURSIVE
attribute object `9` does not fault and returns one of the four codes. -/
theorem pthread_mutex_init_spec_witness :
    ∃ s1 e, pthread_mutex_init (one_mutex PTHREAD_MUTEX_RECURSIVE 0 0) 8 9 41 61 = some (s1, e) ∧
      (e = 0 ∨ e = EINVAL ∨ e = ENOMEM ∨ e = EAGAIN) := by
  obtain ⟨s1, e, h, _, h2, _⟩ :=
    pthread_mutex_init_spec (one_mutex PTHREAD_MUTEX_RECURSIVE 0 0) 8 9 41 61
      (Or.inr ⟨⟨1, PTHREAD_MUTEX_RECURSIVE⟩, rfl⟩)
  exact ⟨s1, e, h, h2⟩

/-! ## `pthread_mutex_destroy` -/

/-- C8 (counterexample).  The RECURSIVE mutex in cell `8` is held by task `7`
(nesting depth `1`); `pthread_mutex_destroy` called by task `7` itself does not
return `EBUSY`: it returns `0`, the kernel primitive `60` is deleted and the
object `40` is freed. -/
theorem pthread_mutex_destroy_held_by_caller :
    (one_mutex PTHREAD_MUTEX_RECURSIVE 7 1).sems 60 = some ⟨true, 7, 1⟩ ∧
    (pthread_mutex_destroy (one_mutex PTHREAD_MUTEX_RECURSIVE 7 1) 7 8).returned.map
      (fun r => (r.1.sems 60, r.1.mux 40, r.2)) = some (none, none, 0) := by
  decide

/-- C8 (amended).  For an initialised mutex (the cell holds an object whose
kernel primitive exists): when the mutex is held and it is either not RECURSIVE
or held by a task other than the caller, `pthread_mutex_destroy` returns
`EBUSY` and the whole state is unchanged; when it is free, or RECURSIVE and held
by the caller, it returns `0`, the primitive is deleted and the object freed,
nothing else being touched. -/
theorem pthread_mutex_destroy_spec (s : MState) (cur mutex : Nat) (m : rtos_pthread_mutex)
    (k : sem_s) (hmutex : mutex ≠ 0) (hm : s.mux (s.cells mutex) = some m)
    (hk : s.sems m.sem = some k) :
    (k.holder ≠ 0 → (m.type ≠ PTHREAD_MUTEX_RECURSIVE ∨ k.holder ≠ cur) →
      pthread_mutex_destroy s cur mutex = Res.done (s, EBUSY)) ∧
    ((k.holder = 0 ∨ (m.type = PTHREAD_MUTEX_RECURSIVE ∧ k.holder = cur)) →
      ∃ s1, pthread_mutex_destroy s cur mutex = Res.done (s1, 0) ∧
        s1.sems m.sem = none ∧ s1.mux (s.cells mutex) = none ∧ s1.cells = s.cells ∧
        (∀ h, h ≠ m.sem → s1.sems h = s.sems h) ∧
        (∀ a, a ≠ s.cells mutex → s1.mux a = s.mux a)) := by
  constructor
  · intro hheld hwho
    by_cases hrec : m.type = PTHREAD_MUTEX_RECURSIVE
    · have hne : ¬ k.holder = cur := by
        rcases hwho with h | h
        · exact absurd hrec h
        · exact h
      simp [pthread_mutex_destroy, hmutex, pthread_mutex_lock_internal, hm, hrec,
        mutex_recursive_take, hk, hheld, hne]
    · simp [pthread_mutex_destroy, hmutex, pthread_mutex_lock_internal, hm, hrec,
        sem_wait, hk, hheld]
  · intro hfree
    have h1 : ∃ k1, pthread_mutex_destroy s cur mutex
        = Res.done (kfree_mux (sem_delete (set_sem s m.sem (some k1)) m.sem) (s.cells mutex),
            0) := by
      by_cases hrec : m.type = PTHREAD_MUTEX_RECURSIVE
      · by_cases hh : k.holder = 0
        · exact ⟨{ k with holder := cur, count := 1 }, by
            simp [pthread_mutex_destroy, hmutex, pthread_mutex_lock_internal, hm, hrec,
              mutex_recursive_take, hk, hh, EBUSY, set_sem]⟩
        · have hc : k.holder = cur := by
            rcases hfree with h | h
            · exact absurd h hh
            · exact h.2
          have hcur : ¬ cur = 0 := hc ▸ hh
          exact ⟨{ k with count := k.count + 1 }, by
            simp [pthread_mutex_destroy, hmutex, pthread_mutex_lock_internal, hm, hrec,
              mutex_recursive_take, hk, hc, hcur, EBUSY, set_sem]⟩
      · have hh : k.holder = 0 := by
          rcases hfree with h | h
          · exact h
          · exact absurd h.1 hrec
        exact ⟨{ k with holder := cur, count := 1 }, by
          simp [pthread_mutex_destroy, hmutex, pthread_mutex_lock_internal, hm, hrec,
            sem_wait, hk, hh, EBUSY, set_sem]⟩
    obtain ⟨k1, hk1⟩ := h1
    refine ⟨_, hk1, by simp [kfree_mux, sem_delete, set_sem], by simp [kfree_mux], rfl,
      fun h hne => by simp [kfree_mux, sem_delete, set_sem, hne],
      fun a hne => by simp [kfree_mux, sem_delete, set_sem, hne]⟩

/-- C8 (witness).  The NORMAL mutex in cell `8` is held by task `7`; destroy
called by task `7` returns `EBUSY` and changes nothing. -/
theorem pthread_mutex_destroy_spec_witness :
    pthread_mutex_destroy (one_mutex PTHREAD_MUTEX_NORMAL 7 1) 7 8
      = Res.done (one_mutex PTHREAD_MUTEX_NORMAL 7 1, EBUSY) :=
  (pthread_mutex_destroy_spec (one_mutex PTHREAD_MUTEX_NORMAL 7 1) 7 8
    ⟨60, PTHREAD_MUTEX_NORMAL⟩ ⟨false, 7, 1⟩ (by decide) rfl rfl).1 (by decide)
    (Or.inl (by decide))

/-! ## Static promotion -/

theorem pthread_mutex_lock_internal_frame (s s1 : MState) (cur q tmo e : Nat)
    (h : pthread_mutex_lock_internal s cur q tmo = Res.done (s1, e)) :
    s1.cells = s.cells ∧ s1.mux = s.mux := by
  unfold pthread_mutex_lock_internal at h
  cases hq : s.mux q with
  | none => simp [hq] at h
  | some m =>
    simp only [hq] at h
    by_cases hrec : m.type = PTHREAD_MUTEX_RECURSIVE
    · simp only [hrec, if_true] at h
      unfold mutex_recursive_take at h
      cases hk : s.sems m.sem with
      | none => simp [hk] at h
      | some k =>
        simp only [hk] at h
        by_cases h0 : k.holder = 0
        · simp [h0, set_sem] at h
          obtain ⟨h1, _⟩ := h
          subst h1
          exact ⟨rfl, rfl⟩
        · by_cases hc : k.holder = cur
          · simp [h0, hc, set_sem] at h
            have hcur : ¬ cur = 0 := hc ▸ h0
            simp [hcur] at h
            obtain ⟨h1, _⟩ := h
            subst h1
            exact ⟨rfl, rfl⟩
          · by_cases ht : tmo = 0
            · simp [h0, hc, ht] at h
              obtain ⟨h1, _⟩ := h
              subst h1
              exact ⟨rfl, rfl⟩
            · simp [h0, hc, ht] at h
    · simp only [hrec, if_false] at h
      unfold sem_wait at h
      cases hk : s.sems m.sem with
      | none => simp [hk] at h
      | some k =>
        simp only [hk] at h
        by_cases h0 : k.holder = 0
        · simp [h0, set_sem] at h
          obtain ⟨h1, _⟩ := h
          subst h1
          exact ⟨rfl, rfl⟩
        · by_cases ht : tmo = 0
          · simp [h0, ht] at h
            obtain ⟨h1, _⟩ := h
            subst h1
            exact ⟨rfl, rfl⟩
          · simp [h0, ht] at h

theorem pthread_mutex_unlock_frame (s s1 : MState) (cur mutex e : Nat)
    (h : pthread_mutex_unlock s cur mutex = Res.done (s1, e)) :
    s1.cells = s.cells ∧ s1.mux = s.mux := by
  unfold pthread_mutex_unlock at h
  by_cases hmutex : mutex = 0
  · simp [hmutex] at h
    obtain ⟨h1, _⟩ := h
    subst h1
    exact ⟨rfl, rfl⟩
  · simp only [hmutex, if_false] at h
    cases hq : s.mux (s.cells mutex) with
    | none => simp [hq] at h
    | some m =>
      simp only [hq] at h
      by_cases hrec : m.type = PTHREAD_MUTEX_RECURSIVE
      · simp only [hrec, if_true] at h
        unfold mutex_recursive_give at h
        cases hk : s.sems m.sem with
        | none => simp [hk] at h
        | some k =>
          simp only [hk] at h
          by_cases hc : k.holder = cur
          · by_cases hn : k.count ≤ 1
            · simp [hc, hn, set_sem] at h
              obtain ⟨h1, _⟩ := h
              subst h1
              exact ⟨rfl, rfl⟩
            · simp [hc, hn, set_sem] at h
              obtain ⟨h1, _⟩ := h
              subst h1
              exact ⟨rfl, rfl⟩
          · simp [hc] at h
            obtain ⟨h1, _⟩ := h
            subst h1
            exact ⟨rfl, rfl⟩
      · simp only [hrec, if_false] at h
        unfold sem_post at h
        cases hk : s.sems m.sem with
        | none => simp [hk] at h
        | some k =>
          simp [hk, set_sem] at h
          obtain ⟨h1, _⟩ := h
          subst h1
          exact ⟨rfl, rfl⟩

/-- Result of `pthread_mutex_init` with null attributes, when both kernel calls succeed:
the cell holds `p`, the object at `p` is NORMAL over the free, non-recursive
primitive `semh`, and nothing else changed. -/
theorem pthread_mutex_init_null_attr_ok (s : MState) (mutex p semh : Nat) (hmutex : mutex ≠ 0)
    (hp : p ≠ 0) (hs : semh ≠ 0) :
    ∃ s3, pthread_mutex_init s mutex 0 p semh = some (s3, 0) ∧ s3.cells mutex = p ∧
      s3.mux p = some ⟨semh, PTHREAD_MUTEX_NORMAL⟩ ∧ s3.sems semh = some ⟨false, 0, 0⟩ ∧
      (∀ a, a ≠ mutex → s3.cells a = s.cells a) ∧ (∀ a, a ≠ p → s3.mux a = s.mux a) ∧
      (∀ h, h ≠ semh → s3.sems h = s.sems h) := by
  have hty : ¬ PTHREAD_MUTEX_NORMAL = PTHREAD_MUTEX_RECURSIVE := by decide
  refine ⟨_, by simp only [pthread_mutex_init, hmutex, hp, hs]; simp; rfl, by simp, by simp,
    by simp [hty, mutex_create, hs],
    fun a ha => by simp [ha, hty, mutex_create, hs],
    fun a ha => by simp [ha, hty, mutex_create, hs],
    fun h hh => by simp [hh, hty, mutex_create, hs]⟩

/-- Result of `pthread_mutex_init` with null attributes, when a kernel call fails. -/
theorem pthread_mutex_init_null_attr_fail (s : MState) (mutex p semh : Nat) (hmutex : mutex ≠ 0)
    (hf : p = 0 ∨ semh = 0) :
    ∃ s1, pthread_mutex_init s mutex 0 p semh = some (s1, if p = 0 then ENOMEM else EAGAIN) ∧
      s1.cells = s.cells ∧ s1.sems = s.sems ∧ (∀ a, a ≠ p → s1.mux a = s.mux a) ∧
      (p ≠ 0 → s1.mux p = none) ∧ (p = 0 → s1 = s) := by
  by_cases hp : p = 0
  · exact ⟨s, by simp [pthread_mutex_init, hmutex, hp], rfl, rfl, fun _ _ => rfl,
      fun h => absurd hp h, fun _ => rfl⟩
  · have hs : semh = 0 := by
      rcases hf with h | h
      · exact absurd h hp
      · exact h
    have hrun : pthread_mutex_init s mutex 0 p semh = some (kfree_mux (store_mux
        (store_mux s p ⟨0, PTHREAD_MUTEX_NORMAL⟩) p ⟨0, PTHREAD_MUTEX_NORMAL⟩) p, EAGAIN) := by
      simp [pthread_mutex_init, hmutex, hp, hs, create_by_type]
    rw [if_neg hp]
    exact ⟨_, hrun, rfl, rfl, fun a ha => by simp [kfree_mux, ha], fun _ => by simp [kfree_mux],
      fun h => absurd h hp⟩

/-- Taking a free non-recursive mutex through `pthread_mutex_lock_internal`. -/
theorem pthread_mutex_lock_internal_free (s : MState) (cur q tmo : Nat)
    (m : rtos_pthread_mutex) (k : sem_s) (hm : s.mux q = some m)
    (hn : m.type ≠ PTHREAD_MUTEX_RECURSIVE) (hk : s.sems m.sem = some k) (h0 : k.holder = 0) :
    pthread_mutex_lock_internal s cur q tmo
      = Res.done (set_sem s m.sem (some { k with holder := cur, count := 1 }), 0) := by
  simp [pthread_mutex_lock_internal, hm, hn, sem_wait, hk, h0]

/-- On a sentinel cell, with both kernel calls succeeding, lock and trylock
promote the cell and take the new mutex. -/
theorem lock_promotes (s : MState) (cur mutex p semh : Nat) (hmutex : mutex ≠ 0)
    (hcell : s.cells mutex = PTHREAD_MUTEX_INITIALIZER) (hp : p ≠ 0) (hs : semh ≠ 0) :
    ∃ s1, pthread_mutex_lock s cur mutex p semh = Res.done (s1, 0) ∧
      pthread_mutex_trylock s cur mutex p semh = Res.done (s1, 0) ∧
      s1.cells mutex = p ∧ s1.mux p = some ⟨semh, PTHREAD_MUTEX_NORMAL⟩ ∧
      s1.sems semh = some ⟨false, cur, 1⟩ ∧
      (∀ a, a ≠ mutex → s1.cells a = s.cells a) ∧ (∀ a, a ≠ p → s1.mux a = s.mux a) ∧
      (∀ h, h ≠ semh → s1.sems h = s.sems h) := by
  obtain ⟨s3, h3, hc3, hm3, hk3, hfc, hfm, hfs⟩ :=
    pthread_mutex_init_null_attr_ok s mutex p semh hmutex hp hs
  have hn : (⟨semh, PTHREAD_MUTEX_NORMAL⟩ : rtos_pthread_mutex).type ≠ PTHREAD_MUTEX_RECURSIVE := by
    simp [PTHREAD_MUTEX_NORMAL, PTHREAD_MUTEX_RECURSIVE]
  have hl : ∀ tmo, pthread_mutex_lock_internal s3 cur (s3.cells mutex) tmo
      = Res.done (set_sem s3 semh (some ⟨false, cur, 1⟩), 0) := by
    intro tmo
    rw [hc3]
    exact pthread_mutex_lock_internal_free s3 cur p tmo _ _ hm3 hn hk3 rfl
  refine ⟨set_sem s3 semh (some ⟨false, cur, 1⟩), ?_, ?_, hc3, hm3, by simp [set_sem],
    hfc, hfm, fun h hh => by simp [set_sem, hh, hfs h hh]⟩
  · simp [pthread_mutex_lock, hmutex, pthread_mutex_init_if_static, hcell, h3, hl]
  · simp [pthread_mutex_trylock, hmutex, pthread_mutex_init_if_static, hcell, h3, hl]

/-- On a sentinel cell, when the promotion's init fails, lock and trylock
return its error without taking anything. -/
theorem lock_promotion_fails (s : MState) (cur mutex p semh : Nat) (hmutex : mutex ≠ 0)
    (hcell : s.cells mutex = PTHREAD_MUTEX_INITIALIZER) (hf : p = 0 ∨ semh = 0) :
    ∃ s1, pthread_mutex_lock s cur mutex p semh
        = Res.done (s1, if p = 0 then ENOMEM else EAGAIN) ∧
      pthread_mutex_trylock s cur mutex p semh
        = Res.done (s1, if p = 0 then ENOMEM else EAGAIN) ∧
      s1.cells = s.cells ∧ s1.sems = s.sems ∧ (∀ a, a ≠ p → s1.mux a = s.mux a) ∧
      (p ≠ 0 → s1.mux p = none) ∧ (p = 0 → s1 = s) := by
  obtain ⟨s1, h1, hc, hk, hm, hmp, hp0⟩ :=
    pthread_mutex_init_null_attr_fail s mutex p semh hmutex hf
  have hne : (if p = 0 then ENOMEM else EAGAIN) ≠ 0 := by
    split <;> decide
  refine ⟨s1, ?_, ?_, hc, hk, hm, hmp, hp0⟩
  · simp [pthread_mutex_lock, hmutex, pthread_mutex_init_if_static, hcell, h1, hne]
  · simp [pthread_mutex_trylock, hmutex, pthread_mutex_init_if_static, hcell, h1, hne]

/-- On a cell that does not hold the sentinel, no call writes a cell or the
object heap. -/
theorem run_frame_promoted (s s1 : MState) (mutex e : Nat) (c : MutexCall)
    (hcell : s.cells mutex ≠ PTHREAD_MUTEX_INITIALIZER)
    (h : c.run s mutex = Res.done (s1, e)) : s1.cells = s.cells ∧ s1.mux = s.mux := by
  cases c with
  | lock cur p semh =>
    simp only [MutexCall.run, pthread_mutex_lock] at h
    by_cases hmutex : mutex = 0
    · simp [hmutex] at h
      obtain ⟨h1, _⟩ := h
      subst h1
      exact ⟨rfl, rfl⟩
    · simp [hmutex, pthread_mutex_init_if_static, hcell] at h
      exact pthread_mutex_lock_internal_frame _ _ _ _ _ _ h
  | trylock cur p semh =>
    simp only [MutexCall.run, pthread_mutex_trylock] at h
    by_cases hmutex : mutex = 0
    · simp [hmutex] at h
      obtain ⟨h1, _⟩ := h
      subst h1
      exact ⟨rfl, rfl⟩
    · simp [hmutex, pthread_mutex_init_if_static, hcell] at h
      exact pthread_mutex_lock_internal_frame _ _ _ _ _ _ h
  | unlock cur => exact pthread_mutex_unlock_frame _ _ _ _ _ h

/-- Once the cell is promoted no further object is created. -/
theorem objects_created_promoted (mutex : Nat) (ops : List MutexCall) :
    ∀ s : MState, s.cells mutex ≠ PTHREAD_MUTEX_INITIALIZER → objects_created s mutex ops = 0 := by
  induction ops with
  | nil => intro s _; rfl
  | cons c rest ih =>
    intro s hcell
    have hc : c.creates s mutex = false := by
      cases c <;> simp [MutexCall.creates, hcell]
    simp only [objects_created, hc]
    cases hr : c.run s mutex with
    | done r =>
      obtain ⟨s1, e⟩ := r
      have hf := run_frame_promoted s s1 mutex e c hcell hr
      have hcell1 : s1.cells mutex ≠ PTHREAD_MUTEX_INITIALIZER := by rw [hf.1]; exact hcell
      simp [ih s1 hcell1]
    | blocked => simp
    | fault => simp

/-- With null attributes and a non-null cell pointer, `pthread_mutex_init`
returns `0` exactly when both kernel calls succeed. -/
theorem pthread_mutex_init_null_attr_code (s : MState) (mutex p semh : Nat)
    (hmutex : mutex ≠ 0) :
    ((pthread_mutex_init s mutex 0 p semh).map Prod.snd == some 0)
      = decide (p ≠ 0 ∧ semh ≠ 0) := by
  by_cases hok : p ≠ 0 ∧ semh ≠ 0
  · obtain ⟨s3, h3, _⟩ := pthread_mutex_init_null_attr_ok s mutex p semh hmutex hok.1 hok.2
    simp [h3, hok]
  · have hf : p = 0 ∨ semh = 0 := by
      by_cases hp : p = 0
      · exact Or.inl hp
      · exact Or.inr (by_contra fun hs => hok ⟨hp, hs⟩)
    obtain ⟨s1, h1, _⟩ := pthread_mutex_init_null_attr_fail s mutex p semh hmutex hf
    have hne : (if p = 0 then ENOMEM else EAGAIN) ≠ 0 := by
      split <;> decide
    simp [h1, hok, hne]

/-- What a returning call leaves in a sentinel cell: a heap address when it
created the object, the sentinel otherwise. -/
theorem run_cell_after (s s1 : MState) (mutex e : Nat) (c : MutexCall)
    (hcell : s.cells mutex = PTHREAD_MUTEX_INITIALIZER)
    (halloc : c.alloc ≠ PTHREAD_MUTEX_INITIALIZER)
    (h : c.run s mutex = Res.done (s1, e)) :
    (c.creates s mutex = true → s1.cells mutex ≠ PTHREAD_MUTEX_INITIALIZER) ∧
    (c.creates s mutex = false → s1.cells mutex = PTHREAD_MUTEX_INITIALIZER) := by
  have key : ∀ cur p semh : Nat, p ≠ PTHREAD_MUTEX_INITIALIZER →
      (pthread_mutex_lock s cur mutex p semh = Res.done (s1, e) ∨
        pthread_mutex_trylock s cur mutex p semh = Res.done (s1, e)) →
      ((decide (mutex ≠ 0 ∧ s.cells mutex = PTHREAD_MUTEX_INITIALIZER) &&
          ((pthread_mutex_init s mutex 0 p semh).map Prod.snd == some 0)) = true →
        s1.cells mutex ≠ PTHREAD_MUTEX_INITIALIZER) ∧
      ((decide (mutex ≠ 0 ∧ s.cells mutex = PTHREAD_MUTEX_INITIALIZER) &&
          ((pthread_mutex_init s mutex 0 p semh).map Prod.snd == some 0)) = false →
        s1.cells mutex = PTHREAD_MUTEX_INITIALIZER) := by
    intro cur p semh hpi hrun
    by_cases hmutex : mutex = 0
    · have hs1 : s1 = s := by
        rcases hrun with hr | hr
        · simp [pthread_mutex_lock, hmutex] at hr
          exact hr.1.symm
        · simp [pthread_mutex_trylock, hmutex] at hr
          exact hr.1.symm
      subst hs1
      exact ⟨fun hc => by simp [hmutex] at hc, fun _ => hcell⟩
    · rw [pthread_mutex_init_null_attr_code s mutex p semh hmutex]
      by_cases hok : p ≠ 0 ∧ semh ≠ 0
      · obtain ⟨s2, hl, ht, hc2, _⟩ := lock_promotes s cur mutex p semh hmutex hcell hok.1 hok.2
        have hs1 : s1 = s2 := by
          rcases hrun with hr | hr
          · rw [hl] at hr
            simp at hr
            exact hr.1.symm
          · rw [ht] at hr
            simp at hr
            exact hr.1.symm
        subst hs1
        simp [hmutex, hcell, hok, hc2, hpi]
      · have hf : p = 0 ∨ semh = 0 := by
          by_cases hp : p = 0
          · exact Or.inl hp
          · exact Or.inr (by_contra fun hs => hok ⟨hp, hs⟩)
        obtain ⟨s2, hl, ht, hc2, _⟩ := lock_promotion_fails s cur mutex p semh hmutex hcell hf
        have hs1 : s1 = s2 := by
          rcases hrun with hr | hr
          · rw [hl] at hr
            simp at hr
            exact hr.1.symm
          · rw [ht] at hr
            simp at hr
            exact hr.1.symm
        subst hs1
        simp [hok, hc2, hcell]
  cases c with
  | lock cur p semh => exact key cur p semh halloc (Or.inl h)
  | trylock cur p semh => exact key cur p semh halloc (Or.inr h)
  | unlock cur =>
    have hf := pthread_mutex_unlock_frame _ _ _ _ _ h
    simp [MutexCall.creates, hf.1, hcell]

/-- From a sentinel cell at most one object is created, whatever the calls. -/
theorem objects_created_le_one (mutex : Nat) (ops : List MutexCall) :
    ∀ s : MState, (∀ c ∈ ops, c.alloc ≠ PTHREAD_MUTEX_INITIALIZER) →
      s.cells mutex = PTHREAD_MUTEX_INITIALIZER → objects_created s mutex ops ≤ 1 := by
  induction ops with
  | nil => intro s _ _; simp [objects_created]
  | cons c rest ih =>
    intro s hall hcell
    have hc := hall c (List.mem_cons_self c rest)
    have hrest : ∀ c1 ∈ rest, c1.alloc ≠ PTHREAD_MUTEX_INITIALIZER :=
      fun c1 h1 => hall c1 (List.mem_cons_of_mem c h1)
    simp only [objects_created]
    cases hr : c.run s mutex with
    | done r =>
      obtain ⟨s1, e⟩ := r
      obtain ⟨hyes, hno⟩ := run_cell_after s s1 mutex e c hcell hc hr
      cases hcr : c.creates s mutex with
      | true => simp [objects_created_promoted mutex rest s1 (hyes hcr)]
      | false => simpa using ih s1 hrest (hno hcr)
    | blocked => split <;> simp
    | fault => split <;> simp

/-- A sequence whose first call creates the object creates exactly one. -/
theorem objects_created_eq_one (s : MState) (mutex : Nat) (c : MutexCall)
    (rest : List MutexCall) (hc : c.alloc ≠ PTHREAD_MUTEX_INITIALIZER)
    (hcell : s.cells mutex = PTHREAD_MUTEX_INITIALIZER) (hcr : c.creates s mutex = true) :
    objects_created s mutex (c :: rest) = 1 := by
  simp only [objects_created, hcr]
  cases hr : c.run s mutex with
  | done r =>
    obtain ⟨s1, e⟩ := r
    obtain ⟨hyes, _⟩ := run_cell_after s s1 mutex e c hcell hc hr
    simp [objects_created_promoted mutex rest s1 (hyes hcr)]
  | blocked => simp
  | fault => simp

/-- C9 (counterexample).  On the statically initialised cell `8`, a sequence
consisting of one `pthread_mutex_lock` whose `kmalloc` fails returns `ENOMEM`
and creates no mutex object; when a `pthread_mutex_trylock` follows whose init
succeeds, the one object is created by that second call. -/
theorem static_sequence_creates_none :
    (pthread_mutex_lock static_cell 7 8 0 61).returned.map (fun r => (r.1.cells 8, r.2))
      = some (PTHREAD_MUTEX_INITIALIZER, ENOMEM) ∧
    objects_created static_cell 8 [MutexCall.lock 7 0 61] = 0 ∧
    objects_created static_cell 8 [MutexCall.lock 7 0 61, MutexCall.trylock 7 41 61] = 1 := by
  decide

/-- C9 (amended).  For a non-null cell pointer:
* on a sentinel cell, when the promotion's init succeeds, lock and trylock
  replace the cell by the address of the one new object, of type NORMAL, and
  take its primitive for the caller, nothing else being touched;
* on a sentinel cell, when the promotion's init fails, they return `ENOMEM`
  (no memory) or `EAGAIN` (no primitive), take nothing, leave every cell and
  primitive as it was and no object allocated;
* on a cell that does not hold the sentinel, no call creates an object or
  writes a cell;
* hence a sequence of lock, trylock and unlock calls on a sentinel cell creates
  at most one object, and exactly one when its first call creates it. -/
theorem static_promotion_spec (s : MState) (cur mutex p semh : Nat) (hmutex : mutex ≠ 0) :
    (s.cells mutex = PTHREAD_MUTEX_INITIALIZER → p ≠ 0 → semh ≠ 0 →
      ∃ s1, pthread_mutex_lock s cur mutex p semh = Res.done (s1, 0) ∧
        pthread_mutex_trylock s cur mutex p semh = Res.done (s1, 0) ∧
        s1.cells mutex = p ∧ s1.mux p = some ⟨semh, PTHREAD_MUTEX_NORMAL⟩ ∧
        s1.sems semh = some ⟨false, cur, 1⟩ ∧
        (∀ a, a ≠ mutex → s1.cells a = s.cells a) ∧ (∀ a, a ≠ p → s1.mux a = s.mux a) ∧
        (∀ h, h ≠ semh → s1.sems h = s.sems h)) ∧
    (s.cells mutex = PTHREAD_MUTEX_INITIALIZER → (p = 0 ∨ semh = 0) →
      ∃ s1, pthread_mutex_lock s cur mutex p semh
          = Res.done (s1, if p = 0 then ENOMEM else EAGAIN) ∧
        pthread_mutex_trylock s cur mutex p semh
          = Res.done (s1, if p = 0 then ENOMEM else EAGAIN) ∧
        s1.cells = s.cells ∧ s1.sems = s.sems ∧ (∀ a, a ≠ p → s1.mux a = s.mux a) ∧
        (p ≠ 0 → s1.mux p = none) ∧ (p = 0 → s1 = s)) ∧
    (s.cells mutex ≠ PTHREAD_MUTEX_INITIALIZER → ∀ (c : MutexCall) (s1 : MState) (e : Nat),
      c.run s mutex = Res.done (s1, e) →
        c.creates s mutex = false ∧ s1.cells = s.cells ∧ s1.mux = s.mux) ∧
    (s.cells mutex = PTHREAD_MUTEX_INITIALIZER → ∀ ops : List MutexCall,
      (∀ c ∈ ops, c.alloc ≠ PTHREAD_MUTEX_INITIALIZER) →
        objects_created s mutex ops ≤ 1 ∧
        (∀ c rest, ops = c :: rest → c.creates s mutex = true →
          objects_created s mutex ops = 1)) := by
  refine ⟨fun hcell hp hs => lock_promotes s cur mutex p semh hmutex hcell hp hs,
    fun hcell hf => lock_promotion_fails s cur mutex p semh hmutex hcell hf,
    fun hcell c s1 e hr => ?_, fun hcell ops hall => ?_⟩
  · have hf := run_frame_promoted s s1 mutex e c hcell hr
    refine ⟨?_, hf.1, hf.2⟩
    cases c <;> simp [MutexCall.creates, hcell]
  · refine ⟨objects_created_le_one mutex ops s hall hcell, fun c rest hops hcr => ?_⟩
    subst hops
    exact objects_created_eq_one s mutex c rest (hall c (List.mem_cons_self c rest)) hcell hcr

/-- C9 (witness).  Task `7` locks the statically initialised cell `8`; the
kernel hands out address `41` and primitive `61`: the call returns `0` and the
cell holds `41`. -/
theorem static_promotion_spec_witness :
    ∃ s1, pthread_mutex_lock static_cell 7 8 41 61 = Res.done (s1, 0) ∧ s1.cells 8 = 41 := by
  obtain ⟨s1, hl, _, hc, _⟩ :=
    (static_promotion_spec static_cell 7 8 41 61 (by decide)).1 rfl (by decide) (by decide)
  exact ⟨s1, hl, hc⟩

/-! ## Mutex attributes -/

/-- C12.  For a non-null pointer to an attribute object and every integer `t`:
`pthread_mutexattr_settype` returns `0` and stores `t` as the type (leaving
`is_initialized` and every other object alone) when `t` is NORMAL or RECURSIVE,
and returns `EINVAL` without changing anything for every other `t`; so it
returns `0` iff `t` is one of the two.  The range check `mutexattr_check`
accepts exactly NORMAL and RECURSIVE. -/
theorem pthread_mutexattr_settype_spec (s : MState) (attr : Nat) (a : pthread_mutexattr_t)
    (t : Int) (hattr : attr ≠ 0) (ha : s.attrs attr = some a) :
    ((t = PTHREAD_MUTEX_NORMAL ∨ t = PTHREAD_MUTEX_RECURSIVE) →
      pthread_mutexattr_settype s attr t
        = some ({ s with attrs := fun x =>
            if x = attr then some ⟨a.is_initialized, t⟩ else s.attrs x }, 0)) ∧
    (¬ (t = PTHREAD_MUTEX_NORMAL ∨ t = PTHREAD_MUTEX_RECURSIVE) →
      pthread_mutexattr_settype s attr t = some (s, EINVAL)) ∧
    ((pthread_mutexattr_settype s attr t).map Prod.snd = some 0 ↔
      (t = PTHREAD_MUTEX_NORMAL ∨ t = PTHREAD_MUTEX_RECURSIVE)) ∧
    (∀ b : pthread_mutexattr_t, mutexattr_check b = 0 ↔
      (b.type = PTHREAD_MUTEX_NORMAL ∨ b.type = PTHREAD_MUTEX_RECURSIVE)) := by
  have hchk : ∀ b : pthread_mutexattr_t, mutexattr_check b = 0 ↔
      (b.type = PTHREAD_MUTEX_NORMAL ∨ b.type = PTHREAD_MUTEX_RECURSIVE) := by
    intro b
    unfold mutexattr_check PTHREAD_MUTEX_NORMAL PTHREAD_MUTEX_RECURSIVE EINVAL
    constructor
    · intro h
      by_cases hr : b.type < 0 ∨ b.type > 1
      · simp [hr] at h
      · omega
    · intro h
      have hr : ¬ (b.type < 0 ∨ b.type > 1) := by omega
      simp [hr]
  have hok : (t = PTHREAD_MUTEX_NORMAL ∨ t = PTHREAD_MUTEX_RECURSIVE) →
      pthread_mutexattr_settype s attr t
        = some ({ s with attrs := fun x =>
            if x = attr then some ⟨a.is_initialized, t⟩ else s.attrs x }, 0) := by
    intro ht
    have h0 : mutexattr_check { is_initialized := 0, type := t } = 0 := (hchk _).2 ht
    simp [pthread_mutexattr_settype, hattr, h0, ha]
  have hbad : ¬ (t = PTHREAD_MUTEX_NORMAL ∨ t = PTHREAD_MUTEX_RECURSIVE) →
      pthread_mutexattr_settype s attr t = some (s, EINVAL) := by
    intro ht
    have h0 : mutexattr_check { is_initialized := 0, type := t } = EINVAL := by
      have hne : mutexattr_check { is_initialized := 0, type := t } ≠ 0 :=
        fun h => ht ((hchk _).1 h)
      unfold mutexattr_check at hne ⊢
      split
      · rfl
      · rename_i hr
        simp [hr] at hne
    have hne : ¬ EINVAL = 0 := by decide
    simp [pthread_mutexattr_settype, hattr, h0, hne]
  refine ⟨hok, hbad, ?_, hchk⟩
  by_cases ht : t = PTHREAD_MUTEX_NORMAL ∨ t = PTHREAD_MUTEX_RECURSIVE
  · simp [hok ht, ht]
  · simp [hbad ht, ht, EINVAL]

/-- C12 (witness).  Setting the type of the initialised attribute object `9` to
RECURSIVE returns `0` and stores it. -/
theorem pthread_mutexattr_settype_spec_witness :
    (pthread_mutexattr_settype (one_mutex PTHREAD_MUTEX_NORMAL 0 0) 9
      PTHREAD_MUTEX_RECURSIVE).map (fun r => (r.1.attrs 9, r.2))
      = some (some ⟨1, PTHREAD_MUTEX_RECURSIVE⟩, 0) := by
  rw [(pthread_mutexattr_settype_spec (one_mutex PTHREAD_MUTEX_NORMAL 0 0) 9
    ⟨1, PTHREAD_MUTEX_NORMAL⟩ PTHREAD_MUTEX_RECURSIVE (by decide) rfl).1 (Or.inr rfl)]
  rfl

/-! ## `pthread_self` -/

/-- After a `pthread_create` that returned `0`: the list holds the new
descriptor alone, the descriptor has its own address as owner, the new task as
value, state RUN, no joiner and is not detached, the task is alive and notified,
and the out-parameter holds the descriptor's address. -/
theorem pthread_create_ok_state (s : State) (thread attr start_routine arg : Nat)
    (mut_handle task_arg pthread task : Nat) (take : Bool)
    (h : (pthread_create s thread attr start_routine arg mut_handle task_arg pthread task
      take).2 = 0) :
    pthread ≠ 0 ∧ task ≠ 0 ∧
    (pthread_create s thread attr start_routine arg mut_handle task_arg pthread task
      take).1.threads_list = [pthread] ∧
    (pthread_create s thread attr start_routine arg mut_handle task_arg pthread task
      take).1.heap pthread = some ⟨⟨task, pthread⟩, 0, RTOS_PTHREAD_STATE_RUN, 0⟩ ∧
    (pthread_create s thread attr start_routine arg mut_handle task_arg pthread task
      take).1.tasks task = true ∧
    (pthread_create s thread attr start_routine arg mut_handle task_arg pthread task
      take).1.words thread = pthread := by
  unfold pthread_create at h ⊢
  by_cases h1 : attr = 0 <;> by_cases h2 : task_arg = 0 <;> by_cases h3 : pthread = 0 <;>
    by_cases h4 : task = 0 <;> cases take <;>
    simp_all [rtos_pthread_init, vListInitialise, vListInsertEnd, store, task_notify_ext,
      task_create, ENOSYS, ENOMEM, EAGAIN]

/-- C14 (evaluation at the failing input).  When the registry-mutex take fails,
`pthread_self` sets `errno` to `EAGAIN` and returns `EAGAIN` itself, the number
`11`, as the thread handle: a non-null value. -/
theorem pthread_self_take_failure (s : State) (cur : Nat) :
    pthread_self s cur false = some ({ s with errno := EAGAIN }, EAGAIN) ∧
    EAGAIN = 11 ∧ EAGAIN ≠ 0 := by
  refine ⟨by simp [pthread_self], rfl, by decide⟩

/-! ## The return-value slot of `pthread_join` -/

/-- C15 (evaluation at the failing input).  Task `20` joins the RUN thread `1`
with `retval` pointing at a slot that holds `99`; the thread exits and notifies
it; the second take of the registry mutex fails.  The call returns `ENOMSG` and
the slot still holds `99`.  With the second take succeeding the same call
returns `0` and the slot holds null. -/
theorem pthread_join_enomsg_keeps_retval :
    one_thread_slot.words 200 = 99 ∧
    (pthread_join one_thread_slot 20 1 200 true slot_others false).map
      (fun r => (r.1.words 200, r.1.errno, r.2)) = some (99, ENOMSG, ENOMSG) ∧
    (pthread_join one_thread_slot 20 1 200 true slot_others true).map
      (fun r => (r.1.words 200, r.2)) = some (0, 0) := by
  decide

/-! ## `pthread_create` -/

/-- C16.  The result of `pthread_create` is `ENOSYS` when `attr` is non-null,
else `ENOMEM` when either `kmalloc` fails, else `EAGAIN` when `task_create` or
the registry-mutex take fails, else `0`.  With a non-null `attr` (and likewise
when the first `kmalloc` fails) nothing beyond `rtos_pthread_init` has
happened.  On every non-zero result no descriptor is in the list, the
trampoline argument and the descriptor the call allocated are free again, the
task it spawned is not alive, and no other allocation, task, notification or
out-parameter cell was touched.  On result `0` the list holds the new
descriptor, whose owner slot is its own address and whose value slot is the new
task, with state RUN, not detached and no joiner; the new task is alive and
notified, and the out-parameter holds the descriptor's address. -/
theorem pthread_create_spec (s : State) (thread attr start_routine arg : Nat)
    (mut_handle task_arg pthread task : Nat) (take : Bool) :
    (pthread_create s thread attr start_routine arg mut_handle task_arg pthread task take).2
      = (if attr ≠ 0 then ENOSYS
        else if task_arg = 0 ∨ pthread = 0 then ENOMEM
        else if task = 0 ∨ take = false then EAGAIN
        else 0) ∧
    (attr ≠ 0 ∨ task_arg = 0 →
      (pthread_create s thread attr start_routine arg mut_handle task_arg pthread task take).1
        = rtos_pthread_init s mut_handle) ∧
    ((pthread_create s thread attr start_routine arg mut_handle task_arg pthread task take).2 ≠ 0 →
      (pthread_create s thread attr start_routine arg mut_handle task_arg pthread task
        take).1.threads_list = [] ∧
      (∀ a, a ≠ task_arg →
        (pthread_create s thread attr start_routine arg mut_handle task_arg pthread task
          take).1.args a = s.args a) ∧
      (attr = 0 → task_arg ≠ 0 →
        (pthread_create s thread attr start_routine arg mut_handle task_arg pthread task
          take).1.args task_arg = none) ∧
      (∀ a, a ≠ pthread →
        (pthread_create s thread attr start_routine arg mut_handle task_arg pthread task
          take).1.heap a = s.heap a) ∧
      (attr = 0 → task_arg ≠ 0 → pthread ≠ 0 →
        (pthread_create s thread attr start_routine arg mut_handle task_arg pthread task
          take).1.heap pthread = none) ∧
      (∀ t, t ≠ task →
        (pthread_create s thread attr start_routine arg mut_handle task_arg pthread task
          take).1.tasks t = s.tasks t) ∧
      (attr = 0 → task_arg ≠ 0 → pthread ≠ 0 → task ≠ 0 →
        (pthread_create s thread attr start_routine arg mut_handle task_arg pthread task
          take).1.tasks task = false) ∧
      (pthread_create s thread attr start_routine arg mut_handle task_arg pthread task
        take).1.notified = s.notified ∧
      (pthread_create s thread attr start_routine arg mut_handle task_arg pthread task
        take).1.words = s.words) ∧
    ((pthread_create s thread attr start_routine arg mut_handle task_arg pthread task take).2 = 0 →
      (pthread_create s thread attr start_routine arg mut_handle task_arg pthread task
        take).1.threads_list = [pthread] ∧
      (pthread_create s thread attr start_routine arg mut_handle task_arg pthread task
        take).1.heap pthread = some ⟨⟨task, pthread⟩, 0, RTOS_PTHREAD_STATE_RUN, 0⟩ ∧
      (pthread_create s thread attr start_routine arg mut_handle task_arg pthread task
        take).1.tasks task = true ∧
      (pthread_create s thread attr start_routine arg mut_handle task_arg pthread task
        take).1.notified task = true ∧
      (pthread_create s thread attr start_routine arg mut_handle task_arg pthread task
        take).1.words thread = pthread) := by
  unfold pthread_create
  by_cases h1 : attr = 0 <;> by_cases h2 : task_arg = 0 <;> by_cases h3 : pthread = 0 <;>
    by_cases h4 : task = 0 <;> cases take <;>
    simp [h1, h2, h3, h4, rtos_pthread_init, vListInitialise, vListInsertEnd, store,
      task_notify_ext, task_create, task_delete, kfree, kfree_arg, ENOSYS, ENOMEM, EAGAIN] <;>
    intros <;> simp_all

/-- C16 (witness).  From the booted system a `pthread_create` with every kernel
call succeeding returns `0` and publishes the address of the new descriptor. -/
theorem pthread_create_spec_witness :
    (pthread_create boot 100 0 7 0 50 2 3 11 true).1.threads_list = [3] ∧
    (pthread_create boot 100 0 7 0 50 2 3 11 true).1.words 100 = 3 := by
  obtain ⟨hl, _, _, _, hw⟩ :=
    (pthread_create_spec boot 100 0 7 0 50 2 3 11 true).2.2.2 (by decide)
  exact ⟨hl, hw⟩

/-! ## Exit protocol -/

/-- C18.  On a well-formed registry, with the registry-mutex take succeeding
and the exiting task's descriptor `d` registered at address `p`, the exit
protocol of `pthread_task_fn` does exactly one of three things before deleting
the exiting kernel task:
* `d.detached` set: `p` is unlinked and freed, no notification is sent;
* else `d.join_handle` set: that task is notified; the list and every
  descriptor, `d` included, are as before;
* else: the state of `d` becomes EXITED, its other fields, the list and the
  notifications being as before.
In every case every other descriptor is unchanged. -/
theorem pthread_task_fn_exit_spec (s : State) (cur p : Nat) (d : rtos_pthread) (hwf : wf s)
    (hfind : rtos_pthread_find s cur = some p) (hp : p ≠ 0) (hd : s.heap p = some d) :
    (d.detached ≠ 0 →
      pthread_task_fn_exit s cur true
        = some (task_delete (kfree { s with threads_list := s.threads_list.erase p } p) cur) ∧
      p ∉ s.threads_list.erase p) ∧
    (d.detached = 0 → d.join_handle ≠ 0 →
      pthread_task_fn_exit s cur true
        = some (task_delete (task_notify_ext s d.join_handle) cur)) ∧
    (d.detached = 0 → d.join_handle = 0 →
      pthread_task_fn_exit s cur true
        = some (task_delete (store s p { d with state := RTOS_PTHREAD_STATE_EXITED }) cur)) ∧
    (∀ s1, pthread_task_fn_exit s cur true = some s1 →
      (∀ a, a ≠ p → s1.heap a = s.heap a) ∧
      (∀ t, t ≠ cur → s1.tasks t = s.tasks t) ∧ s1.tasks cur = false ∧
      (d.detached ≠ 0 → s1.heap p = none ∧ s1.notified = s.notified) ∧
      (d.detached = 0 → s1.threads_list = s.threads_list) ∧
      (d.detached = 0 → d.join_handle ≠ 0 →
        s1.heap = s.heap ∧ s1.notified d.join_handle = true ∧
        ∀ t, t ≠ d.join_handle → s1.notified t = s.notified t) ∧
      (d.detached = 0 → d.join_handle = 0 →
        s1.heap p = some ⟨d.list_item, d.join_handle, RTOS_PTHREAD_STATE_EXITED, d.detached⟩ ∧
        s1.notified = s.notified)) := by
  obtain ⟨c, hc, hc1, _⟩ := find_item_desc s cur s.threads_list hwf.2
  have hcp : c = p := by
    have h1 : rtos_pthread_find s cur = some c := hc
    rw [hfind] at h1
    exact (Option.some.inj h1).symm
  subst hcp
  have hm : c ∈ s.threads_list := (hc1 hp).1
  have hnot : c ∉ s.threads_list.erase c := fun h =>
    (List.Nodup.mem_erase_iff hwf.1).mp h |>.1 rfl
  have h1 : d.detached ≠ 0 →
      pthread_task_fn_exit s cur true
        = some (task_delete (kfree { s with threads_list := s.threads_list.erase c } c) cur) := by
    intro hdet
    simp [pthread_task_fn_exit, hfind, hd, hdet, rtos_pthread_delete, uxListRemove, hm]
  have h2 : d.detached = 0 → d.join_handle ≠ 0 →
      pthread_task_fn_exit s cur true
        = some (task_delete (task_notify_ext s d.join_handle) cur) := by
    intro hdet hj
    simp [pthread_task_fn_exit, hfind, hd, hdet, hj]
  have h3 : d.detached = 0 → d.join_handle = 0 →
      pthread_task_fn_exit s cur true
        = some (task_delete (store s c { d with state := RTOS_PTHREAD_STATE_EXITED }) cur) := by
    intro hdet hj
    simp [pthread_task_fn_exit, hfind, hd, hdet, hj]
  refine ⟨fun hdet => ⟨h1 hdet, hnot⟩, h2, h3, fun s1 hs1 => ?_⟩
  by_cases hdet : d.detached = 0
  · by_cases hj : d.join_handle = 0
    · rw [h3 hdet hj] at hs1
      cases hs1
      refine ⟨fun a ha => by simp [task_delete, store, ha],
        fun t ht => by simp [task_delete, store, ht], by simp [task_delete],
        fun h => absurd hdet h, fun _ => rfl, fun _ h => absurd hj h,
        fun _ _ => ⟨by simp [task_delete, store], rfl⟩⟩
    · rw [h2 hdet hj] at hs1
      cases hs1
      refine ⟨fun a _ => rfl, fun t ht => by simp [task_delete, task_notify_ext, ht],
        by simp [task_delete], fun h => absurd hdet h, fun _ => rfl,
        fun _ _ => ⟨rfl, by simp [task_delete, task_notify_ext],
          fun t ht => by simp [task_delete, task_notify_ext, ht]⟩,
        fun _ h => absurd h hj⟩
  · rw [h1 hdet] at hs1
    cases hs1
    refine ⟨fun a ha => by simp [task_delete, kfree, ha],
      fun t ht => by simp [task_delete, kfree, ht], by simp [task_delete],
      fun _ => ⟨by simp [task_delete, kfree], rfl⟩, fun h => absurd h hdet,
      fun h _ => absurd h hdet, fun h _ => absurd h hdet⟩

/-- C18 (witness).  Task `20`, whose descriptor `2` has a joiner (task `10`) and
is not detached, exits: task `10` is notified and nothing else in the registry
changes. -/
theorem pthread_task_fn_exit_spec_witness :
    pthread_task_fn_exit two_threads 20 true
      = some (task_delete (task_notify_ext two_threads 10) 20) :=
  (pthread_task_fn_exit_spec two_threads 20 2 ⟨⟨20, 2⟩, 10, RTOS_PTHREAD_STATE_RUN, 0⟩
    wf_two_threads (by decide) (by decide) rfl).2.1 rfl (by decide)

/-! ## The two lookups -/

/-- Value-slot scan for the task of a linked descriptor `p`, when no other
linked descriptor of the scanned list carries that task: the scan returns `p`. -/
theorem find_item_desc_of_mem (s : State) (p : Nat) (d : rtos_pthread) (l : List Nat)
    (h : ∀ q ∈ l, q ≠ 0 ∧
      ∃ e, s.heap q = some e ∧ e.list_item.pvOwner = q ∧ e.list_item.xItemValue ≠ 0)
    (hd : s.heap p = some d) (hm : p ∈ l)
    (huniq : ∀ q ∈ l, ∀ e, s.heap q = some e →
      e.list_item.xItemValue = d.list_item.xItemValue → q = p) :
    rtos_pthread_find_item s rtos_pthread_get_desc_by_handle d.list_item.xItemValue l
      = some p := by
  induction l with
  | nil => simp at hm
  | cons q rest ih =>
    obtain ⟨hq0, e, he, hown, _⟩ := h q (List.mem_cons_self q rest)
    by_cases hv : d.list_item.xItemValue = e.list_item.xItemValue
    · have hqp : q = p := huniq q (List.mem_cons_self q rest) e he hv.symm
      subst hqp
      simp [rtos_pthread_find_item, he, rtos_pthread_get_desc_by_handle, hv, hown, hq0]
    · have hpr : p ∈ rest := by
        rcases List.mem_cons.mp hm with hpq | hpr
        · subst hpq
          rw [he] at hd
          cases hd
          exact absurd rfl hv
        · exact hpr
      have ih1 := ih (fun q1 hq1 => h q1 (List.mem_cons_of_mem q hq1)) hpr
        (fun q1 hq1 e1 he1 hv1 => huniq q1 (List.mem_cons_of_mem q hq1) e1 he1 hv1)
      simp [rtos_pthread_find_item, he, rtos_pthread_get_desc_by_handle, hv, ih1]

/-- C19.  On a well-formed registry in which no two registered descriptors
carry the same task handle, for every non-null descriptor address `d` and
non-null task handle `t`: `rtos_pthread_find_handle d` returns `t` iff
`rtos_pthread_find t` returns `d`.  A non-null result of either lookup is the
registered entry whose owner slot, respectively value slot, matches, and each
lookup returns null exactly when no registered entry matches; neither lookup
faults. -/
theorem lookups_mutually_inverse (s : State) (hwf : wf s) (hdv : distinct_values s) :
    (∀ d t, d ≠ 0 → t ≠ 0 →
      (rtos_pthread_find_handle s d = some t ↔ rtos_pthread_find s t = some d)) ∧
    (∀ d, ∃ t, rtos_pthread_find_handle s d = some t ∧
      (t ≠ 0 → d ∈ s.threads_list ∧
        ∃ e, s.heap d = some e ∧ e.list_item.pvOwner = d ∧ e.list_item.xItemValue = t) ∧
      (t = 0 ↔ ∀ p ∈ s.threads_list, ∀ e, s.heap p = some e → e.list_item.pvOwner ≠ d)) ∧
    (∀ t, ∃ d, rtos_pthread_find s t = some d ∧
      (d ≠ 0 → d ∈ s.threads_list ∧
        ∃ e, s.heap d = some e ∧ e.list_item.pvOwner = d ∧ e.list_item.xItemValue = t) ∧
      (d = 0 ↔ ∀ p ∈ s.threads_list, ∀ e, s.heap p = some e → e.list_item.xItemValue ≠ t)) := by
  -- the owner-slot lookup
  have hfh : ∀ d, ∃ t, rtos_pthread_find_handle s d = some t ∧
      (t ≠ 0 → d ∈ s.threads_list ∧
        ∃ e, s.heap d = some e ∧ e.list_item.pvOwner = d ∧ e.list_item.xItemValue = t) ∧
      (t = 0 ↔ ∀ p ∈ s.threads_list, ∀ e, s.heap p = some e → e.list_item.pvOwner ≠ d) := by
    intro d
    by_cases hm : d ∈ s.threads_list
    · obtain ⟨_, e, he, hown, hval⟩ := hwf.2 d hm
      refine ⟨e.list_item.xItemValue, find_handle_of_mem s d e hwf hm he,
        fun _ => ⟨hm, e, he, hown, rfl⟩, ⟨fun h0 => absurd h0 hval, fun hno => ?_⟩⟩
      exact absurd hown (hno d hm e he)
    · refine ⟨0, find_handle_of_not_mem s d hwf hm, fun h => absurd rfl h,
        ⟨fun _ p hp e he hown => ?_, fun _ => rfl⟩⟩
      obtain ⟨_, e1, he1, hown1, _⟩ := hwf.2 p hp
      rw [he] at he1
      cases he1
      rw [hown1] at hown
      exact hm (hown ▸ hp)
  -- the value-slot lookup
  have hf : ∀ t, ∃ d, rtos_pthread_find s t = some d ∧
      (d ≠ 0 → d ∈ s.threads_list ∧
        ∃ e, s.heap d = some e ∧ e.list_item.pvOwner = d ∧ e.list_item.xItemValue = t) ∧
      (d = 0 ↔ ∀ p ∈ s.threads_list, ∀ e, s.heap p = some e → e.list_item.xItemValue ≠ t) := by
    intro t
    obtain ⟨c, hc, hc1, hc2⟩ := find_item_desc s t s.threads_list hwf.2
    refine ⟨c, hc, fun h0 => ?_, ⟨hc2, fun hno => ?_⟩⟩
    · obtain ⟨hm, e, he, hv⟩ := hc1 h0
      obtain ⟨_, e1, he1, hown, _⟩ := hwf.2 c hm
      rw [he] at he1
      cases he1
      exact ⟨hm, e, he, hown, hv⟩
    · by_contra h0
      obtain ⟨hm, e, he, hv⟩ := hc1 h0
      exact hno c hm e he hv
  refine ⟨fun d t hd0 ht0 => ⟨fun h => ?_, fun h => ?_⟩, hfh, hf⟩
  · obtain ⟨t1, h1, hin, _⟩ := hfh d
    rw [h] at h1
    cases h1
    obtain ⟨hm, e, he, _, hv⟩ := hin ht0
    have := find_item_desc_of_mem s d e s.threads_list hwf.2 he hm
      (fun q hq e1 he1 hv1 => hdv q hq d hm e1 e he1 he hv1)
    rw [hv] at this
    exact this
  · obtain ⟨d1, h1, hin, _⟩ := hf t
    rw [h] at h1
    cases h1
    obtain ⟨hm, e, he, _, hv⟩ := hin hd0
    rw [← hv]
    exact find_handle_of_mem s d e hwf hm he

theorem distinct_values_two_threads : distinct_values two_threads := by
  intro p hp q hq dp dq hdp hdq hv
  have hp1 : p = 1 ∨ p = 2 := by simpa [two_threads] using hp
  have hq1 : q = 1 ∨ q = 2 := by simpa [two_threads] using hq
  rcases hp1 with h | h <;> rcases hq1 with h1 | h1 <;> subst h <;> subst h1 <;>
    simp [two_threads] at hdp hdq <;> subst hdp <;> subst hdq <;> simp at hv ⊢

/-- C19 (witness).  In the registry with descriptors `1` (task `10`) and `2`
(task `20`): looking up descriptor `2` gives task `20` iff looking up task `20`
gives descriptor `2`. -/
theorem lookups_mutually_inverse_witness :
    rtos_pthread_find_handle two_threads 2 = some 20 ↔ rtos_pthread_find two_threads 20 = some 2 :=
  (lookups_mutually_inverse two_threads wf_two_threads distinct_values_two_threads).1 2 20
    (by decide) (by decide)

/-! ## Handles that are not registered -/

/-- Overwrite, allocate or free the memory at one descriptor address. -/
theorem not_registered_wf (s : State) (thread : Nat) (x : Option rtos_pthread) (hwf : wf s)
    (hm : thread ∉ s.threads_list) :
    wf { s with heap := fun a => if a = thread then x else s.heap a } := by
  refine ⟨hwf.1, fun p hp => ?_⟩
  obtain ⟨hp0, e, he, hown, hval⟩ := hwf.2 p hp
  have hne : p ≠ thread := fun h => hm (h ▸ hp)
  exact ⟨hp0, e, by simp [hne, he], hown, hval⟩

/-- C20.  On a well-formed registry, for every handle that is not registered,
whatever the memory at that address holds (a stale descriptor, anything else,
or nothing allocated at all): `pthread_join` returns `ESRCH` (whether or not
its first take succeeded) and `pthread_detach`, once it holds the registry
mutex, returns `ESRCH`; neither call faults, the heap is left as it was and the
only writes are the null into a non-null `retval` slot and `errno`.  When the
take of `pthread_detach` fails it returns `EAGAIN`, again without touching the
heap. -/
theorem unregistered_handle_not_accessed (s : State) (cur thread retval : Nat) (take1 take2 : Bool)
    (wake : State → State) (x : Option rtos_pthread) (hwf : wf s)
    (hm : thread ∉ s.threads_list) :
    pthread_join { s with heap := fun a => if a = thread then x else s.heap a }
        cur thread retval take1 wake take2
      = some (write_retval { s with heap := fun a => if a = thread then x else s.heap a } retval,
          ESRCH) ∧
    pthread_detach { s with heap := fun a => if a = thread then x else s.heap a } thread true
      = some ({ s with heap := (fun a => if a = thread then x else s.heap a), errno := ESRCH },
          ESRCH) ∧
    pthread_detach { s with heap := fun a => if a = thread then x else s.heap a } thread false
      = some ({ s with heap := (fun a => if a = thread then x else s.heap a), errno := ENOMSG },
          EAGAIN) ∧
    (write_retval { s with heap := fun a => if a = thread then x else s.heap a } retval).heap
        thread = x := by
  have hwf1 := not_registered_wf s thread x hwf hm
  have hm1 : thread ∉
      ({ s with heap := fun a => if a = thread then x else s.heap a } : State).threads_list := hm
  have hf := find_handle_of_not_mem _ thread hwf1 hm1
  refine ⟨?_, ?_, ?_, ?_⟩
  · cases take1 <;> simp [pthread_join, pthread_join_locked, hf, ESRCH]
  · simp [pthread_detach, hf]
  · simp [pthread_detach]
  · simp [write_retval_heap]

/-- C20 (witness).  Handle `9` is not registered and nothing is allocated at
address `9`: `pthread_join` returns `ESRCH` without faulting. -/
theorem unregistered_handle_not_accessed_witness :
    (pthread_join
      { one_thread RTOS_PTHREAD_STATE_RUN with
        heap := fun a => if a = 9 then none else (one_thread RTOS_PTHREAD_STATE_RUN).heap a }
      20 9 0 true id true).map Prod.snd = some ESRCH := by
  rw [(unregistered_handle_not_accessed (one_thread RTOS_PTHREAD_STATE_RUN) 20 9 0 true true id
    none (wf_one_thread _) (by simp [one_thread])).1]
  rfl

/-! ## Recursive and normal mutexes -/

/-- A lock or trylock by the task that holds a recursive mutex at depth `d` (or
by any task `a` when it is free, `d = 0`) returns `0` and the depth grows. -/
theorem recursive_lock_step (s : MState) (mutex a d p semh : Nat) (hmutex : mutex ≠ 0)
    (ha : a ≠ 0)
    (h : mutex_state s mutex PTHREAD_MUTEX_RECURSIVE (holder_at a d) d) :
    ∃ s1, pthread_mutex_lock s a mutex p semh = Res.done (s1, 0) ∧
      pthread_mutex_trylock s a mutex p semh = Res.done (s1, 0) ∧
      mutex_state s1 mutex PTHREAD_MUTEX_RECURSIVE (holder_at a (d + 1)) (d + 1) := by
  obtain ⟨hcell, sem, r, hm, hk⟩ := h
  by_cases hd : d = 0
  · subst hd
    refine ⟨set_sem s sem (some ⟨r, a, 1⟩), ?_, ?_, hcell, sem, r, hm, by simp [holder_at]⟩
    · simp [pthread_mutex_lock, hmutex, pthread_mutex_init_if_static, hcell,
        pthread_mutex_lock_internal, hm, mutex_recursive_take, hk, holder_at]
    · simp [pthread_mutex_trylock, hmutex, pthread_mutex_init_if_static, hcell,
        pthread_mutex_lock_internal, hm, mutex_recursive_take, hk, holder_at]
  · refine ⟨set_sem s sem (some ⟨r, a, d + 1⟩), ?_, ?_, hcell, sem, r, hm,
      by simp [holder_at]⟩
    · simp [pthread_mutex_lock, hmutex, pthread_mutex_init_if_static, hcell,
        pthread_mutex_lock_internal, hm, mutex_recursive_take, hk, holder_at, hd, ha]
    · simp [pthread_mutex_trylock, hmutex, pthread_mutex_init_if_static, hcell,
        pthread_mutex_lock_internal, hm, mutex_recursive_take, hk, holder_at, hd, ha]

/-- An unlock by the holder of a recursive mutex at depth `d ≥ 1` returns `0`
and the depth drops; at depth zero the mutex is free. -/
theorem recursive_unlock_step (s : MState) (mutex a d : Nat) (hmutex : mutex ≠ 0)
    (hd : d ≠ 0) (h : mutex_state s mutex PTHREAD_MUTEX_RECURSIVE (holder_at a d) d) :
    ∃ s1, pthread_mutex_unlock s a mutex = Res.done (s1, 0) ∧
      mutex_state s1 mutex PTHREAD_MUTEX_RECURSIVE (holder_at a (d - 1)) (d - 1) := by
  obtain ⟨hcell, sem, r, hm, hk⟩ := h
  by_cases h1 : d ≤ 1
  · have hd1 : d = 1 := by omega
    subst hd1
    refine ⟨set_sem s sem (some ⟨r, 0, 0⟩), ?_, hcell, sem, r, hm, by simp [holder_at]⟩
    simp [pthread_mutex_unlock, hmutex, hm, mutex_recursive_give, hk, holder_at]
  · have hd2 : d - 1 ≠ 0 := by omega
    refine ⟨set_sem s sem (some ⟨r, a, d - 1⟩), ?_, hcell, sem, r, hm,
      by simp [holder_at, hd2]⟩
    simp [pthread_mutex_unlock, hmutex, hm, mutex_recursive_give, hk, holder_at, hd, h1]

/-- A trylock on a recursive mutex held by another task returns `EBUSY` and
changes nothing. -/
theorem recursive_trylock_other (s : MState) (mutex a b d p semh : Nat) (hmutex : mutex ≠ 0)
    (ha : a ≠ 0) (hab : b ≠ a) (hd : d ≠ 0)
    (h : mutex_state s mutex PTHREAD_MUTEX_RECURSIVE (holder_at a d) d) :
    pthread_mutex_trylock s b mutex p semh = Res.done (s, EBUSY) := by
  obtain ⟨hcell, sem, r, hm, hk⟩ := h
  have hab1 : ¬ a = b := fun e => hab e.symm
  simp [pthread_mutex_trylock, hmutex, pthread_mutex_init_if_static, hcell,
    pthread_mutex_lock_internal, hm, mutex_recursive_take, hk, holder_at, hd, ha, hab1]

/-- A trylock on a held normal mutex returns `EBUSY` and changes nothing,
whoever calls. -/
theorem normal_trylock_held (s : MState) (mutex h c cnt p semh : Nat) (hmutex : mutex ≠ 0)
    (hh : h ≠ 0) (hs : mutex_state s mutex PTHREAD_MUTEX_NORMAL h cnt) :
    pthread_mutex_trylock s c mutex p semh = Res.done (s, EBUSY) := by
  obtain ⟨hcell, sem, r, hm, hk⟩ := hs
  have hty : ¬ PTHREAD_MUTEX_NORMAL = PTHREAD_MUTEX_RECURSIVE := by decide
  simp [pthread_mutex_trylock, hmutex, pthread_mutex_init_if_static, hcell,
    pthread_mutex_lock_internal, hm, hty, sem_wait, hk, hh]

/-- A well-nested sequence of lock, trylock and unlock calls by one task on a
recursive mutex: every call returns `0` and the mutex ends at the nesting depth
of the sequence. -/
theorem recursive_run (mutex a : Nat) (hmutex : mutex ≠ 0) (ha : a ≠ 0) (ops : List MutexCall) :
    ∀ (s : MState) (d m : Nat), (∀ c ∈ ops, c.caller = a) →
      mutex_state s mutex PTHREAD_MUTEX_RECURSIVE (holder_at a d) d →
      nesting ops d = some m →
      ∃ s1, run_calls s mutex ops = Res.done (s1, List.replicate ops.length 0) ∧
        mutex_state s1 mutex PTHREAD_MUTEX_RECURSIVE (holder_at a m) m := by
  induction ops with
  | nil =>
    intro s d m _ hs hn
    simp only [nesting, Option.some.injEq] at hn
    subst hn
    exact ⟨s, rfl, hs⟩
  | cons c rest ih =>
    intro s d m hall hs hn
    have hc : c.caller = a := hall c (List.mem_cons_self c rest)
    have hrest : ∀ c1 ∈ rest, c1.caller = a := fun c1 h1 => hall c1 (List.mem_cons_of_mem c h1)
    cases c with
    | lock cur p semh =>
      simp only [MutexCall.caller] at hc
      subst hc
      simp only [nesting, MutexCall.is_unlock] at hn
      obtain ⟨s1, hl, _, hs1⟩ := recursive_lock_step s mutex cur d p semh hmutex ha hs
      obtain ⟨s2, hr, hs2⟩ := ih s1 (d + 1) m hrest hs1 (by simpa using hn)
      exact ⟨s2, by simp [run_calls, MutexCall.run, hl, hr, List.replicate_succ], hs2⟩
    | trylock cur p semh =>
      simp only [MutexCall.caller] at hc
      subst hc
      simp only [nesting, MutexCall.is_unlock] at hn
      obtain ⟨s1, _, hl, hs1⟩ := recursive_lock_step s mutex cur d p semh hmutex ha hs
      obtain ⟨s2, hr, hs2⟩ := ih s1 (d + 1) m hrest hs1 (by simpa using hn)
      exact ⟨s2, by simp [run_calls, MutexCall.run, hl, hr, List.replicate_succ], hs2⟩
    | unlock cur =>
      simp only [MutexCall.caller] at hc
      subst hc
      simp only [nesting, MutexCall.is_unlock] at hn
      by_cases hd : d = 0
      · simp [hd] at hn
      · simp only [hd, if_false, if_true] at hn
        obtain ⟨s1, hl, hs1⟩ := recursive_unlock_step s mutex cur d hmutex hd hs
        obtain ⟨s2, hr, hs2⟩ := ih s1 (d - 1) m hrest hs1 (by simpa using hn)
        exact ⟨s2, by simp [run_calls, MutexCall.run, hl, hr, List.replicate_succ], hs2⟩

/-- The nesting depth counts the locks that have not been unlocked. -/
theorem nesting_count (ops : List MutexCall) :
    ∀ d m : Nat, nesting ops d = some m →
      m + ops.countP MutexCall.is_unlock = d + ops.countP (fun c => !c.is_unlock) := by
  induction ops with
  | nil =>
    intro d m hn
    simp only [nesting, Option.some.injEq] at hn
    simp [hn]
  | cons c rest ih =>
    intro d m hn
    by_cases hu : c.is_unlock = true
    · simp only [nesting, hu, if_true] at hn
      by_cases hd : d = 0
      · simp [hd] at hn
      · simp only [hd, if_false] at hn
        have := ih (d - 1) m hn
        simp only [List.countP_cons, hu]
        simp
        omega
    · have hu1 : c.is_unlock = false := by simpa using hu
      simp only [nesting, hu1] at hn
      have := ih (d + 1) m (by simpa using hn)
      simp only [List.countP_cons, hu1]
      simp
      omega

/-- C11.  Take a mutex initialised with type RECURSIVE (free), and any
well-nested sequence of lock, trylock and unlock calls by task `a`, in which
`n` calls lock and `k` calls unlock, leaving the depth `m = n - k`.  All calls
return `0`.  While `m ≥ 1` a trylock by a different task `b` returns `EBUSY`
and changes nothing, and a further lock by `a` returns `0` and deepens the
nesting; when `m = 0` (the last lock has been undone) a lock by `b` returns `0`
and `b` holds the mutex.  For a mutex of type NORMAL that is held, a trylock by
any task, the holder included, returns `EBUSY` and changes nothing. -/
theorem recursive_and_normal_semantics (s : MState) (mutex a b m : Nat)
    (ops : List MutexCall) (hmutex : mutex ≠ 0) (ha : a ≠ 0) (hb : b ≠ 0) (hab : b ≠ a)
    (hinit : mutex_state s mutex PTHREAD_MUTEX_RECURSIVE 0 0)
    (hops : ∀ c ∈ ops, c.caller = a) (hnest : nesting ops 0 = some m) :
    (∃ s1, run_calls s mutex ops = Res.done (s1, List.replicate ops.length 0) ∧
      m + ops.countP MutexCall.is_unlock = ops.countP (fun c => !c.is_unlock) ∧
      (m ≠ 0 →
        (∀ p semh, pthread_mutex_trylock s1 b mutex p semh = Res.done (s1, EBUSY)) ∧
        (∀ p semh, ∃ s2, pthread_mutex_lock s1 a mutex p semh = Res.done (s2, 0) ∧
          mutex_state s2 mutex PTHREAD_MUTEX_RECURSIVE a (m + 1))) ∧
      (m = 0 →
        ∀ p semh, ∃ s2, pthread_mutex_lock s1 b mutex p semh = Res.done (s2, 0) ∧
          mutex_state s2 mutex PTHREAD_MUTEX_RECURSIVE b 1)) ∧
    (∀ (sn : MState) (h c cnt p semh : Nat), h ≠ 0 →
      mutex_state sn mutex PTHREAD_MUTEX_NORMAL h cnt →
      pthread_mutex_trylock sn c mutex p semh = Res.done (sn, EBUSY)) := by
  refine ⟨?_, fun sn h c cnt p semh hh hs => normal_trylock_held sn mutex h c cnt p semh hmutex hh hs⟩
  have h0 : mutex_state s mutex PTHREAD_MUTEX_RECURSIVE (holder_at a 0) 0 := by
    simpa [holder_at] using hinit
  obtain ⟨s1, hr, hs1⟩ := recursive_run mutex a hmutex ha ops s 0 m hops h0 hnest
  refine ⟨s1, hr, by simpa using nesting_count ops 0 m hnest, fun hm => ⟨fun p semh => ?_,
    fun p semh => ?_⟩, fun hm p semh => ?_⟩
  · exact recursive_trylock_other s1 mutex a b m p semh hmutex ha hab hm hs1
  · obtain ⟨s2, hl, _, hs2⟩ := recursive_lock_step s1 mutex a m p semh hmutex ha hs1
    exact ⟨s2, hl, by simpa [holder_at] using hs2⟩
  · subst hm
    have hsb : mutex_state s1 mutex PTHREAD_MUTEX_RECURSIVE (holder_at b 0) 0 := by
      simpa [holder_at] using hs1
    obtain ⟨s2, hl, _, hs2⟩ := recursive_lock_step s1 mutex b 0 p semh hmutex hb hsb
    exact ⟨s2, hl, by simpa [holder_at] using hs2⟩

theorem mutex_state_one_mutex (type : Int) (holder count : Nat) :
    mutex_state (one_mutex type holder count) 8 type holder count := by
  refine ⟨by simp [one_mutex, PTHREAD_MUTEX_INITIALIZER], 60,
    decide (type = PTHREAD_MUTEX_RECURSIVE), ?_, ?_⟩
  · simp [one_mutex]
  · simp [one_mutex]

/-- C11 (witness).  Task `7` locks the free recursive mutex of cell `8` three
times and unlocks it twice: the five calls return `0`. -/
theorem recursive_and_normal_semantics_witness :
    ∃ s1, run_calls (one_mutex PTHREAD_MUTEX_RECURSIVE 0 0) 8
        [MutexCall.lock 7 0 0, MutexCall.lock 7 0 0, MutexCall.lock 7 0 0,
          MutexCall.unlock 7, MutexCall.unlock 7]
      = Res.done (s1, [0, 0, 0, 0, 0]) := by
  obtain ⟨s1, h1, _⟩ := (recursive_and_normal_semantics (one_mutex PTHREAD_MUTEX_RECURSIVE 0 0)
    8 7 5 1 [MutexCall.lock 7 0 0, MutexCall.lock 7 0 0, MutexCall.lock 7 0 0,
      MutexCall.unlock 7, MutexCall.unlock 7] (by decide) (by decide) (by decide) (by decide)
    (mutex_state_one_mutex _ 0 0) (by decide) (by decide)).1
  exact ⟨s1, h1⟩

/-! ## Registry membership along the lifecycle -/

/-- The invariant only looks at the list, the descriptors and the live tasks. -/
theorem registry_inv_congr (s s1 : State) (hl : s1.threads_list = s.threads_list)
    (hh : s1.heap = s.heap) (ht : s1.tasks = s.tasks) (h : registry_inv s) :
    registry_inv s1 := by
  obtain ⟨hwf, hlen, h0, hreg⟩ := h
  refine ⟨⟨by rw [hl]; exact hwf.1, fun p hp => ?_⟩, by rw [hl]; exact hlen,
    by rw [hh]; exact h0, fun p hp d hd => ?_⟩
  · rw [hl] at hp
    rw [hh]
    exact hwf.2 p hp
  · rw [hl] at hp
    rw [hh] at hd
    rw [ht]
    exact hreg p hp d hd

/-- An empty registry with nothing at the null address satisfies the
invariant. -/
theorem registry_inv_nil (s : State) (hl : s.threads_list = []) (h0 : s.heap 0 = none) :
    registry_inv s := by
  refine ⟨⟨by rw [hl]; exact List.nodup_nil, fun p hp => ?_⟩, by rw [hl]; simp, h0,
    fun p hp => ?_⟩
  · rw [hl] at hp
    simp at hp
  · rw [hl] at hp
    simp at hp

/-- Rewriting a registered descriptor keeps the invariant when the list item
is kept and the new contents have a live task, state EXITED or a joiner. -/
theorem registry_inv_store (s : State) (thread : Nat) (d d1 : rtos_pthread)
    (h : registry_inv s) (hm : thread ∈ s.threads_list) (hd : s.heap thread = some d)
    (hitem : d1.list_item = d.list_item)
    (hok : s.tasks d1.list_item.xItemValue = true ∨ d1.state = RTOS_PTHREAD_STATE_EXITED ∨
      d1.join_handle ≠ 0) :
    registry_inv (store s thread d1) := by
  obtain ⟨hwf, hlen, h0, hreg⟩ := h
  have ht0 : thread ≠ 0 := (hwf.2 thread hm).1
  refine ⟨wf_store s thread d d1 hwf hd hitem, hlen, ?_, fun p hp e he => ?_⟩
  · have : ¬ (0 : Nat) = thread := fun e => ht0 e.symm
    simp [store, this, h0]
  · by_cases hpt : p = thread
    · subst hpt
      have he1 : e = d1 := by
        simp [store] at he
        exact he.symm
      subst he1
      exact hok
    · have he1 : s.heap p = some e := by simpa [store, hpt] using he
      exact hreg p hp e he1

/-- Unlinking and freeing a descriptor keeps the invariant. -/
theorem registry_inv_delete (s s1 : State) (thread : Nat) (h : registry_inv s)
    (hdel : rtos_pthread_delete s thread = some s1) : registry_inv s1 := by
  obtain ⟨hwf, hlen, h0, hreg⟩ := h
  unfold rtos_pthread_delete at hdel
  cases hd : s.heap thread with
  | none => simp [hd] at hdel
  | some d =>
    simp only [hd] at hdel
    unfold uxListRemove at hdel
    by_cases hm : thread ∈ s.threads_list
    · simp [hm] at hdel
      subst hdel
      have hsub : ∀ p, p ∈ s.threads_list.erase thread → p ∈ s.threads_list ∧ p ≠ thread :=
        fun p hp => ⟨List.mem_of_mem_erase hp,
          fun e => ((List.Nodup.mem_erase_iff hwf.1).mp hp).1 e⟩
      refine ⟨⟨hwf.1.erase thread, fun p hp => ?_⟩, ?_, by simp [kfree, h0],
        fun p hp e he => ?_⟩
      · obtain ⟨hp1, hne⟩ := hsub p hp
        obtain ⟨hp0, e, he, hown, hval⟩ := hwf.2 p hp1
        exact ⟨hp0, e, by simp [kfree, hne, he], hown, hval⟩
      · have := List.length_erase_le thread s.threads_list
        simp only [kfree]
        omega
      · obtain ⟨hp1, hne⟩ := hsub p hp
        have he1 : s.heap p = some e := by simpa [kfree, hne] using he
        exact hreg p hp1 e he1
    · simp [hm] at hdel

/-- A `pthread_create` that fails leaves the list empty, and no
`pthread_create` allocates at the null address. -/
theorem pthread_create_frame (s : State) (thread attr start_routine arg : Nat)
    (mut_handle task_arg pthread task : Nat) (take : Bool) :
    ((pthread_create s thread attr start_routine arg mut_handle task_arg pthread task take).2 ≠ 0 →
      (pthread_create s thread attr start_routine arg mut_handle task_arg pthread task
        take).1.threads_list = []) ∧
    (pthread_create s thread attr start_routine arg mut_handle task_arg pthread task
      take).1.heap 0 = s.heap 0 := by
  have hc : (0 = pthread) = (pthread = 0) := propext eq_comm
  unfold pthread_create
  by_cases h1 : attr = 0 <;> by_cases h2 : task_arg = 0 <;> by_cases h3 : pthread = 0 <;>
    by_cases h4 : task = 0 <;> cases take <;>
    simp [h1, h2, h3, h4, hc, rtos_pthread_init, vListInitialise, vListInsertEnd, store,
      task_notify_ext, task_create, task_delete, kfree, kfree_arg, ENOSYS, ENOMEM, EAGAIN]

theorem registry_inv_create (s : State) (thread attr start_routine arg : Nat)
    (mut_handle task_arg pthread task : Nat) (take : Bool) (h : registry_inv s) :
    registry_inv
      (pthread_create s thread attr start_routine arg mut_handle task_arg pthread task take).1 := by
  obtain ⟨hfail, hzero⟩ :=
    pthread_create_frame s thread attr start_routine arg mut_handle task_arg pthread task take
  have h0 : (pthread_create s thread attr start_routine arg mut_handle task_arg pthread task
      take).1.heap 0 = none := by rw [hzero]; exact h.2.2.1
  by_cases hr : (pthread_create s thread attr start_routine arg mut_handle task_arg pthread task
      take).2 = 0
  · obtain ⟨hp, ht, hl, hh, halive, _⟩ :=
      pthread_create_ok_state s thread attr start_routine arg mut_handle task_arg pthread task
        take hr
    refine ⟨⟨by rw [hl]; simp, fun p hp1 => ?_⟩, by rw [hl]; simp, h0, fun p hp1 d hd => ?_⟩
    · rw [hl] at hp1
      have hpp : p = pthread := by simpa using hp1
      subst hpp
      exact ⟨hp, _, hh, rfl, ht⟩
    · rw [hl] at hp1
      have hpp : p = pthread := by simpa using hp1
      subst hpp
      rw [hh] at hd
      cases hd
      exact Or.inl halive
  · exact registry_inv_nil _ (hfail hr) h0

theorem registry_inv_detach (s s1 : State) (thread : Nat) (take : Bool) (r : Nat)
    (h : registry_inv s) (hdet : pthread_detach s thread take = some (s1, r)) :
    registry_inv s1 := by
  cases take with
  | false =>
    simp [pthread_detach] at hdet
    obtain ⟨h1, _⟩ := hdet
    subst h1
    exact registry_inv_congr s _ rfl rfl rfl h
  | true =>
    by_cases hm : thread ∈ s.threads_list
    · obtain ⟨_, d, hd, _, hv⟩ := h.1.2 thread hm
      simp [pthread_detach, find_handle_of_mem s thread d h.1 hm hd, hv, hd] at hdet
      obtain ⟨h1, _⟩ := hdet
      subst h1
      exact registry_inv_store s thread d _ h hm hd rfl (h.2.2.2 thread hm d hd)
    · simp [pthread_detach, find_handle_of_not_mem s thread h.1 hm] at hdet
      obtain ⟨h1, _⟩ := hdet
      subst h1
      exact registry_inv_congr s _ rfl rfl rfl h

/-- The three things the locked part of `pthread_join` can do to the state. -/
theorem pthread_join_locked_cases (s s1 : State) (cur thread : Nat) (take : Bool) (ret : Nat)
    (wait : Bool) (hwf : wf s)
    (h : pthread_join_locked s cur thread take = some (s1, ret, wait)) :
    s1 = s ∨
    (∃ d, thread ∈ s.threads_list ∧ s.heap thread = some d ∧ d.join_handle = 0 ∧
      s1 = store s thread { d with join_handle := cur }) ∨
    rtos_pthread_delete s thread = some s1 := by
  by_cases hm : thread ∈ s.threads_list
  · obtain ⟨_, d, hd, _, hv⟩ := hwf.2 thread hm
    have hf := find_handle_of_mem s thread d hwf hm hd
    obtain ⟨c, hfc, hc1, _⟩ := find_item_desc s cur s.threads_list hwf.2
    have hfc1 : rtos_pthread_find s cur = some c := hfc
    by_cases hj : d.join_handle = 0
    · by_cases hc : d.list_item.xItemValue = cur
      · subst hc
        simp [pthread_join_locked, hf, hv, hd, hj] at h
        exact Or.inl h.1.symm
      · have tail : (if d.state = RTOS_PTHREAD_STATE_RUN then
              some (store s thread { d with join_handle := cur },
                (if take = false then EAGAIN else 0), true)
            else (rtos_pthread_delete s thread).map
              (fun s2 => (s2, (if take = false then EAGAIN else 0), false)))
            = some (s1, ret, wait) →
            (∃ d, thread ∈ s.threads_list ∧ s.heap thread = some d ∧ d.join_handle = 0 ∧
              s1 = store s thread { d with join_handle := cur }) ∨
            rtos_pthread_delete s thread = some s1 := by
          intro ht
          by_cases hst : d.state = RTOS_PTHREAD_STATE_RUN
          · rw [if_pos hst] at ht
            simp only [Option.some.injEq, Prod.mk.injEq] at ht
            exact Or.inl ⟨d, hm, hd, hj, ht.1.symm⟩
          · rw [if_neg hst] at ht
            cases hdel : rtos_pthread_delete s thread with
            | none => simp [hdel] at ht
            | some s2 =>
              simp [hdel] at ht
              exact Or.inr (by rw [ht.1])
        by_cases hc0 : c = 0
        · subst hc0
          simp only [pthread_join_locked, hf, hv, hd, hj, hc, hfc1] at h
          simp at h
          exact Or.inr (tail (by simpa using h))
        · obtain ⟨_, dc, hdc, _⟩ := hc1 hc0
          by_cases hmut : dc.join_handle = d.list_item.xItemValue
          · simp [pthread_join_locked, hf, hv, hd, hj, hc, hfc1, hc0, hdc, hmut] at h
            exact Or.inl h.1.symm
          · simp only [pthread_join_locked, hf, hv, hd, hj, hc, hfc1, hc0, hdc] at h
            simp [hmut] at h
            exact Or.inr (tail (by simpa using h))
    · simp [pthread_join_locked, hf, hv, hd, hj] at h
      exact Or.inl h.1.symm
  · simp [pthread_join_locked, find_handle_of_not_mem s thread hwf hm] at h
    exact Or.inl h.1.symm

theorem registry_inv_join_locked (s s1 : State) (cur thread : Nat) (take : Bool) (ret : Nat)
    (wait : Bool) (h : registry_inv s)
    (hj : pthread_join_locked s cur thread take = some (s1, ret, wait)) : registry_inv s1 := by
  rcases pthread_join_locked_cases s s1 cur thread take ret wait h.1 hj with
    h1 | ⟨d, hm, hd, hj0, h1⟩ | h1
  · subst h1
    exact h
  · subst h1
    refine registry_inv_store s thread d _ h hm hd rfl ?_
    rcases h.2.2.2 thread hm d hd with ha | he | hn
    · exact Or.inl ha
    · exact Or.inr (Or.inl he)
    · exact absurd hj0 hn
  · exact registry_inv_delete s s1 thread h h1

/-! ## The phases of a call and the whole call -/

/-- Running the phases of `pthread_create` with nothing in between is the whole
call. -/
theorem pthread_create_eq_phases (s : State) (thread attr start_routine arg : Nat)
    (mut_handle task_arg pthread task : Nat) (take : Bool) :
    pthread_create s thread attr start_routine arg mut_handle task_arg pthread task take =
      pthread_create_phases s thread attr start_routine arg mut_handle task_arg pthread task
        take := by
  unfold pthread_create pthread_create_phases pthread_create_init pthread_create_alloc
    pthread_create_insert pthread_create_finish pthread_create_notify
  by_cases h1 : attr = 0 <;> by_cases h2 : task_arg = 0 <;> by_cases h3 : pthread = 0 <;>
    by_cases h4 : task = 0 <;> cases take <;>
    simp [h1, h2, h3, h4, store, vListInsertEnd, task_notify_ext]

/-- The exit protocol is its locked part followed by `task_delete(NULL)`; when
the take fails it does nothing. -/
theorem pthread_task_fn_exit_eq (s : State) (cur : Nat) (take : Bool) :
    pthread_task_fn_exit s cur take =
      if take = false then some s
      else (pthread_task_fn_exit_locked s cur).map (fun s2 => task_delete s2 cur) := by
  unfold pthread_task_fn_exit pthread_task_fn_exit_locked
  cases take with
  | false => simp
  | true =>
    simp only [Bool.true_eq_false, if_false]
    cases rtos_pthread_find s cur with
    | none => rfl
    | some c =>
      dsimp only
      cases s.heap c with
      | none => rfl
      | some d => rfl

/-! ## Runs of the system -/

theorem reachable_run (ops : List Op) : ∀ σ σ1 : Sys, Reachable σ → σ.run ops = some σ1 →
    Reachable σ1 := by
  induction ops with
  | nil =>
    intro σ σ1 h hr
    simp only [Sys.run, Option.some.injEq] at hr
    exact hr ▸ h
  | cons op rest ih =>
    intro σ σ1 h hr
    simp only [Sys.run] at hr
    cases hs : σ.step op with
    | none => simp [hs] at hr
    | some σ2 =>
      rw [hs] at hr
      exact ih σ2 σ1 (Reachable.step σ σ2 h ⟨op, hs⟩) hr

theorem reachable_quiet_run (ops : List Op) : ∀ σ σ1 : Sys, ReachableQuiet σ →
    σ.run_quiet ops = some σ1 → ReachableQuiet σ1 := by
  induction ops with
  | nil =>
    intro σ σ1 h hr
    simp only [Sys.run_quiet, Option.some.injEq] at hr
    exact hr ▸ h
  | cons op rest ih =>
    intro σ σ1 h hr
    simp only [Sys.run_quiet] at hr
    by_cases hq : σ.creating = [] ∨ op.continues_create = true
    · rw [if_pos hq] at hr
      cases hs : σ.step op with
      | none => simp [hs] at hr
      | some σ2 =>
        rw [hs] at hr
        exact ih σ2 σ1 (ReachableQuiet.step σ σ2 op h hq hs) hr
    · rw [if_neg hq] at hr
      cases hr

/-- A run without moves between the phases of a creation is a run. -/
theorem reachable_of_quiet (σ : Sys) (h : ReachableQuiet σ) : Reachable σ := by
  induction h with
  | boot tasks => exact Reachable.boot tasks
  | step σ σ1 op _ _ hs ih => exact Reachable.step σ σ1 ih ⟨op, hs⟩

theorem boot_sys_quiet : ReachableQuiet boot_sys :=
  ReachableQuiet.boot (fun t => decide (t = 20))

theorem boot2_sys_quiet : ReachableQuiet boot2_sys :=
  ReachableQuiet.boot (fun t => decide (t = 20 ∨ t = 21))

theorem run_w_eq : boot2_sys.run create_ops = some run_w := rfl

theorem run_j_eq : boot2_sys.run run_j_ops = some run_j := rfl

theorem run_c_eq : boot_sys.run_quiet run_c_ops = some run_c := rfl

theorem run_l_eq : boot_sys.run run_l_ops = some run_l := rfl

/-! ## Registry membership when creations are not interleaved -/

theorem exiting_ok_congr (s s1 : State) (ex : List Nat) (hl : s1.threads_list = s.threads_list)
    (hh : s1.heap = s.heap) (ht : s1.tasks = s.tasks) (h : exiting_ok s ex) :
    exiting_ok s1 ex := by
  intro e he
  obtain ⟨h1, h2⟩ := h e he
  refine ⟨by rw [ht]; exact h1, fun p hp d hd hv => ?_⟩
  rw [hl] at hp
  rw [hh] at hd
  exact h2 p hp d hd hv

theorem exiting_ok_store (s : State) (thread : Nat) (d d1 : rtos_pthread) (ex : List Nat)
    (hd : s.heap thread = some d) (hitem : d1.list_item = d.list_item)
    (hkeep : d.state = RTOS_PTHREAD_STATE_EXITED ∨ d.join_handle ≠ 0 →
      d1.state = RTOS_PTHREAD_STATE_EXITED ∨ d1.join_handle ≠ 0)
    (h : exiting_ok s ex) : exiting_ok (store s thread d1) ex := by
  intro e he
  obtain ⟨h1, h2⟩ := h e he
  refine ⟨h1, fun p hp x hx hv => ?_⟩
  by_cases hpt : p = thread
  · subst hpt
    have hx1 : x = d1 := by
      simp [store] at hx
      exact hx.symm
    subst hx1
    exact hkeep (h2 p hp d hd (by rw [← hitem]; exact hv))
  · have hx1 : s.heap p = some x := by simpa [store, hpt] using hx
    exact h2 p hp x hx1 hv

theorem exiting_ok_delete (s s1 : State) (thread : Nat) (ex : List Nat)
    (hdel : rtos_pthread_delete s thread = some s1) (h : exiting_ok s ex) :
    exiting_ok s1 ex := by
  unfold rtos_pthread_delete at hdel
  cases hd : s.heap thread with
  | none => simp [hd] at hdel
  | some d =>
    simp only [hd] at hdel
    unfold uxListRemove at hdel
    by_cases hm : thread ∈ s.threads_list
    · simp [hm] at hdel
      subst hdel
      intro e he
      obtain ⟨h1, h2⟩ := h e he
      refine ⟨h1, fun p hp x hx hv => ?_⟩
      by_cases hpt : p = thread
      · subst hpt
        simp [kfree] at hx
      · have hx1 : s.heap p = some x := by simpa [kfree, hpt] using hx
        exact h2 p (List.mem_of_mem_erase hp) x hx1 hv
    · simp [hm] at hdel

/-- The two things `pthread_detach` can do to the state: set `errno`, or set
the `detached` flag of the registered target. -/
theorem pthread_detach_cases (s s1 : State) (thread : Nat) (take : Bool) (r : Nat)
    (hwf : wf s) (h : pthread_detach s thread take = some (s1, r)) :
    (s1.threads_list = s.threads_list ∧ s1.heap = s.heap ∧ s1.tasks = s.tasks) ∨
    ∃ d, thread ∈ s.threads_list ∧ s.heap thread = some d ∧
      s1 = store s thread { d with detached := 1 } := by
  cases take with
  | false =>
    simp [pthread_detach] at h
    obtain ⟨h1, _⟩ := h
    subst h1
    exact Or.inl ⟨rfl, rfl, rfl⟩
  | true =>
    by_cases hm : thread ∈ s.threads_list
    · obtain ⟨_, d, hd, _, hv⟩ := hwf.2 thread hm
      simp [pthread_detach, find_handle_of_mem s thread d hwf hm hd, hv, hd] at h
      obtain ⟨h1, _⟩ := h
      exact Or.inr ⟨d, hm, hd, h1.symm⟩
    · simp [pthread_detach, find_handle_of_not_mem s thread hwf hm] at h
      obtain ⟨h1, _⟩ := h
      subst h1
      exact Or.inl ⟨rfl, rfl, rfl⟩

/-- The three things the locked part of the exit protocol can do when the
registry satisfies the invariant: the caller's descriptor is the only entry, and
it is removed (detached), or its joiner is notified, or its state becomes
EXITED. -/
theorem pthread_task_fn_exit_locked_cases (s s1 : State) (cur : Nat) (h : registry_inv s)
    (he : pthread_task_fn_exit_locked s cur = some s1) :
    ∃ c d, s.threads_list = [c] ∧ s.heap c = some d ∧ d.list_item.xItemValue = cur ∧
      ((rtos_pthread_delete s c = some s1 ∧ s1.threads_list = []) ∨
        (d.join_handle ≠ 0 ∧ s1 = task_notify_ext s d.join_handle) ∨
        s1 = store s c { d with state := RTOS_PTHREAD_STATE_EXITED }) := by
  obtain ⟨c, hfc, hc1, _⟩ := find_item_desc s cur s.threads_list h.1.2
  have hfc1 : rtos_pthread_find s cur = some c := hfc
  by_cases hc0 : c = 0
  · subst hc0
    simp [pthread_task_fn_exit_locked, hfc1, h.2.2.1] at he
  · obtain ⟨hm, d, hd, hval⟩ := hc1 hc0
    have hlist : s.threads_list = [c] := by
      have hlen := h.2.1
      cases hl : s.threads_list with
      | nil => rw [hl] at hm; simp at hm
      | cons x rest =>
        rw [hl] at hm hlen
        have hr : rest = [] := by
          cases rest with
          | nil => rfl
          | cons y r2 => simp at hlen
        subst hr
        simp at hm
        rw [hm]
    refine ⟨c, d, hlist, hd, hval, ?_⟩
    by_cases hdet : d.detached = 0
    · by_cases hj : d.join_handle = 0
      · simp [pthread_task_fn_exit_locked, hfc1, hd, hdet, hj] at he
        refine Or.inr (Or.inr ?_)
        rw [← he, hj, hdet]
      · simp [pthread_task_fn_exit_locked, hfc1, hd, hdet, hj] at he
        exact Or.inr (Or.inl ⟨hj, he.symm⟩)
    · simp [pthread_task_fn_exit_locked, hfc1, hd, hdet] at he
      refine Or.inl ⟨he, ?_⟩
      simp [rtos_pthread_delete, hd, uxListRemove, hlist] at he
      subst he
      simp [kfree, hlist]

/-- What the allocation phase of `pthread_create` leaves untouched and what it
sets up. -/
theorem pthread_create_alloc_frame (s : State) (start_routine arg task_arg pthread task : Nat)
    (h0 : s.heap 0 = none) :
    (pthread_create_alloc s start_routine arg task_arg pthread task).1.threads_list
      = s.threads_list ∧
    (pthread_create_alloc s start_routine arg task_arg pthread task).1.heap 0 = none ∧
    (∀ e, s.tasks e = true →
      (pthread_create_alloc s start_routine arg task_arg pthread task).1.tasks e = true) ∧
    ((pthread_create_alloc s start_routine arg task_arg pthread task).2 = none →
      pthread ≠ 0 ∧ task ≠ 0 ∧
      (pthread_create_alloc s start_routine arg task_arg pthread task).1.heap pthread
        = some ⟨⟨task, pthread⟩, 0, 0, 0⟩ ∧
      (pthread_create_alloc s start_routine arg task_arg pthread task).1.tasks task = true) := by
  have hc : (0 = pthread) = (pthread = 0) := propext eq_comm
  unfold pthread_create_alloc
  by_cases h2 : task_arg = 0 <;> by_cases h3 : pthread = 0 <;> by_cases h4 : task = 0 <;>
    simp [h2, h3, h4, hc, h0, store, task_create, kfree, kfree_arg]
  all_goals
    intro e he
    exact Or.inr he

/-- What the insertion phase of `pthread_create` does: on a failed take it
frees the new objects and deletes the new task, otherwise it links the
descriptor last. -/
theorem pthread_create_insert_frame (s : State) (task_arg pthread task : Nat) (take : Bool)
    (h0 : s.heap 0 = none) :
    (pthread_create_insert s task_arg pthread task take).1.heap 0 = none ∧
    ((pthread_create_insert s task_arg pthread task take).2 = none →
      (pthread_create_insert s task_arg pthread task take).1.threads_list
        = s.threads_list ++ [pthread] ∧
      (pthread_create_insert s task_arg pthread task take).1.heap = s.heap ∧
      (pthread_create_insert s task_arg pthread task take).1.tasks = s.tasks) ∧
    ((pthread_create_insert s task_arg pthread task take).2 ≠ none →
      (pthread_create_insert s task_arg pthread task take).1.threads_list = s.threads_list ∧
      ∀ e, e ≠ task →
        (pthread_create_insert s task_arg pthread task take).1.tasks e = s.tasks e) := by
  unfold pthread_create_insert
  cases take with
  | false =>
    refine ⟨?_, by simp, fun _ => ⟨rfl, fun e he => ?_⟩⟩
    · simp [task_delete, kfree, kfree_arg, h0]
    · simp [task_delete, kfree, kfree_arg, he]
  | true =>
    refine ⟨by simpa [vListInsertEnd] using h0, fun _ => ⟨rfl, rfl, rfl⟩, by simp⟩

theorem exiting_ok_nil (s : State) (ex : List Nat) (hl : s.threads_list = [])
    (ht : ∀ e ∈ ex, s.tasks e = true) : exiting_ok s ex := by
  intro e he
  refine ⟨ht e he, fun p hp => ?_⟩
  rw [hl] at hp
  simp at hp

theorem quiet_inv_create_init (σ σ1 : Sys) (cur thread attr start_routine arg mut_handle : Nat)
    (h : quiet_inv σ) (hc : σ.creating = [])
    (hs : σ.step (Op.create_init cur thread attr start_routine arg mut_handle) = some σ1) :
    quiet_inv σ1 := by
  obtain ⟨hnd, hex, h0, _, _⟩ := h
  have hex1 : exiting_ok (rtos_pthread_init σ.st mut_handle) σ.exiting :=
    exiting_ok_nil _ _ rfl (fun e he => (hex e he).1)
  simp only [Sys.step, pthread_create_init] at hs
  by_cases hrun : σ.can_run cur = true
  swap
  · rw [if_neg hrun] at hs
    cases hs
  rw [if_pos hrun] at hs
  by_cases ha : attr = 0
  · simp only [ha, ne_eq, not_true_eq_false, if_false, Option.some.injEq] at hs
    subst hs
    refine ⟨hnd, hex1, h0, fun hcn => ?_, fun c hcm => ?_⟩
    · simp at hcn
    · have hcc : c = ⟨0, cur, thread, start_routine, arg, 0, 0, 0⟩ := by simpa [hc] using hcm
      subst hcc
      exact ⟨by simp [hc], Or.inl ⟨rfl, rfl⟩⟩
  · simp only [ha, ne_eq, not_false_eq_true, if_true, Option.some.injEq] at hs
    subst hs
    refine ⟨hnd, hex1, h0, fun _ => registry_inv_nil _ rfl h0, fun c hcm => ?_⟩
    have hcm1 : c ∈ σ.creating := hcm
    rw [hc] at hcm1
    simp at hcm1

theorem quiet_inv_create_alloc (σ σ1 : Sys) (c : Creator) (task_arg pthread task : Nat)
    (h : quiet_inv σ) (hs : σ.step (Op.create_alloc c task_arg pthread task) = some σ1) :
    quiet_inv σ1 := by
  obtain ⟨hnd, hex, h0, _, hcr⟩ := h
  simp only [Sys.step] at hs
  by_cases hg : c ∈ σ.creating ∧ c.phase = 0 ∧ (task_arg = 0 ∨ σ.st.args task_arg = none) ∧
      (pthread = 0 ∨ σ.st.heap pthread = none) ∧ (task = 0 ∨ σ.st.tasks task = false)
  · rw [if_pos hg] at hs
    obtain ⟨hcm, hph, _, _, htk⟩ := hg
    obtain ⟨hone, hci⟩ := hcr c hcm
    have herase : σ.creating.erase c = [] := by rw [hone]; simp
    have hl : σ.st.threads_list = [] := by
      rcases hci with ⟨_, hl⟩ | ⟨_, _, _, _, _, ⟨hp1, _⟩ | ⟨hp2, _⟩⟩
      · exact hl
      · omega
      · omega
    obtain ⟨fl, f0, ft, fok⟩ :=
      pthread_create_alloc_frame σ.st c.start_routine c.arg task_arg pthread task h0
    generalize hr : pthread_create_alloc σ.st c.start_routine c.arg task_arg pthread task = r
      at hs fl f0 ft fok
    obtain ⟨s1, o⟩ := r
    have hex1 : exiting_ok s1 σ.exiting :=
      exiting_ok_nil _ _ (by rw [fl, hl]) (fun e he => ft e (hex e he).1)
    cases o with
    | some e =>
      simp only [Option.some.injEq] at hs
      subst hs
      refine ⟨hnd, hex1, f0, fun _ => registry_inv_nil _ (by rw [fl, hl]) f0, fun c2 hc2 => ?_⟩
      have hc3 : c2 ∈ σ.creating.erase c := hc2
      rw [herase] at hc3
      simp at hc3
    | none =>
      simp only [Option.some.injEq] at hs
      subst hs
      obtain ⟨hp, ht, hh, halive⟩ := fok rfl
      have hnot : task ∉ σ.exiting := by
        intro hmem
        have h1 := (hex task hmem).1
        rcases htk with h2 | h2
        · exact ht h2
        · rw [h1] at h2
          cases h2
      refine ⟨hnd, hex1, f0, fun hcn => ?_, fun c2 hc2 => ?_⟩
      · simp at hcn
      · have hcc :
            c2 = ⟨1, c.caller, c.thread, c.start_routine, c.arg, task_arg, pthread, task⟩ := by
          simpa [herase] using hc2
        subst hcc
        exact ⟨by simp [herase], Or.inr ⟨hp, ht, hh, halive, hnot, Or.inl ⟨rfl, by rw [fl, hl]⟩⟩⟩
  · rw [if_neg hg] at hs
    cases hs

theorem quiet_inv_create_insert (σ σ1 : Sys) (c : Creator) (take : Bool)
    (h : quiet_inv σ) (hs : σ.step (Op.create_insert c take) = some σ1) :
    quiet_inv σ1 := by
  obtain ⟨hnd, hex, h0, _, hcr⟩ := h
  simp only [Sys.step] at hs
  by_cases hg : c ∈ σ.creating ∧ c.phase = 1
  · rw [if_pos hg] at hs
    obtain ⟨hcm, hph⟩ := hg
    obtain ⟨hone, hci⟩ := hcr c hcm
    have herase : σ.creating.erase c = [] := by rw [hone]; simp
    obtain ⟨hp, ht, hh, halive, hnot, hl⟩ :
        c.pthread ≠ 0 ∧ c.task ≠ 0 ∧ σ.st.heap c.pthread = some ⟨⟨c.task, c.pthread⟩, 0, 0, 0⟩ ∧
        σ.st.tasks c.task = true ∧ c.task ∉ σ.exiting ∧ σ.st.threads_list = [] := by
      rcases hci with ⟨hp0, _⟩ | ⟨hp, ht, hh, halive, hnot, ⟨_, hl⟩ | ⟨hp2, _⟩⟩
      · omega
      · exact ⟨hp, ht, hh, halive, hnot, hl⟩
      · omega
    obtain ⟨f0, fok, ffail⟩ := pthread_create_insert_frame σ.st c.task_arg c.pthread c.task take h0
    generalize hr : pthread_create_insert σ.st c.task_arg c.pthread c.task take = r
      at hs f0 fok ffail
    obtain ⟨s1, o⟩ := r
    cases o with
    | some e =>
      simp only [Option.some.injEq] at hs
      subst hs
      obtain ⟨fl, ft⟩ := ffail (by simp)
      have hex1 : exiting_ok s1 σ.exiting :=
        exiting_ok_nil _ _ (by rw [fl, hl]) (fun e he => by
          rw [ft e (fun hh => hnot (hh ▸ he))]
          exact (hex e he).1)
      refine ⟨hnd, hex1, f0, fun _ => registry_inv_nil _ (by rw [fl, hl]) f0, fun c2 hc2 => ?_⟩
      have hc3 : c2 ∈ σ.creating.erase c := hc2
      rw [herase] at hc3
      simp at hc3
    | none =>
      simp only [Option.some.injEq] at hs
      subst hs
      obtain ⟨fl, fh, ft⟩ := fok rfl
      have fl1 : s1.threads_list = [c.pthread] := by rw [fl, hl]; rfl
      have hex1 : exiting_ok s1 σ.exiting := by
        intro e he
        refine ⟨by rw [ft]; exact (hex e he).1, fun p hp1 d hd hv => ?_⟩
        rw [fl1] at hp1
        have hpp : p = c.pthread := by simpa using hp1
        subst hpp
        rw [fh, hh] at hd
        cases hd
        have hv1 : c.task = e := hv
        exact absurd (hv1 ▸ he) hnot
      refine ⟨hnd, hex1, f0, fun hcn => ?_, fun c2 hc2 => ?_⟩
      · simp at hcn
      · have hcc : c2 = { c with phase := 2 } := by simpa [herase] using hc2
        subst hcc
        exact ⟨by simp [herase], Or.inr ⟨hp, ht, by rw [fh]; exact hh, by rw [ft]; exact halive,
          hnot, Or.inr ⟨Or.inl rfl, fl1⟩⟩⟩
  · rw [if_neg hg] at hs
    cases hs

theorem quiet_inv_create_notify (σ σ1 : Sys) (c : Creator)
    (h : quiet_inv σ) (hs : σ.step (Op.create_notify c) = some σ1) :
    quiet_inv σ1 := by
  obtain ⟨hnd, hex, h0, _, hcr⟩ := h
  simp only [Sys.step] at hs
  by_cases hg : c ∈ σ.creating ∧ c.phase = 2
  · rw [if_pos hg] at hs
    obtain ⟨hcm, hph⟩ := hg
    obtain ⟨hone, hci⟩ := hcr c hcm
    have herase : σ.creating.erase c = [] := by rw [hone]; simp
    simp only [Option.some.injEq] at hs
    subst hs
    refine ⟨hnd, exiting_ok_congr σ.st _ _ rfl rfl rfl hex, h0, fun hcn => ?_, fun c2 hc2 => ?_⟩
    · simp at hcn
    · have hcc : c2 = { c with phase := 3 } := by simpa [herase] using hc2
      subst hcc
      refine ⟨by simp [herase], ?_⟩
      rcases hci with ⟨hp0, _⟩ | ⟨hp, ht, hh, halive, hnot, ⟨hp1, _⟩ | ⟨_, hl⟩⟩
      · omega
      · omega
      · exact Or.inr ⟨hp, ht, hh, halive, hnot, Or.inr ⟨Or.inr rfl, hl⟩⟩
  · rw [if_neg hg] at hs
    cases hs

theorem quiet_inv_create_finish (σ σ1 : Sys) (c : Creator)
    (h : quiet_inv σ) (hs : σ.step (Op.create_finish c) = some σ1) :
    quiet_inv σ1 := by
  obtain ⟨hnd, hex, h0, _, hcr⟩ := h
  simp only [Sys.step] at hs
  by_cases hg : c ∈ σ.creating ∧ c.phase = 3
  · rw [if_pos hg] at hs
    obtain ⟨hcm, hph⟩ := hg
    obtain ⟨hone, hci⟩ := hcr c hcm
    have herase : σ.creating.erase c = [] := by rw [hone]; simp
    obtain ⟨hp, ht, hh, halive, hnot, hl⟩ :
        c.pthread ≠ 0 ∧ c.task ≠ 0 ∧ σ.st.heap c.pthread = some ⟨⟨c.task, c.pthread⟩, 0, 0, 0⟩ ∧
        σ.st.tasks c.task = true ∧ c.task ∉ σ.exiting ∧ σ.st.threads_list = [c.pthread] := by
      rcases hci with ⟨hp0, _⟩ | ⟨hp, ht, hh, halive, hnot, ⟨hp1, _⟩ | ⟨_, hl⟩⟩
      · omega
      · omega
      · exact ⟨hp, ht, hh, halive, hnot, hl⟩
    have hne : ¬ (0 : Nat) = c.pthread := fun e => hp e.symm
    simp only [pthread_create_finish, hh, Option.map_some', Option.some.injEq] at hs
    subst hs
    refine ⟨hnd, ?_, by simp [store, hne, h0], fun _ => ?_, fun c2 hc2 => ?_⟩
    · intro e he
      refine ⟨(hex e he).1, fun p hp1 d hd hv => ?_⟩
      have hp2 : p ∈ σ.st.threads_list := hp1
      rw [hl] at hp2
      have hpp : p = c.pthread := by simpa using hp2
      subst hpp
      simp [store] at hd
      subst hd
      have hv1 : c.task = e := hv
      exact absurd (hv1 ▸ he) hnot
    · refine ⟨⟨?_, fun p hp1 => ?_⟩, ?_, by simp [store, hne, h0], fun p hp1 d hd => ?_⟩
      · show σ.st.threads_list.Nodup
        rw [hl]
        simp
      · have hp2 : p ∈ σ.st.threads_list := hp1
        rw [hl] at hp2
        have hpp : p = c.pthread := by simpa using hp2
        subst hpp
        exact ⟨hp, ⟨⟨c.task, c.pthread⟩, 0, RTOS_PTHREAD_STATE_RUN, 0⟩, by simp [store], rfl, ht⟩
      · show σ.st.threads_list.length ≤ 1
        rw [hl]
        simp
      · have hp2 : p ∈ σ.st.threads_list := hp1
        rw [hl] at hp2
        have hpp : p = c.pthread := by simpa using hp2
        subst hpp
        simp [store] at hd
        subst hd
        exact Or.inl halive
    · have hc3 : c2 ∈ σ.creating.erase c := hc2
      rw [herase] at hc3
      simp at hc3
  · rw [if_neg hg] at hs
    cases hs

theorem write_retval_tasks (s : State) (retval : Nat) :
    (write_retval s retval).tasks = s.tasks := by
  unfold write_retval
  split <;> rfl

theorem rtos_pthread_delete_tasks (s s1 : State) (thread : Nat)
    (hdel : rtos_pthread_delete s thread = some s1) : s1.tasks = s.tasks := by
  unfold rtos_pthread_delete at hdel
  cases hd : s.heap thread with
  | none => simp [hd] at hdel
  | some d =>
    simp only [hd] at hdel
    unfold uxListRemove at hdel
    by_cases hm : thread ∈ s.threads_list
    · simp [hm] at hdel
      subst hdel
      rfl
    · simp [hm] at hdel

/-- The invariant in a state with no creation in progress. -/
theorem quiet_inv_idle (s : State) (joining : List (Nat × Nat × Nat)) (exiting : List Nat)
    (hnd : exiting.Nodup) (hex : exiting_ok s exiting) (hreg : registry_inv s) :
    quiet_inv ⟨s, [], joining, exiting⟩ :=
  ⟨hnd, hex, hreg.2.2.1, fun _ => hreg, fun c hc => by simp at hc⟩

theorem quiet_inv_detach (σ σ1 : Sys) (cur thread : Nat) (take : Bool)
    (h : quiet_inv σ) (hc : σ.creating = [])
    (hs : σ.step (Op.detach cur thread take) = some σ1) : quiet_inv σ1 := by
  simp only [Sys.step] at hs
  by_cases hrun : σ.can_run cur = true
  swap
  · rw [if_neg hrun] at hs
    cases hs
  rw [if_pos hrun] at hs
  clear hrun
  obtain ⟨st, creating, joining, exiting⟩ := σ
  dsimp only at hc hs
  subst hc
  obtain ⟨hnd, hex, _, hreg, _⟩ := h
  have hr : registry_inv st := hreg rfl
  cases hd : pthread_detach st thread take with
  | none =>
    rw [hd] at hs
    cases hs
  | some r =>
    obtain ⟨s1, e⟩ := r
    rw [hd] at hs
    simp only [Option.map_some', Option.some.injEq] at hs
    subst hs
    refine quiet_inv_idle s1 joining exiting hnd ?_
      (registry_inv_detach st s1 thread take e hr hd)
    rcases pthread_detach_cases st s1 thread take e hr.1 hd with ⟨hl, hh, ht⟩ | ⟨d, _, hdd, h1⟩
    · exact exiting_ok_congr st s1 _ hl hh ht hex
    · subst h1
      exact exiting_ok_store st thread d _ _ hdd rfl (fun h => h) hex

theorem quiet_inv_join (σ σ1 : Sys) (cur thread retval : Nat) (take : Bool)
    (h : quiet_inv σ) (hc : σ.creating = [])
    (hs : σ.step (Op.join cur thread retval take) = some σ1) : quiet_inv σ1 := by
  simp only [Sys.step] at hs
  by_cases hrun : σ.can_run cur = true
  swap
  · rw [if_neg hrun] at hs
    cases hs
  rw [if_pos hrun] at hs
  clear hrun
  obtain ⟨st, creating, joining, exiting⟩ := σ
  dsimp only at hc hs
  subst hc
  obtain ⟨hnd, hex, _, hreg, _⟩ := h
  have hr : registry_inv st := hreg rfl
  cases hj : pthread_join_locked st cur thread take with
  | none =>
    rw [hj] at hs
    cases hs
  | some r =>
    obtain ⟨s1, ret, wait⟩ := r
    rw [hj] at hs
    simp only [Option.map_some', Option.some.injEq] at hs
    have hr1 : registry_inv s1 := registry_inv_join_locked st s1 cur thread take ret wait hr hj
    have hex1 : exiting_ok s1 exiting := by
      rcases pthread_join_locked_cases st s1 cur thread take ret wait hr.1 hj with
        h1 | ⟨d, _, hdd, hj0, h1⟩ | h1
      · subst h1
        exact hex
      · subst h1
        refine exiting_ok_store st thread d _ _ hdd rfl (fun hk => ?_) hex
        rcases hk with hk | hk
        · exact Or.inl hk
        · exact absurd hj0 hk
      · exact exiting_ok_delete st s1 thread _ h1 hex
    by_cases hw : ret = 0 ∧ wait = true
    · rw [if_pos hw] at hs
      subst hs
      exact quiet_inv_idle s1 _ exiting hnd hex1 hr1
    · rw [if_neg hw] at hs
      subst hs
      exact quiet_inv_idle _ _ exiting hnd
        (exiting_ok_congr s1 _ _ (write_retval_threads_list s1 retval)
          (write_retval_heap s1 retval) (write_retval_tasks s1 retval) hex1)
        (registry_inv_congr s1 _ (write_retval_threads_list s1 retval)
          (write_retval_heap s1 retval) (write_retval_tasks s1 retval) hr1)

theorem quiet_inv_join_wake (σ σ1 : Sys) (cur thread retval : Nat) (take : Bool)
    (h : quiet_inv σ) (hc : σ.creating = [])
    (hs : σ.step (Op.join_wake cur thread retval take) = some σ1) : quiet_inv σ1 := by
  obtain ⟨st, creating, joining, exiting⟩ := σ
  dsimp only at hc
  subst hc
  obtain ⟨hnd, hex, _, hreg, _⟩ := h
  have hr : registry_inv st := hreg rfl
  simp only [Sys.step] at hs
  by_cases hg : (cur, thread, retval) ∈ joining ∧ st.notified cur = true
  · rw [if_pos hg] at hs
    have hr0 : registry_inv (task_notify_wait st cur) := registry_inv_congr st _ rfl rfl rfl hr
    have hex0 : exiting_ok (task_notify_wait st cur) exiting :=
      exiting_ok_congr st _ _ rfl rfl rfl hex
    cases take with
    | false =>
      simp only [if_true, Option.some.injEq] at hs
      subst hs
      exact quiet_inv_idle _ _ exiting hnd (exiting_ok_congr _ _ _ rfl rfl rfl hex0)
        (registry_inv_congr _ _ rfl rfl rfl hr0)
    | true =>
      simp only [Bool.true_eq_false, if_false] at hs
      cases hdel : rtos_pthread_delete (task_notify_wait st cur) thread with
      | none =>
        rw [hdel] at hs
        cases hs
      | some s3 =>
        rw [hdel] at hs
        simp only [Option.map_some', Option.some.injEq] at hs
        subst hs
        have hr3 : registry_inv s3 := registry_inv_delete _ s3 thread hr0 hdel
        have hex3 : exiting_ok s3 exiting := exiting_ok_delete _ s3 thread _ hdel hex0
        exact quiet_inv_idle _ _ exiting hnd
          (exiting_ok_congr s3 _ _ (write_retval_threads_list s3 retval)
            (write_retval_heap s3 retval) (write_retval_tasks s3 retval) hex3)
          (registry_inv_congr s3 _ (write_retval_threads_list s3 retval)
            (write_retval_heap s3 retval) (write_retval_tasks s3 retval) hr3)
  · rw [if_neg hg] at hs
    cases hs

theorem quiet_inv_exit (σ σ1 : Sys) (cur : Nat) (take : Bool)
    (h : quiet_inv σ) (hc : σ.creating = [])
    (hs : σ.step (Op.exit cur take) = some σ1) : quiet_inv σ1 := by
  simp only [Sys.step] at hs
  by_cases hg : σ.can_run cur = true
  · rw [if_pos hg] at hs
    obtain ⟨halive, hnot, _⟩ := of_decide_eq_true hg
    clear hg
    obtain ⟨st, creating, joining, exiting⟩ := σ
    dsimp only at hc hs halive hnot
    subst hc
    have hinv := h
    obtain ⟨hnd, hex, _, hreg, _⟩ := h
    have hr : registry_inv st := hreg rfl
    cases take with
    | false =>
      simp only [if_true, Option.some.injEq] at hs
      subst hs
      exact hinv
    | true =>
      simp only [Bool.true_eq_false, if_false] at hs
      cases he : pthread_task_fn_exit_locked st cur with
      | none =>
        rw [he] at hs
        cases hs
      | some s1 =>
        rw [he] at hs
        simp only [Option.map_some', Option.some.injEq] at hs
        subst hs
        obtain ⟨c, d, hlist, hd, hval, hcase⟩ :=
          pthread_task_fn_exit_locked_cases st s1 cur hr he
        have hm : c ∈ st.threads_list := by rw [hlist]; simp
        have hall : registry_inv s1 ∧ exiting_ok s1 exiting ∧ s1.tasks = st.tasks ∧
            ∀ p ∈ s1.threads_list, ∀ x, s1.heap p = some x →
              (x.state = RTOS_PTHREAD_STATE_EXITED ∨ x.join_handle ≠ 0) := by
          rcases hcase with ⟨hdel, hnil⟩ | ⟨hj, h1⟩ | h1
          · refine ⟨registry_inv_delete st s1 c hr hdel, exiting_ok_delete st s1 c _ hdel hex,
              rtos_pthread_delete_tasks st s1 c hdel, fun p hp => ?_⟩
            rw [hnil] at hp
            simp at hp
          · subst h1
            refine ⟨registry_inv_congr st _ rfl rfl rfl hr, exiting_ok_congr st _ _ rfl rfl rfl hex,
              rfl, fun p hp x hx => ?_⟩
            have hp1 : p ∈ st.threads_list := hp
            rw [hlist] at hp1
            have hpc : p = c := by simpa using hp1
            subst hpc
            have hx1 : st.heap p = some x := hx
            rw [hd] at hx1
            cases hx1
            exact Or.inr hj
          · subst h1
            refine ⟨registry_inv_store st c d _ hr hm hd rfl (Or.inr (Or.inl rfl)),
              exiting_ok_store st c d _ _ hd rfl (fun _ => Or.inl rfl) hex, rfl,
              fun p hp x hx => ?_⟩
            have hp1 : p ∈ st.threads_list := hp
            rw [hlist] at hp1
            have hpc : p = c := by simpa using hp1
            subst hpc
            simp [store] at hx
            subst hx
            exact Or.inl rfl
        obtain ⟨hr1, hex1, ht1, hdone⟩ := hall
        refine quiet_inv_idle s1 joining (cur :: exiting) (List.nodup_cons.mpr ⟨hnot, hnd⟩) ?_ hr1
        intro e hmem
        rcases List.mem_cons.mp hmem with hec | hmem1
        · subst hec
          exact ⟨by rw [ht1]; exact halive, fun p hp x hx _ => hdone p hp x hx⟩
        · exact hex1 e hmem1
  · rw [if_neg hg] at hs
    cases hs

theorem quiet_inv_exit_delete (σ σ1 : Sys) (cur : Nat)
    (h : quiet_inv σ) (hc : σ.creating = [])
    (hs : σ.step (Op.exit_delete cur) = some σ1) : quiet_inv σ1 := by
  obtain ⟨st, creating, joining, exiting⟩ := σ
  dsimp only at hc
  subst hc
  obtain ⟨hnd, hex, _, hreg, _⟩ := h
  have hr : registry_inv st := hreg rfl
  simp only [Sys.step] at hs
  by_cases hg : cur ∈ exiting
  · rw [if_pos hg] at hs
    simp only [Option.some.injEq] at hs
    subst hs
    obtain ⟨hwf, hlen, h0, halive⟩ := hr
    refine quiet_inv_idle _ joining _ (hnd.erase cur) ?_ ⟨hwf, hlen, h0, fun p hp d hd => ?_⟩
    · intro e he
      have he1 : e ∈ exiting := List.mem_of_mem_erase he
      have hne : e ≠ cur := ((List.Nodup.mem_erase_iff hnd).mp he).1
      have hte : st.tasks e = true := (hex e he1).1
      refine ⟨?_, (hex e he1).2⟩
      simp [task_delete, hne, hte]
    · by_cases hv : d.list_item.xItemValue = cur
      · exact Or.inr ((hex cur hg).2 p hp d hd hv)
      · rcases halive p hp d hd with ha | hb
        · exact Or.inl (by simp [task_delete, hv, ha])
        · exact Or.inr hb
  · rw [if_neg hg] at hs
    cases hs

/-- Every move of a run without moves between the phases of a creation keeps
the invariant. -/
theorem quiet_inv_step (σ σ1 : Sys) (op : Op) (h : quiet_inv σ)
    (hq : σ.creating = [] ∨ op.continues_create = true) (hs : σ.step op = some σ1) :
    quiet_inv σ1 := by
  cases op with
  | create_init cur thread attr start_routine arg mut_handle =>
    refine quiet_inv_create_init σ σ1 cur thread attr start_routine arg mut_handle h ?_ hs
    rcases hq with hq | hq
    · exact hq
    · cases hq
  | create_alloc c task_arg pthread task =>
    exact quiet_inv_create_alloc σ σ1 c task_arg pthread task h hs
  | create_insert c take => exact quiet_inv_create_insert σ σ1 c take h hs
  | create_notify c => exact quiet_inv_create_notify σ σ1 c h hs
  | create_finish c => exact quiet_inv_create_finish σ σ1 c h hs
  | detach cur thread take =>
    refine quiet_inv_detach σ σ1 cur thread take h ?_ hs
    rcases hq with hq | hq
    · exact hq
    · cases hq
  | join cur thread retval take =>
    refine quiet_inv_join σ σ1 cur thread retval take h ?_ hs
    rcases hq with hq | hq
    · exact hq
    · cases hq
  | join_wake cur thread retval take =>
    refine quiet_inv_join_wake σ σ1 cur thread retval take h ?_ hs
    rcases hq with hq | hq
    · exact hq
    · cases hq
  | exit cur take =>
    refine quiet_inv_exit σ σ1 cur take h ?_ hs
    rcases hq with hq | hq
    · exact hq
    · cases hq
  | exit_delete cur =>
    refine quiet_inv_exit_delete σ σ1 cur h ?_ hs
    rcases hq with hq | hq
    · exact hq
    · cases hq

theorem quiet_inv_reachable (σ : Sys) (h : ReachableQuiet σ) : quiet_inv σ := by
  induction h with
  | boot tasks =>
    exact quiet_inv_idle _ [] [] List.nodup_nil (fun e he => by simp at he)
      (registry_inv_nil _ rfl rfl)
  | step σ σ1 op _ hq hs ih => exact quiet_inv_step σ σ1 op ih hq hs

/-- Run C is a run without moves between the phases of a creation. -/
theorem run_c_quiet : ReachableQuiet run_c :=
  reachable_quiet_run run_c_ops boot_sys run_c boot_sys_quiet run_c_eq

/-- C17 (counterexample).  Create (all its phases, nothing in between), join
(the main task is armed and blocks), the exit protocol of the thread and its
`task_delete(NULL)`: in the state reached descriptor `3` is in the registry
although its kernel task `11` is no longer alive and its state is RUN, not
EXITED. -/
theorem registered_dead_and_not_exited :
    ∃ σ, ReachableQuiet σ ∧ Reachable σ ∧ ∃ p ∈ σ.st.threads_list, ∃ d, σ.st.heap p = some d ∧
      σ.st.tasks d.list_item.xItemValue = false ∧ d.state ≠ RTOS_PTHREAD_STATE_EXITED :=
  ⟨run_c, run_c_quiet, reachable_of_quiet run_c run_c_quiet, 3, by decide,
    ⟨⟨11, 3⟩, 20, RTOS_PTHREAD_STATE_RUN, 0⟩, by decide, by decide, by decide⟩

/-- C17 (amended).  In every state reached by `pthread_create`, `pthread_join`,
`pthread_detach` and thread exit along a run in which no other move comes
between the phases of a `pthread_create`, every descriptor in the registry is
allocated, carries its own address, and has its kernel task still alive, or its
state EXITED, or a joiner recorded (the exiting thread notifies that joiner,
which removes the descriptor when it wakes). -/
theorem registered_alive_exited_or_joined (σ : Sys) (h : ReachableQuiet σ) :
    ∀ p ∈ σ.st.threads_list, ∃ d, σ.st.heap p = some d ∧ d.list_item.pvOwner = p ∧
      (σ.st.tasks d.list_item.xItemValue = true ∨ d.state = RTOS_PTHREAD_STATE_EXITED ∨
        d.join_handle ≠ 0) := by
  intro p hp
  obtain ⟨_, _, _, hreg, hcr⟩ := quiet_inv_reachable σ h
  cases hcs : σ.creating with
  | nil =>
    obtain ⟨hwf, _, _, halive⟩ := hreg hcs
    obtain ⟨_, d, hd, hown, _⟩ := hwf.2 p hp
    exact ⟨d, hd, hown, halive p hp d hd⟩
  | cons c rest =>
    obtain ⟨_, hci⟩ := hcr c (by rw [hcs]; exact List.mem_cons_self c rest)
    rcases hci with ⟨_, hl⟩ | ⟨_, _, hh, halive, _, ⟨_, hl⟩ | ⟨_, hl⟩⟩
    · rw [hl] at hp
      simp at hp
    · rw [hl] at hp
      simp at hp
    · rw [hl] at hp
      have hpp : p = c.pthread := by simpa using hp
      subst hpp
      exact ⟨_, hh, rfl, Or.inl halive⟩

/-- C17 (witness).  In the state of run C, descriptor `3` is registered and has
a joiner recorded. -/
theorem registered_alive_exited_or_joined_witness :
    ∃ d, run_c.st.heap 3 = some d ∧ d.list_item.pvOwner = 3 ∧
      (run_c.st.tasks d.list_item.xItemValue = true ∨ d.state = RTOS_PTHREAD_STATE_EXITED ∨
        d.join_handle ≠ 0) :=
  registered_alive_exited_or_joined run_c run_c_quiet 3 (by decide)

/-! ## The window before the store of RUN -/

/-- Run L is a run of the system; it has a move between two phases of the
creation.  In the state reached descriptor `3` is registered with state RUN and
no joiner, and its kernel task `11` is no longer alive: the creator's late store
of RUN has overwritten the EXITED the thread left. -/
theorem late_run_store_after_exit :
    Reachable run_l ∧ run_l.creating = [] ∧ run_l.exiting = [] ∧
    run_l.st.threads_list = [3] ∧
    run_l.st.heap 3 = some ⟨⟨11, 3⟩, 0, RTOS_PTHREAD_STATE_RUN, 0⟩ ∧
    run_l.st.tasks 11 = false :=
  ⟨reachable_run run_l_ops boot_sys run_l (reachable_of_quiet boot_sys boot_sys_quiet) run_l_eq,
    by decide, by decide, by decide, by decide, by decide⟩

theorem passes_checks_run_w : passes_checks run_w.st 21 3 ⟨⟨11, 3⟩, 0, 0, 0⟩ := by
  refine ⟨by decide, by decide, rfl, by decide, ?_⟩
  intro c dc hc hc0
  have hf : rtos_pthread_find run_w.st 21 = some 0 := by decide
  rw [hf] at hc
  cases hc
  exact absurd rfl hc0

/-- C3 (evaluation at the failing input).  Run W is a run of the system: task
`20` is inside `pthread_create`; it has linked descriptor `3`, released the
registry mutex and notified the new task `11`, and has not yet stored RUN.  The
registered descriptor has state `0`, which is neither RUN nor EXITED, and its
task is alive.  Task `21` joins it with the take succeeding: the four checks
pass, and the descriptor is unlinked and freed inline, without waiting, and join
returns `0`, whatever the rest of the system does.  The state after the join is
reachable (run J); there the store of RUN of task `20` has no descriptor to go
to, and neither has the exit protocol of task `11`. -/
theorem pthread_join_reclaims_before_run_store :
    Reachable run_w ∧
    run_w.st.threads_list = [3] ∧ run_w.st.heap 3 = some ⟨⟨11, 3⟩, 0, 0, 0⟩ ∧
    run_w.st.tasks 11 = true ∧ run_w.st.notified 11 = true ∧
    (0 : Nat) ≠ RTOS_PTHREAD_STATE_RUN ∧ (0 : Nat) ≠ RTOS_PTHREAD_STATE_EXITED ∧
    run_w.can_run 21 = true ∧
    passes_checks run_w.st 21 3 ⟨⟨11, 3⟩, 0, 0, 0⟩ ∧
    (pthread_join_locked run_w.st 21 3 true).map
      (fun r => (r.1.threads_list, r.1.heap 3, r.1.tasks 11, r.2))
      = some ([], none, true, 0, false) ∧
    (∀ (wake : State → State) (take2 : Bool),
      (pthread_join run_w.st 21 3 0 true wake take2).map
        (fun r => (r.1.threads_list, r.1.heap 3, r.1.tasks 11, r.2))
        = some ([], none, true, 0)) ∧
    Reachable run_j ∧ run_j.creating = [⟨3, 20, 100, 7, 0, 2, 3, 11⟩] ∧ run_j.joining = [] ∧
    run_j.st.threads_list = [] ∧ run_j.st.heap 3 = none ∧ run_j.st.tasks 11 = true ∧
    (run_j.step (Op.create_finish ⟨3, 20, 100, 7, 0, 2, 3, 11⟩)).isSome = false ∧
    run_j.can_run 11 = true ∧ (run_j.step (Op.exit 11 true)).isSome = false :=
  ⟨reachable_run create_ops boot2_sys run_w (reachable_of_quiet boot2_sys boot2_sys_quiet)
      run_w_eq,
    by decide, by decide, by decide, by decide, by decide, by decide, by decide,
    passes_checks_run_w, by decide, fun _ _ => rfl,
    reachable_run run_j_ops boot2_sys run_j (reachable_of_quiet boot2_sys boot2_sys_quiet)
      run_j_eq,
    by decide, by decide, by decide, by decide, by decide, by decide, by decide, by decide⟩

end RtosPthread
